import Mathlib

/-!
A verification development of s3fuse.

Shallow embedding of parts of the s3fuse sources and theorems about them.

* `trunk/src/fs.cc`: the open-file table (`fs::read`, `fs::write`, `flush`, `close`, `open`),
  split at the points where the table mutex is released and re-acquired; the object cache
  (`get_object`) and the path operations (`get_stats`, `rename_object`, `change_metadata`,
  `read_directory`, `create_object`, `open`, `remove_object`) with the trailing-slash check,
  which `trunk/src/s3_fs.cc` shares.
* `trunk/src/fs/object.cc`: `object::set_metadata`, `object::get_metadata`,
  `object::remove_metadata`, `object::set_request_headers`, `object::commit`,
  `object::set_mode`, `object::init`.
* `branches/0.10-google-storage/src/object.cc`: the early metadata binding
  (`set_metadata`, `get_metadata`, `remove_metadata`, `request_init`,
  `request_process_header`, `request_process_response`, `request_set_meta_headers`,
  `set_mode`, `commit_metadata`).
* `src/util.cc`: `util::url_encode`, `int_from_hex`, `util::is_valid_md5`.
* `src/base/request.cc`: `request::init`, the libcurl callbacks, `check_timeout` and the
  retry loop of `request::run`.
* `tags/release-0.13/src/services/aws_impl.cc`: the string `aws_impl::sign` authenticates.
-/

namespace S3Fuse

/-- A C++ `std::string`: a finite sequence of characters. -/
abbrev Str := List Char

/-! ## errno values (Linux, `<errno.h>`) -/

def EIO : Int := 5
def EBUSY : Int := 16
def EEXIST : Int := 17
def EINVAL : Int := 22
def ENODATA : Int := 61
/-- On platforms without `ENOATTR`, trunk/src/fs/object.cc lines 36-42 define it as `ENODATA`. -/
def ENOATTR : Int := ENODATA

/-! ## `std::map` as an association list kept in key order -/

/-- Models `std::map::find`: the value stored under `k`, if any. -/
def mapFind {κ ν : Type} [DecidableEq κ] (k : κ) : List (κ × ν) → Option ν
  | [] => none
  | (k', v) :: rest => if k' = k then some v else mapFind k rest

/-- Models `m[k] = v`: overwrite the entry of `k` or insert a new one at its place in key
order. -/
def mapInsert {κ ν : Type} [DecidableEq κ] [LT κ] [DecidableRel (α := κ) (· < ·)]
    (k : κ) (v : ν) : List (κ × ν) → List (κ × ν)
  | [] => [(k, v)]
  | (k', v') :: rest =>
    if k' = k then (k, v) :: rest
    else if k < k' then (k, v) :: (k', v') :: rest
    else (k', v') :: mapInsert k v rest

/-- Models `std::map::erase`: drop the entry of `k`. -/
def mapErase {κ ν : Type} [DecidableEq κ] (k : κ) (m : List (κ × ν)) : List (κ × ν) :=
  m.filter (fun e => decide (e.1 ≠ k))

/-- The keys of a map, in iteration order. -/
def mapKeys {κ ν : Type} (m : List (κ × ν)) : List κ := m.map Prod.fst

/-! ## The open-file table of trunk/src/fs.cc -/

/-- Modelled from the spec: the status bitmap constants of `fs.hh` (which is not in src);
the spec describes `status` as a bitmap over in-use, dirty and flushing, so each is one
distinct bit. -/
def FS_NONE : Nat := 0
/-- Modelled from the spec: the in-use bit of the status bitmap (`fs.hh` is not in src). -/
def FS_IN_USE : Nat := 1
/-- Modelled from the spec: the dirty bit of the status bitmap (`fs.hh` is not in src). -/
def FS_DIRTY : Nat := 2
/-- Modelled from the spec: the flushing bit of the status bitmap (`fs.hh` is not in src). -/
def FS_FLUSHING : Nat := 4

/-- C's `~m` on a 32-bit `int`. -/
def bitNot32 (m : Nat) : Nat := 0xFFFFFFFF ^^^ m

/-- The part of `file_handle` the table logic reads and writes. -/
structure FileHandle where
  status : Nat
  path : Str
deriving DecidableEq, Repr

/-- The members of `fs` behind `_open_files_mutex`. `handles` is the heap of `file_handle`
objects (a `handle_ptr` is an index into it: a handle erased from the table lives on while a
thread still holds the pointer), `open_files` is `_open_files`. -/
structure Fs where
  handles : List FileHandle
  open_files : List (Nat × Nat)
  next_open_file_handle : Nat
deriving DecidableEq, Repr

/-- Models `handle->status` (0 for a dangling pointer, which no well-formed state has). -/
def statusOf (fs : Fs) (h : Nat) : Nat :=
  match fs.handles[h]? with
  | some hd => hd.status
  | none => 0

/-- Apply `f` to the status of the element at index `h`. -/
def modifyAt (f : Nat → Nat) : Nat → List FileHandle → List FileHandle
  | _, [] => []
  | 0, hd :: rest => { hd with status := f hd.status } :: rest
  | h + 1, hd :: rest => hd :: modifyAt f h rest

/-- Models `handle->status = f(handle->status)`. -/
def modifyStatus (fs : Fs) (h : Nat) (f : Nat → Nat) : Fs :=
  { fs with handles := modifyAt f h fs.handles }

/-- How a first locked section ends: the operation returns `r`, or it goes on with the table
unlocked, holding the handle pointer `h`. -/
inductive Locked where
  | ret (r : Int)
  | go (h : Nat)
deriving DecidableEq, Repr

/-- The locked block at the end of `open` (fs.cc lines 318-338): a new handle with status
`FS_NONE` is stored under the next context (a `uint64_t` counter). -/
def open_locked (fs : Fs) (path : Str) : Fs × Nat :=
  let context := fs.next_open_file_handle
  ({ handles := fs.handles ++ [{ status := FS_NONE, path := path }],
     open_files := mapInsert context fs.handles.length fs.open_files,
     next_open_file_handle := (fs.next_open_file_handle + 1) % 2 ^ 64 }, context)

/-- First locked section of `fs::read` (fs.cc lines 417-431). -/
def read_lock1 (fs : Fs) (context : Nat) : Fs × Locked :=
  match mapFind context fs.open_files with
  | none => (fs, .ret (-EINVAL))
  | some h =>
    if statusOf fs h &&& FS_FLUSHING ≠ 0 then (fs, .ret (-EBUSY))
    else (modifyStatus fs h (fun s => s ||| FS_IN_USE), .go h)

/-- Second locked section of `fs::read` (fs.cc lines 435-438). -/
def read_lock2 (fs : Fs) (h : Nat) : Fs :=
  modifyStatus fs h (fun s => s &&& bitNot32 FS_IN_USE)

/-- First locked section of `fs::write` (fs.cc lines 443-459). -/
def write_lock1 (fs : Fs) (context : Nat) : Fs × Locked :=
  match mapFind context fs.open_files with
  | none => (fs, .ret (-EINVAL))
  | some h =>
    if statusOf fs h &&& FS_FLUSHING ≠ 0 then (fs, .ret (-EBUSY))
    else (modifyStatus fs h (fun s => s ||| FS_IN_USE), .go h)

/-- Second locked section of `fs::write` (fs.cc lines 463-467). -/
def write_lock2 (fs : Fs) (h : Nat) : Fs :=
  modifyStatus fs h (fun s => (s &&& bitNot32 FS_IN_USE) ||| FS_DIRTY)

/-- First locked section of `flush` (fs.cc lines 347-366). -/
def flush_lock1 (fs : Fs) (context : Nat) : Fs × Locked :=
  match mapFind context fs.open_files with
  | none => (fs, .ret (-EINVAL))
  | some h =>
    if statusOf fs h &&& FS_IN_USE ≠ 0 then (fs, .ret (-EBUSY))
    else if statusOf fs h &&& FS_FLUSHING ≠ 0 then (fs, .ret 0)
    else (modifyStatus fs h (fun s => s ||| FS_FLUSHING), .go h)

/-- The unlocked part of `flush` and `close` (fs.cc lines 368-369 and 399-400): the upload
`flush(req, handle)` runs only if the dirty bit is set; `upload` is what it returns. The
result is `r` and whether the upload was started. -/
def flush_unlocked (fs : Fs) (h : Nat) (upload : Int) : Int × Bool :=
  if statusOf fs h &&& FS_DIRTY ≠ 0 then (upload, true) else (0, false)

/-- Second locked section of `flush` (fs.cc lines 371-377). -/
def flush_lock2 (fs : Fs) (h : Nat) (r : Int) : Fs :=
  let fs1 := modifyStatus fs h (fun s => s &&& bitNot32 FS_FLUSHING)
  if r = 0 then modifyStatus fs1 h (fun s => s &&& bitNot32 FS_DIRTY) else fs1

/-- First locked section of `close` (fs.cc lines 382-397). -/
def close_lock1 (fs : Fs) (context : Nat) : Fs × Locked :=
  match mapFind context fs.open_files with
  | none => (fs, .ret (-EINVAL))
  | some h =>
    if statusOf fs h &&& FS_IN_USE ≠ 0 ∨ statusOf fs h &&& FS_FLUSHING ≠ 0 then
      (fs, .ret (-EBUSY))
    else (modifyStatus fs h (fun s => s ||| FS_FLUSHING), .go h)

/-- Second locked section of `close` (fs.cc lines 402-412); `_stats_cache` is not part of
this model. -/
def close_lock2 (fs : Fs) (context h : Nat) (r : Int) : Fs :=
  let fs1 := modifyStatus fs h (fun s => s &&& bitNot32 FS_FLUSHING)
  if r = 0 then
    let fs2 := modifyStatus fs1 h (fun s => s &&& bitNot32 FS_DIRTY)
    { fs2 with open_files := mapErase context fs2.open_files }
  else fs1

/-! ### The operations run by one thread without interference -/

/-- Models `fs::read`; `pread_result` is what `pread` returns. -/
def fs_read (fs : Fs) (context : Nat) (pread_result : Int) : Int × Fs :=
  match read_lock1 fs context with
  | (fs1, .ret r) => (r, fs1)
  | (fs1, .go h) => (pread_result, read_lock2 fs1 h)

/-- Models `fs::write`; `pwrite_result` is what `pwrite` returns. -/
def fs_write (fs : Fs) (context : Nat) (pwrite_result : Int) : Int × Fs :=
  match write_lock1 fs context with
  | (fs1, .ret r) => (r, fs1)
  | (fs1, .go h) => (pwrite_result, write_lock2 fs1 h)

/-- Models `flush(context)`; the result is the return value, the table afterwards and whether the
upload was started. -/
def fs_flush (fs : Fs) (context : Nat) (upload : Int) : Int × Fs × Bool :=
  match flush_lock1 fs context with
  | (fs1, .ret r) => (r, fs1, false)
  | (fs1, .go h) =>
    let ru := flush_unlocked fs1 h upload
    (ru.1, flush_lock2 fs1 h ru.1, ru.2)

/-- Models `close(context)`, like `fs_flush`. -/
def fs_close (fs : Fs) (context : Nat) (upload : Int) : Int × Fs × Bool :=
  match close_lock1 fs context with
  | (fs1, .ret r) => (r, fs1, false)
  | (fs1, .go h) =>
    let ru := flush_unlocked fs1 h upload
    (ru.1, close_lock2 fs1 context h ru.1, ru.2)

/-! ### Threads interleaved at the unlock/lock points -/

/-- Where a thread stands: idle, or inside the unlocked part of an operation, holding the
handle pointer it looked up. -/
inductive Pc where
  | idle
  | in_read (h : Nat)
  | in_write (h : Nat)
  | flush_pending (h : Nat)
  | flush_done (h : Nat) (r : Int)
  | close_pending (context h : Nat)
  | close_done (context h : Nat) (r : Int)
deriving DecidableEq, Repr

/-- The table together with the program counter of every thread. -/
structure Sys where
  fs : Fs
  threads : Nat → Pc

/-- Set the program counter of thread `t`. -/
def setPc (threads : Nat → Pc) (t : Nat) (pc : Pc) : Nat → Pc :=
  fun u => if u = t then pc else threads u

/-- One atomic step of one thread: a locked section, or the unlocked test of the dirty bit
with the upload. -/
inductive Action where
  | open_ (path : Str)
  | read_begin (t context : Nat)
  | read_end (t : Nat)
  | write_begin (t context : Nat)
  | write_end (t : Nat)
  | flush_begin (t context : Nat)
  | flush_upload (t : Nat) (upload : Int)
  | flush_end (t : Nat)
  | close_begin (t context : Nat)
  | close_upload (t : Nat) (upload : Int)
  | close_end (t : Nat)
deriving DecidableEq, Repr

/-- Enter an operation: run its first locked section if the thread is idle. -/
def enter (s : Sys) (t : Nat) (res : Fs × Locked) (pc : Nat → Pc) : Sys :=
  if s.threads t = .idle then
    match res with
    | (fs1, .ret _) => { s with fs := fs1 }
    | (fs1, .go h) => { fs := fs1, threads := setPc s.threads t (pc h) }
  else s

/-- The step function of the interleaved system; an action that does not fit the thread's
program counter leaves the state as it is. -/
def step (s : Sys) : Action → Sys
  | .open_ path => { s with fs := (open_locked s.fs path).1 }
  | .read_begin t context => enter s t (read_lock1 s.fs context) .in_read
  | .read_end t =>
    match s.threads t with
    | .in_read h => { fs := read_lock2 s.fs h, threads := setPc s.threads t .idle }
    | _ => s
  | .write_begin t context => enter s t (write_lock1 s.fs context) .in_write
  | .write_end t =>
    match s.threads t with
    | .in_write h => { fs := write_lock2 s.fs h, threads := setPc s.threads t .idle }
    | _ => s
  | .flush_begin t context => enter s t (flush_lock1 s.fs context) .flush_pending
  | .flush_upload t upload =>
    match s.threads t with
    | .flush_pending h =>
      { s with threads := setPc s.threads t (.flush_done h (flush_unlocked s.fs h upload).1) }
    | _ => s
  | .flush_end t =>
    match s.threads t with
    | .flush_done h r => { fs := flush_lock2 s.fs h r, threads := setPc s.threads t .idle }
    | _ => s
  | .close_begin t context => enter s t (close_lock1 s.fs context) (.close_pending context)
  | .close_upload t upload =>
    match s.threads t with
    | .close_pending context h =>
      { s with
        threads := setPc s.threads t (.close_done context h (flush_unlocked s.fs h upload).1) }
    | _ => s
  | .close_end t =>
    match s.threads t with
    | .close_done context h r =>
      { fs := close_lock2 s.fs context h r, threads := setPc s.threads t .idle }
    | _ => s

/-- The empty open-file table, every thread idle. -/
def Sys.init : Sys :=
  { fs := { handles := [], open_files := [], next_open_file_handle := 0 },
    threads := fun _ => .idle }

/-- The state reached from the empty table by a sequence of steps. -/
def run (acts : List Action) : Sys := acts.foldl step Sys.init

/-- No handle has both the in-use and the flushing bit set. -/
def Exclusive (fs : Fs) : Prop :=
  ∀ hd ∈ fs.handles, ¬ (hd.status &&& FS_IN_USE ≠ 0 ∧ hd.status &&& FS_FLUSHING ≠ 0)

/-! ## C library and platform helpers -/

/-- The file-type mask of `st_mode` (`<sys/stat.h>`, octal 0170000). -/
def S_IFMT : Nat := 0o170000

/-- Models `XATTR_CREATE` of `<sys/xattr.h>` (Linux). -/
def XATTR_CREATE : Nat := 1
/-- Models `XATTR_REPLACE` of `<sys/xattr.h>` (Linux). -/
def XATTR_REPLACE : Nat := 2

def LONG_MAX : Int := 2 ^ 63 - 1
def LONG_MIN : Int := -(2 ^ 63)

/-- Conversion of a `long` to a 32-bit unsigned type (`mode_t`, `uid_t`, `gid_t`). -/
def toU32 (x : Int) : Nat := (x % 2 ^ 32).toNat

/-- A 32-bit unsigned value read as an `int` (what `%i` prints for a `uid_t`). -/
def toS32 (x : Nat) : Int :=
  if x % 2 ^ 32 < 2 ^ 31 then ((x % 2 ^ 32 : Nat) : Int) else ((x % 2 ^ 32 : Nat) : Int) - 2 ^ 32

/-- C `isspace` in the "C" locale. -/
def isspace (c : Char) : Bool :=
  c = ' ' || c = '\t' || c = '\n' || c = '\x0b' || c = '\x0c' || c = '\r'

/-- The value of a digit of `strtol`. -/
def digitVal (c : Char) : Option Nat :=
  if '0' ≤ c ∧ c ≤ '9' then some (c.toNat - 48)
  else if 'a' ≤ c ∧ c ≤ 'z' then some (c.toNat - 87)
  else if 'A' ≤ c ∧ c ≤ 'Z' then some (c.toNat - 55)
  else none

/-- The digits `strtol` consumes in the given base, accumulated on `acc`. -/
def strtolDigits (base : Nat) : List Char → Nat → Nat
  | [], acc => acc
  | c :: cs, acc =>
    match digitVal c with
    | some d => if d < base then strtolDigits base cs (acc * base + d) else acc
    | none => acc

/-- C `strtol(s, NULL, 0)` with a 64-bit `long`: leading white space, an optional sign, the
base from the prefix (`0x` hexadecimal, `0` octal, decimal otherwise), the longest run of
digits, and the value clamped to `LONG_MIN .. LONG_MAX`. Any character that is not a digit,
the terminating NUL included, ends the number. -/
def strtol (s : Str) : Int :=
  let s1 := s.dropWhile isspace
  let signed : Bool × Str :=
    match s1 with
    | '-' :: r => (true, r)
    | '+' :: r => (false, r)
    | _ => (false, s1)
  let s2 := signed.2
  let based : Nat × Str :=
    match s2 with
    | '0' :: x :: d :: r =>
      if (x = 'x' ∨ x = 'X') ∧ (digitVal d).any (fun v => decide (v < 16)) then (16, d :: r)
      else (8, s2)
    | '0' :: _ => (8, s2)
    | _ => (10, s2)
  let n : Nat := strtolDigits based.1 based.2 0
  if signed.1 then (if (n : Int) > 2 ^ 63 then LONG_MIN else -(n : Int))
  else (if (n : Int) > LONG_MAX then LONG_MAX else (n : Int))

/-- C `strncmp(a, b, n) == 0` on the `c_str()` views of two strings: the comparison stops at
the first difference, at a NUL (the terminator past the end, or an embedded one) or after
`n` characters. -/
def strncmp_eq : Str → Str → Nat → Bool
  | _, _, 0 => true
  | a, b, n + 1 =>
    if a.headD '\x00' ≠ b.headD '\x00' then false
    else if a.headD '\x00' = '\x00' then true
    else strncmp_eq a.tail b.tail n

/-- Models `snprintf(buf, 16, ...)`: at most 15 characters are kept. -/
def snprintf16 (s : Str) : Str := s.take 15

/-- The text of `%#o`: octal with a leading `0`, and `0` for zero. -/
def fmt_alt_octal (n : Nat) : Str :=
  if n = 0 then ['0'] else '0' :: Nat.toDigits 8 n

/-- The text of `%i` and `%li`. -/
def fmt_int (i : Int) : Str :=
  if i < 0 then '-' :: Nat.toDigits 10 i.natAbs else Nat.toDigits 10 i.natAbs

/-- Models `s.substr(pos)`: `none` stands for the `std::out_of_range` thrown when
`pos > size()`. -/
def substr_from (s : Str) (pos : Nat) : Option Str :=
  if pos ≤ s.length then some (s.drop pos) else none

/-- Models `s.substr(pos, len)`: `none` stands for the `std::out_of_range` thrown when
`pos > size()`. -/
def substr (s : Str) (pos len : Nat) : Option Str :=
  if pos ≤ s.length then some ((s.drop pos).take len) else none

/-- The fields of `struct stat` the objects use. -/
structure Stat where
  st_mode : Nat
  st_uid : Nat
  st_gid : Nat
  st_size : Int
  st_mtime : Int
  st_nlink : Nat
  st_blksize : Nat
  st_blocks : Int
deriving DecidableEq, Repr

/-- Modelled from the spec: the service plugin (`service.h` is not in src), a variant over
AWS and GCS. -/
inductive Service where
  | aws
  | gcs
deriving DecidableEq, Repr

/-- Modelled from the spec: `service::get_header_prefix()` (`service.h` is not in src), which
is `x-amz-` for AWS and `x-goog-` for GCS. -/
def Service.get_header_prefix : Service → Str
  | .aws => "x-amz-".toList
  | .gcs => "x-goog-".toList

/-- Modelled from the spec: `service::get_header_meta_prefix()` (`service.h` is not in src),
which is `x-amz-meta-` for AWS and `x-goog-meta-` for GCS. -/
def Service.get_header_meta_prefix : Service → Str
  | .aws => "x-amz-meta-".toList
  | .gcs => "x-goog-meta-".toList

/-- The configuration values and process identity the objects read (`config.h` is not in
src): they are inputs of the model. -/
structure Config where
  default_mode : Nat
  default_uid : Nat
  default_gid : Nat
  uid_max : Nat
  gid_max : Nat
  euid : Nat
  egid : Nat
deriving DecidableEq, Repr

/-- An HTTP request as the objects build it: `init` clears the headers, `set_header`
overwrites (`header_map` is a `std::map`). -/
structure Request where
  method : Str
  url : Str
  headers : List (Str × Str)
deriving DecidableEq, Repr

/-- Models `req->init(method)`. -/
def Request.init (method : Str) : Request := { method := method, url := [], headers := [] }

/-- Models `req->set_url(url)`. -/
def Request.set_url (req : Request) (url : Str) : Request := { req with url := url }

/-- Models `req->set_header(key, value)`. -/
def Request.set_header (req : Request) (key value : Str) : Request :=
  { req with headers := mapInsert key value req.headers }

/-- What `req->run()` leaves behind: the response code and the response body. -/
structure Response where
  code : Nat
  output : Str
deriving DecidableEq, Repr

/-- The store: the response to the `i`-th request an operation runs. -/
abbrev Server := Nat → Request → Response

/-! ## The early binding: branches/0.10-google-storage/src/object.cc -/

namespace Early

/-- Models `META_PREFIX` (object.cc line 39). -/
def META_PREFIX : Str := "meta-".toList
/-- Models `META_PREFIX_RESERVED` (object.cc line 40). -/
def META_PREFIX_RESERVED : Str := "s3fuse-".toList
/-- Models `META_PREFIX_RESERVED_LEN` (object.cc line 43). -/
def META_PREFIX_RESERVED_LEN : Nat := META_PREFIX_RESERVED.length

/-- Models `enum object_type` (src/object.h). -/
inductive object_type where
  | OT_INVALID
  | OT_FILE
  | OT_DIRECTORY
  | OT_SYMLINK
deriving DecidableEq, Repr

/-- The members of `object` in the early binding. -/
structure Object where
  type : object_type
  path : Str
  url : Str
  content_type : Str
  etag : Str
  mtime_etag : Str
  md5 : Str
  md5_etag : Str
  expiry : Int
  stat : Stat
  metadata : List (Str × Str)
deriving DecidableEq, Repr

/-- Models `object::init_stat` (lines 89-103). -/
def init_stat (cfg : Config) : Stat :=
  { st_mode := cfg.default_mode,
    st_uid := if cfg.default_uid = cfg.uid_max then cfg.euid else cfg.default_uid,
    st_gid := if cfg.default_gid = cfg.gid_max then cfg.egid else cfg.default_gid,
    st_size := 0, st_mtime := 0, st_nlink := 1, st_blksize := 0, st_blocks := 0 }

/-- Models `object::set_metadata` (lines 105-124): the return value and the object afterwards. -/
def set_metadata (o : Object) (key value : Str) (flags : Nat) : Int × Object :=
  let itor := mapFind key o.metadata
  if strncmp_eq key META_PREFIX_RESERVED META_PREFIX_RESERVED_LEN then (-EINVAL, o)
  else if key = "__md5__".toList ∨ key = "__etag__".toList ∨ key = "__content_type__".toList then
    (-EINVAL, o)
  else if flags &&& XATTR_CREATE ≠ 0 ∧ itor.isSome then (-EEXIST, o)
  else if flags &&& XATTR_REPLACE ≠ 0 ∧ itor.isNone then (-ENODATA, o)
  else (0, { o with metadata := mapInsert key value o.metadata })

/-- Models `object::get_metadata` (lines 138-159): the return value and what `*value` holds when
it was written. -/
def get_metadata (o : Object) (key : Str) : Int × Option Str :=
  if key = "__md5__".toList then (0, some o.md5)
  else if key = "__etag__".toList then (0, some o.etag)
  else if key = "__content_type__".toList then (0, some o.content_type)
  else
    match mapFind key o.metadata with
    | none => (-ENODATA, none)
    | some v => (0, some v)

/-- Models `object::remove_metadata` (lines 161-171). -/
def remove_metadata (o : Object) (key : Str) : Int × Object :=
  match mapFind key o.metadata with
  | none => (-ENODATA, o)
  | some _ => (0, { o with metadata := mapErase key o.metadata })

/-- Models `object::request_init` (lines 183-196). -/
def request_init (cfg : Config) (o : Object) : Object :=
  { o with
    stat := init_stat cfg, type := .OT_INVALID, content_type := [], etag := [],
    mtime_etag := [], md5 := [], md5_etag := [], expiry := 0, metadata := [], url := [] }

/-- Models `object::request_process_header` (lines 198-231). -/
def request_process_header (svc : Service) (o : Object) (key value : Str) : Object :=
  let long_value := strtol value
  let meta_prefix := svc.get_header_prefix ++ META_PREFIX
  if key = "Content-Type".toList then { o with content_type := value }
  else if key = "ETag".toList then { o with etag := value }
  else if key = "Content-Length".toList then { o with stat := { o.stat with st_size := long_value } }
  else if key = meta_prefix ++ "s3fuse-mode".toList then
    { o with stat := { o.stat with st_mode := toU32 long_value &&& bitNot32 S_IFMT } }
  else if key = meta_prefix ++ "s3fuse-uid".toList then
    { o with stat := { o.stat with st_uid := toU32 long_value } }
  else if key = meta_prefix ++ "s3fuse-gid".toList then
    { o with stat := { o.stat with st_gid := toU32 long_value } }
  else if key = meta_prefix ++ "s3fuse-mtime".toList then
    { o with stat := { o.stat with st_mtime := long_value } }
  else if key = meta_prefix ++ "s3fuse-mtime-etag".toList then { o with mtime_etag := value }
  else if key = meta_prefix ++ "s3fuse-md5".toList then { o with md5 := value }
  else if key = meta_prefix ++ "s3fuse-md5-etag".toList then { o with md5_etag := value }
  else if strncmp_eq key meta_prefix meta_prefix.length
      ∧ ¬ strncmp_eq (key.drop meta_prefix.length) META_PREFIX_RESERVED META_PREFIX_RESERVED_LEN
  then { o with metadata := mapInsert (key.drop meta_prefix.length) value o.metadata }
  else o

/-- Models `object::request_set_meta_headers` (lines 275-301). -/
def request_set_meta_headers (svc : Service) (o : Object) (req : Request) : Request :=
  let meta_prefix := svc.get_header_prefix ++ META_PREFIX
  let req := o.metadata.foldl (fun r e => r.set_header ( meta_prefix ++ e.1) e.2) req
  let req := req.set_header ( meta_prefix ++ "s3fuse-mode".toList)
    (snprintf16 (fmt_alt_octal (o.stat.st_mode &&& bitNot32 S_IFMT)))
  let req := req.set_header ( meta_prefix ++ "s3fuse-uid".toList)
    (snprintf16 (fmt_int (toS32 o.stat.st_uid)))
  let req := req.set_header ( meta_prefix ++ "s3fuse-gid".toList)
    (snprintf16 (fmt_int (toS32 o.stat.st_gid)))
  let req := req.set_header ( meta_prefix ++ "s3fuse-mtime".toList)
    (snprintf16 (fmt_int o.stat.st_mtime))
  let req := req.set_header ( meta_prefix ++ "s3fuse-mtime-etag".toList) o.mtime_etag
  let req := req.set_header ( meta_prefix ++ "s3fuse-md5".toList) o.md5
  let req := req.set_header ( meta_prefix ++ "s3fuse-md5-etag".toList) o.md5_etag
  req.set_header "Content-Type".toList o.content_type

/-- The request `object::commit_metadata` builds (lines 305-310). -/
def commit_metadata_request (svc : Service) (o : Object) : Request :=
  let req := Request.init "PUT".toList
  let req := req.set_url o.url
  let req := req.set_header (svc.get_header_prefix ++ "copy-source".toList) o.url
  let req := req.set_header (svc.get_header_prefix ++ "copy-source-if-match".toList) o.etag
  let req := req.set_header (svc.get_header_prefix ++ "metadata-directive".toList)
    "REPLACE".toList
  request_set_meta_headers svc o req

/-- Models `object::commit_metadata` (lines 303-320): the return value and the requests run. -/
def commit_metadata (svc : Service) (srv : Server) (o : Object) : Int × List Request :=
  let req := commit_metadata_request svc o
  let resp := srv 0 req
  if resp.code ≠ 200 then (- EIO, [req]) else (0, [req])

/-- The calls that touch the metadata map. -/
inductive MetaOp where
  | set_metadata (key value : Str) (flags : Nat)
  | remove_metadata (key : Str)
  | request_init
  | request_process_header (key value : Str)
deriving DecidableEq, Repr

/-- Run one call on the object. -/
def MetaOp.apply (svc : Service) (cfg : Config) (o : Object) : MetaOp → Object
  | .set_metadata key value flags => (Early.set_metadata o key value flags).2
  | .remove_metadata key => (Early.remove_metadata o key).2
  | .request_init => Early.request_init cfg o
  | .request_process_header key value => Early.request_process_header svc o key value

end Early

/-! ## The later binding: trunk/src/fs/object.cc -/

namespace Trunk

/-- Models `XATTR_PREFIX` with `NEED_XATTR_PREFIX` defined (object.cc lines 44-46, 68-70). -/
def XATTR_PREFIX : Str := "user.".toList
/-- Models `XATTR_PREFIX_LEN` (object.cc line 70). -/
def XATTR_PREFIX_LEN : Nat := XATTR_PREFIX.length

/-- Modelled from the spec: the per-entry flag `writable` of `xattr.h` (not in src). -/
def XM_WRITABLE : Nat := 1
/-- Modelled from the spec: the per-entry flag `serializable` of `xattr.h` (not in src). -/
def XM_SERIALIZABLE : Nat := 2
/-- Modelled from the spec: the per-entry flag `visible` of `xattr.h` (not in src). -/
def XM_VISIBLE : Nat := 4
/-- Modelled from the spec: the per-entry flag `removable` of `xattr.h` (not in src). -/
def XM_REMOVABLE : Nat := 8
/-- Modelled from the spec: the per-entry flag `commit-required` of `xattr.h` (not in
src). -/
def XM_COMMIT_REQUIRED : Nat := 16

/-- Models `USER_XATTR_FLAGS` (object.cc lines 75-80). -/
def USER_XATTR_FLAGS : Nat :=
  XM_WRITABLE ||| XM_SERIALIZABLE ||| XM_VISIBLE ||| XM_REMOVABLE ||| XM_COMMIT_REQUIRED

/-- Modelled from the spec: an entry of the metadata map (`static_xattr.h` is not in src): a
user xattr name, its bytes and its flag set. -/
structure Xattr where
  key : Str
  value : Str
  mode : Nat
deriving DecidableEq, Repr

/-- Modelled from the spec: `static_xattr::create(key, mode)` (`static_xattr.h` is not in
src), an entry without a value yet. -/
def static_xattr_create (key : Str) (mode : Nat) : Xattr :=
  { key := key, value := [], mode := mode }

/-- Modelled from the spec: `xattr::is_writable` (`xattr.h` is not in src). -/
def Xattr.is_writable (x : Xattr) : Bool := x.mode &&& XM_WRITABLE ≠ 0
/-- Modelled from the spec: `xattr::is_serializable` (`xattr.h` is not in src). -/
def Xattr.is_serializable (x : Xattr) : Bool := x.mode &&& XM_SERIALIZABLE ≠ 0
/-- Modelled from the spec: `xattr::is_commit_required` (`xattr.h` is not in src). -/
def Xattr.is_commit_required (x : Xattr) : Bool := x.mode &&& XM_COMMIT_REQUIRED ≠ 0

/-- Modelled from the spec: `static_xattr::set_value` (`static_xattr.h` is not in src): the
bytes are stored and 0 is returned. -/
def Xattr.set_value (x : Xattr) (value : Str) : Int × Xattr := (0, { x with value := value })

/-- Modelled from the spec: `static_xattr::to_header` (`static_xattr.h` is not in src): user
xattrs are stored as `<meta-prefix><user-name>`, so the header key is the name and the
header value the bytes. -/
def Xattr.to_header (x : Xattr) : Str × Str := (x.key, x.value)

/-- Modelled from the spec: the header suffixes of `metadata.h` (not in src), as listed in
the spec's table of custom headers. -/
def metadata_MODE : Str := "s3fuse-mode".toList
/-- Modelled from the spec: header suffix of the uid (`metadata.h` is not in src). -/
def metadata_UID : Str := "s3fuse-uid".toList
/-- Modelled from the spec: header suffix of the gid (`metadata.h` is not in src). -/
def metadata_GID : Str := "s3fuse-gid".toList
/-- Modelled from the spec: header suffix of the mtime (`metadata.h` is not in src). -/
def metadata_LAST_MODIFIED_TIME : Str := "s3fuse-mtime".toList
/-- Modelled from the spec: header suffix of the etag observed at the last update
(`metadata.h` is not in src). -/
def metadata_LAST_UPDATE_ETAG : Str := "s3fuse-mtime-etag".toList

/-- The members of `object` in the later binding that metadata and commit use. -/
structure Object where
  path : Str
  url : Str
  content_type : Str
  etag : Str
  expiry : Int
  stat : Stat
  metadata : List (Str × Xattr)
  intact : Bool := false
deriving DecidableEq, Repr

/-- What `set_metadata` hands back: the return value, `*needs_commit` and the object. -/
structure SetResult where
  ret : Int
  needs_commit : Bool
  obj : Object
deriving DecidableEq, Repr

/-- The tail of `object::set_metadata` (lines 203-208), on the entry `itor` points to. -/
def set_metadata_entry (o : Object) (user_key : Str) (x : Xattr) (value : Str) : SetResult :=
  if ¬ x.is_writable then { ret := 0, needs_commit := false, obj := o }
  else
    { ret := (x.set_value value).1, needs_commit := x.is_commit_required,
      obj := { o with metadata := mapInsert user_key (x.set_value value).2 o.metadata } }

/-- Models `object::set_metadata` (lines 174-209); `none` stands for the `std::out_of_range` that
`key.substr(XATTR_PREFIX_LEN)` throws for a key shorter than the prefix. -/
def set_metadata (o : Object) (key value : Str) (flags : Nat) : Option SetResult :=
  match substr_from key XATTR_PREFIX_LEN, substr key 0 XATTR_PREFIX_LEN with
  | some user_key, some key_head =>
    let itor := mapFind user_key o.metadata
    if key_head ≠ XATTR_PREFIX then some { ret := -EINVAL, needs_commit := false, obj := o }
    else if flags &&& XATTR_CREATE ≠ 0 ∧ itor.isSome then
      some { ret := -EEXIST, needs_commit := false, obj := o }
    else
      match itor with
      | none =>
        if flags &&& XATTR_REPLACE ≠ 0 then
          some { ret := -ENOATTR, needs_commit := false, obj := o }
        else
          let x := static_xattr_create user_key USER_XATTR_FLAGS
          some (set_metadata_entry { o with metadata := mapInsert user_key x o.metadata }
            user_key x value)
      | some x => some (set_metadata_entry o user_key x value)
  | _, _ => none

/-- Models `object::set_request_headers` (lines 323-354). -/
def set_request_headers (svc : Service) (o : Object) (req : Request) : Request :=
  let meta_prefix := svc.get_header_meta_prefix
  let req := o.metadata.foldl
    (fun r e => if e.2.is_serializable then
      r.set_header ( meta_prefix ++ e.2.to_header.1) e.2.to_header.2 else r) req
  let req := req.set_header ( meta_prefix ++ metadata_MODE)
    (snprintf16 (fmt_alt_octal (o.stat.st_mode &&& bitNot32 S_IFMT)))
  let req := req.set_header ( meta_prefix ++ metadata_UID)
    (snprintf16 (fmt_int (toS32 o.stat.st_uid)))
  let req := req.set_header ( meta_prefix ++ metadata_GID)
    (snprintf16 (fmt_int (toS32 o.stat.st_gid)))
  let req := req.set_header ( meta_prefix ++ metadata_LAST_MODIFIED_TIME)
    (snprintf16 (fmt_int o.stat.st_mtime))
  let req := req.set_header ( meta_prefix ++ metadata_LAST_UPDATE_ETAG) o.etag
  req.set_header "Content-Type".toList o.content_type

/-- The XML helpers of `base/xml.h` (not in src), inputs of the model: `parse` gives no
document for a malformed body, `find` gives its return code and the text found. -/
structure Xml (Doc : Type) where
  parse : Str → Option Doc
  find : Doc → Int × Str

/-- The request one pass of `object::commit` builds (lines 371-384). -/
def commit_request (svc : Service) (o : Object) : Request :=
  let req := Request.init "PUT".toList
  let req := req.set_url o.url
  let req :=
    if o.etag ≠ [] then
      let req := req.set_header (svc.get_header_prefix ++ "copy-source".toList) o.url
      let req := req.set_header (svc.get_header_prefix ++ "copy-source-if-match".toList) o.etag
      req.set_header (svc.get_header_prefix ++ "metadata-directive".toList) "REPLACE".toList
    else req
  set_request_headers svc o req

/-- The loop of `object::commit` (lines 366-427) from pass `i` with `n` passes left: the
return value, the object afterwards and the requests run, in order. -/
def commit_loop {Doc : Type} (svc : Service) (srv : Server) (xml : Xml Doc) :
    Nat → Nat → Object → List Request → Int × Object × List Request
  | _, 0, o, sent => (0, o, sent)
  | i, n + 1, o, sent =>
    let req := commit_request svc o
    let resp := srv i req
    let sent := sent ++ [req]
    if resp.code ≠ 200 then (- EIO, o, sent)
    else if resp.output = [] then (0, o, sent)
    else if o.etag = [] then (0, o, sent)
    else
      match xml.parse resp.output with
      | none => (- EIO, o, sent)
      | some doc =>
        if (xml.find doc).1 ≠ 0 then ((xml.find doc).1, o, sent)
        else if (xml.find doc).2 = [] then (- EIO, o, sent)
        else if (xml.find doc).2 = o.etag then (0, o, sent)
        else commit_loop svc srv xml (i + 1) n { o with etag := (xml.find doc).2 } sent

/-- Models `object::commit` (lines 360-428). -/
def commit {Doc : Type} (svc : Service) (srv : Server) (xml : Xml Doc) (o : Object) :
    Int × Object × List Request :=
  commit_loop svc srv xml 0 2 o []

end Trunk

/-! ## Vocabulary of the statements -/

/-- A name begins with the reserved prefix `s3fuse-`. -/
def Reserved (key : Str) : Prop := "s3fuse-".toList <+: key

instance (key : Str) : Decidable (Reserved key) := by
  unfold Reserved; infer_instance

/-- No key of a metadata map begins with the reserved prefix. -/
def NoReservedKey {ν : Type} (m : List (Str × ν)) : Prop := ∀ k ∈ mapKeys m, ¬ Reserved k

/-- The ETag a response body carries, in the words of the spec: the body parses and the
lookup of the ETag succeeds. -/
def Trunk.body_etag {Doc : Type} (xml : Trunk.Xml Doc) (body : Str) : Option Str :=
  match xml.parse body with
  | none => none
  | some doc => if (xml.find doc).1 = 0 then some (xml.find doc).2 else none

/-- The condition of the spec for a second PUT: the first PUT returned 200 with a non-empty
body whose ETag `e` is non-empty and differs from the non-empty etag the object held. -/
def Trunk.FirstPutChangedEtag {Doc : Type} (svc : Service) (srv : Server) (xml : Trunk.Xml Doc)
    (o : Trunk.Object) (e : Str) : Prop :=
  (srv 0 (Trunk.commit_request svc o)).code = 200 ∧
  (srv 0 (Trunk.commit_request svc o)).output ≠ [] ∧
  o.etag ≠ [] ∧
  Trunk.body_etag xml (srv 0 (Trunk.commit_request svc o)).output = some e ∧
  e ≠ [] ∧ e ≠ o.etag

/-! ## Concrete inputs of the examples -/

/-- A configuration: mode 0755, uid and gid taken from the process. -/
def sample_config : Config :=
  { default_mode := 0o755, default_uid := 4294967295, default_gid := 4294967295,
    uid_max := 4294967295, gid_max := 4294967295, euid := 1000, egid := 1000 }

/-- An early-binding file object `/bucket/a` with an empty metadata map. -/
def Early.sample_object : Early.Object :=
  { type := .OT_FILE, path := "a".toList, url := "/bucket/a".toList,
    content_type := "binary/octet-stream".toList, etag := "\"e0\"".toList,
    mtime_etag := "\"e0\"".toList, md5 := [], md5_etag := [], expiry := 30,
    stat := { st_mode := 0o100644, st_uid := 1000, st_gid := 1000, st_size := 11,
              st_mtime := 1700000000, st_nlink := 1, st_blksize := 0, st_blocks := 1 },
    metadata := [] }

/-- A later-binding object `/bucket/a` with etag `"e0"` and an empty metadata map. -/
def Trunk.sample_object : Trunk.Object :=
  { path := "a".toList, url := "/bucket/a".toList,
    content_type := "binary/octet-stream".toList, etag := "\"e0\"".toList, expiry := 30,
    stat := { st_mode := 0o100644, st_uid := 1000, st_gid := 1000, st_size := 11,
              st_mtime := 1700000000, st_nlink := 1, st_blksize := 512, st_blocks := 1 },
    metadata := [] }

/-- An XML helper for the examples: the body is the ETag itself. -/
def Trunk.sample_xml : Trunk.Xml Str := { parse := fun body => some body, find := fun doc => (0, doc) }

/-- A store for the examples: the first PUT succeeds and reports the new etag `"e1"`, later
requests succeed with an empty body. -/
def Trunk.sample_server : Server :=
  fun i _ => if i = 0 then { code := 200, output := "\"e1\"".toList } else { code := 200, output := [] }

/-- A store for the examples: the first request gets 412 precondition failed, any later
request would succeed. -/
def sample_server_412 : Server :=
  fun i _ => if i = 0 then { code := 412, output := [] } else { code := 200, output := [] }

/-! ## util.cc: percent-encoding, hexadecimal digits, MD5 shape -/

/-- C `isalnum` in the "C" locale: ASCII letters and digits only. -/
def isalnum (c : Char) : Bool :=
  ('0' ≤ c && c ≤ '9') || ('a' ≤ c && c ≤ 'z') || ('A' ≤ c && c ≤ 'Z')

/-- Models `static_cast<uint8_t>(c)`: the value of the byte. -/
def toU8 (c : Char) : Nat := c.toNat % 256

/-- The table `hex` of `util::url_encode` (util.cc line 169). -/
def HEX_UPPER : Str := "0123456789ABCDEF".toList

/-- One round of the loop of `util::url_encode` (util.cc lines 175-186): what is appended to
`ret` for the character `c`. -/
def url_encode_step (ret : Str) (c : Char) : Str :=
  if c = '/' ∨ c = '.' ∨ c = '-' ∨ c = '*' ∨ c = '_' ∨ isalnum c = true then ret ++ [c]
  else
    ((ret ++ ['%']) ++ [HEX_UPPER.getD (toU8 c / 16) '\x00'])
      ++ [HEX_UPPER.getD (toU8 c % 16) '\x00']

/-- Models `util::url_encode` (src/util.cc lines 167-188, trunk/src/util.cc lines 130-151). -/
def url_encode (url : Str) : Str := url.foldl url_encode_step []

/-- Models `int_from_hex` (util.cc lines 42-54); `none` stands for the `runtime_error` thrown on
a character that is not a hexadecimal digit. -/
def int_from_hex (c : Char) : Option Nat :=
  if '0' ≤ c ∧ c ≤ '9' then some (c.toNat - '0'.toNat)
  else if 'a' ≤ c ∧ c ≤ 'f' then some (c.toNat - 'a'.toNat + 10)
  else if 'A' ≤ c ∧ c ≤ 'F' then some (c.toNat - 'A'.toNat + 10)
  else none

/-- Models `util::is_valid_md5` (util.cc lines 199-203): 34 characters, the first and the last
a double quote. -/
def is_valid_md5 (md5 : Str) : Bool :=
  md5.length = 34 && md5.head? = some '"' && md5.getLast? = some '"'

/-! ## File types and 64-bit arithmetic -/

/-- The file-type value of a regular file (`<sys/stat.h>`, octal 0100000). -/
def S_IFREG : Nat := 0o100000
/-- The file-type value of a directory (`<sys/stat.h>`, octal 0040000). -/
def S_IFDIR : Nat := 0o040000
/-- The file-type value of a symbolic link (`<sys/stat.h>`, octal 0120000). -/
def S_IFLNK : Nat := 0o120000

/-- The value a 64-bit signed integer (`long`, `off_t`, `time_t`) holds after an operation
whose mathematical result is `x`: two's complement wrap-around. -/
def wrap64 (x : Int) : Int := (x + 2 ^ 63) % 2 ^ 64 - 2 ^ 63

/-- Models `BLOCK_SIZE` (object.cc line 38 of the early binding, line 65 of trunk/src/fs/object.cc). -/
def BLOCK_SIZE : Int := 512

/-- The expression `(st_size + BLOCK_SIZE - 1) / BLOCK_SIZE` on `off_t` (early object.cc
line 269, trunk object.cc line 308): two 64-bit additions and C division, which truncates
towards zero. -/
def blocks_of_size (st_size : Int) : Int :=
  (wrap64 (wrap64 (st_size + BLOCK_SIZE) - 1)).tdiv BLOCK_SIZE

/-- What an object reads from the request that fetched it: the request URL, the response
code and the server's `Last-Modified` time. -/
structure Fetched where
  url : Str
  response_code : Nat
  last_modified : Int
deriving DecidableEq, Repr

/-- The configuration values and the clock that building an object reads besides `Config`
(`config.h` is not in src): they are inputs of the model. -/
structure Env where
  bucket_name : Str
  cache_expiry_in_s : Int
  now : Int
deriving DecidableEq, Repr

/-! ## The early binding: building an object from a response -/

namespace Early

/-- Models `SYMLINK_CONTENT_TYPE` (object.cc line 45). -/
def SYMLINK_CONTENT_TYPE : Str := "text/symlink".toList

/-- Models `get_mode_by_type` (object.cc lines 47-59). -/
def get_mode_by_type : object_type → Nat
  | .OT_FILE => S_IFREG
  | .OT_DIRECTORY => S_IFDIR
  | .OT_SYMLINK => S_IFLNK
  | .OT_INVALID => 0

/-- Models `object::get_bucket_url` (object.cc lines 62-65). -/
def get_bucket_url (env : Env) : Str := '/' :: url_encode env.bucket_name

/-- Models `object::build_url` (object.cc lines 67-70). -/
def build_url (env : Env) (path : Str) (type : object_type) : Str :=
  get_bucket_url env ++ ['/'] ++ url_encode path ++ (if type = .OT_DIRECTORY then ['/'] else [])

/-- Models `object::set_mode` (object.cc lines 173-181); `mode_t` is 32 bits wide. -/
def set_mode (cfg : Config) (o : Object) (mode : Nat) : Object :=
  let mode := mode &&& bitNot32 S_IFMT
  let mode := if mode = 0 then cfg.default_mode else mode
  { o with stat := { o.stat with st_mode := (o.stat.st_mode &&& S_IFMT) ||| mode } }

/-- The type `object::request_process_response` infers (object.cc lines 242-247); the URL is
not empty there. -/
def infer_type (url content_type : Str) : object_type :=
  if url.getLast? = some '/' then .OT_DIRECTORY
  else if content_type = SYMLINK_CONTENT_TYPE then .OT_SYMLINK
  else .OT_FILE

/-- Models `object::request_process_response` (object.cc lines 233-273). -/
def request_process_response (env : Env) (o : Object) (req : Fetched) : Object :=
  if req.url = [] ∨ req.response_code ≠ 200 then o
  else
    let type := infer_type req.url o.content_type
    let url := build_url env o.path type
    let st_mode := o.stat.st_mode ||| get_mode_by_type type
    let st_mtime :=
      if o.mtime_etag ≠ o.etag ∧ req.last_modified > o.stat.st_mtime then req.last_modified
      else o.stat.st_mtime
    let mtime_etag := o.etag
    let md5 := if ¬ is_valid_md5 o.md5 then [] else o.md5
    let md5 := if (o.md5_etag ≠ o.etag ∨ md5 = []) ∧ is_valid_md5 o.etag then o.etag else md5
    let md5_etag := o.etag
    let st_blocks := if type = .OT_FILE then blocks_of_size o.stat.st_size else o.stat.st_blocks
    { o with
      type := type, url := url, mtime_etag := mtime_etag, md5 := md5, md5_etag := md5_etag,
      stat := { o.stat with st_mode := st_mode, st_mtime := st_mtime, st_blocks := st_blocks },
      expiry := wrap64 (env.now + env.cache_expiry_in_s) }

/-- The headers fed one by one to `request_process_header` after `request_init`: the object
as it stands when the response has been read. -/
def read_headers (svc : Service) (cfg : Config) (o : Object) (headers : List (Str × Str)) :
    Object :=
  headers.foldl (fun ob h => request_process_header svc ob h.1 h.2) (request_init cfg o)

/-- An object built from a response: `request_init`, `request_process_header` for each
header, `request_process_response`. -/
def build (svc : Service) (cfg : Config) (env : Env) (o : Object)
    (headers : List (Str × Str)) (req : Fetched) : Object :=
  request_process_response env (read_headers svc cfg o headers) req

end Early

/-! ## The later binding: `set_mode` and `init` -/

namespace Trunk

/-- Modelled from the spec: `metadata::RESERVED_PREFIX` (`metadata.h` is not in src), the
prefix `s3fuse-` of the daemon's own header keys. -/
def metadata_RESERVED_PREFIX : Str := "s3fuse-".toList

/-- Modelled from the spec: `request::get_response_header` (`request.h` is not in src), which
returns the empty string for absent keys. -/
def get_response_header (headers : List (Str × Str)) (key : Str) : Str :=
  (mapFind key headers).getD []

/-- Modelled from the spec: `static_xattr::from_header` and `static_xattr::from_string`
(`static_xattr.h` is not in src): an entry with the given name, bytes and flags. -/
def static_xattr_from (key value : Str) (mode : Nat) : Xattr :=
  { key := key, value := value, mode := mode }

/-- Models `object::set_mode` (object.cc lines 258-266); `mode_t` is 32 bits wide. -/
def set_mode (cfg : Config) (o : Object) (mode : Nat) : Object :=
  let mode := mode &&& bitNot32 S_IFMT
  let mode := if mode = 0 then cfg.default_mode else mode
  { o with stat := { o.stat with st_mode := (o.stat.st_mode &&& S_IFMT) ||| mode } }

/-- The loop of `object::init` over the response headers (object.cc lines 286-299). -/
def init_metadata (svc : Service) (metadata : List (Str × Xattr))
    (headers : List (Str × Str)) : List (Str × Xattr) :=
  headers.foldl
    (fun m h =>
      if strncmp_eq h.1 svc.get_header_meta_prefix svc.get_header_meta_prefix.length
          ∧ ¬ strncmp_eq (h.1.drop svc.get_header_meta_prefix.length) metadata_RESERVED_PREFIX
                metadata_RESERVED_PREFIX.length
      then
        mapInsert (h.1.drop svc.get_header_meta_prefix.length)
          (static_xattr_from (h.1.drop svc.get_header_meta_prefix.length) h.2 USER_XATTR_FLAGS) m
      else m)
    metadata

/-- Models `object::init` (object.cc lines 268-321). `glacier` holds the entries that
`glacier::create` provides when `config::get_allow_glacier_restores()` is set (`glacier.h`
is not in src), and is `none` when it is not set. -/
def init (svc : Service) (env : Env) (o : Object) (headers : List (Str × Str))
    (last_modified : Int) (glacier : Option (List Xattr)) : Object :=
  let hdr := fun key => get_response_header headers key
  let content_type := hdr "Content-Type".toList
  let etag := hdr "ETag".toList
  let intact : Bool := etag = hdr (svc.get_header_meta_prefix ++ metadata_LAST_UPDATE_ETAG)
  let st_size := strtol (hdr "Content-Length".toList)
  let st_mode := (o.stat.st_mode &&& S_IFMT)
    ||| (toU32 (strtol (hdr (svc.get_header_meta_prefix ++ metadata_MODE))) &&& bitNot32 S_IFMT)
  let st_uid := toU32 (strtol (hdr (svc.get_header_meta_prefix ++ metadata_UID)))
  let st_gid := toU32 (strtol (hdr (svc.get_header_meta_prefix ++ metadata_GID)))
  let st_mtime := strtol (hdr (svc.get_header_meta_prefix ++ metadata_LAST_MODIFIED_TIME))
  let metadata := init_metadata svc o.metadata headers
  let metadata := mapInsert "s3fuse_content_type".toList
    (static_xattr_from "s3fuse_content_type".toList content_type XM_VISIBLE) metadata
  let metadata := mapInsert "s3fuse_etag".toList
    (static_xattr_from "s3fuse_etag".toList etag XM_VISIBLE) metadata
  let st_mtime := if ¬ intact ∧ last_modified > st_mtime then last_modified else st_mtime
  let st_blocks := blocks_of_size st_size
  let metadata :=
    match glacier with
    | none => metadata
    | some xs => xs.foldl (fun m x => mapInsert x.key x m) metadata
  { o with
    content_type := content_type, etag := etag, intact := intact, metadata := metadata,
    stat := { o.stat with
      st_size := st_size, st_mode := st_mode, st_uid := st_uid, st_gid := st_gid,
      st_mtime := st_mtime, st_blocks := st_blocks },
    expiry := wrap64 (env.now + env.cache_expiry_in_s) }

end Trunk

/-! ## Vocabulary of the percent-encoding statements -/

/-- A byte string: every character is a byte. -/
def IsBytes (s : Str) : Prop := ∀ c ∈ s, c.toNat < 256

/-- The subset the spec names `[A-Za-z0-9/.\-*_]`: an ASCII letter, an ASCII digit or one
of `/`, `.`, `-`, `*`, `_`. -/
def url_safe (c : Char) : Prop :=
  ('a' ≤ c ∧ c ≤ 'z') ∨ ('A' ≤ c ∧ c ≤ 'Z') ∨ ('0' ≤ c ∧ c ≤ '9')
    ∨ c = '/' ∨ c = '.' ∨ c = '-' ∨ c = '*' ∨ c = '_'

instance (c : Char) : Decidable (url_safe c) := by
  unfold url_safe; infer_instance

/-- The uppercase hexadecimal digit of a nibble, in the words of the spec: `0`..`9`, then
`A`..`F`. -/
def hex_digit_upper (n : Nat) : Char :=
  if n < 10 then Char.ofNat ('0'.toNat + n) else Char.ofNat ('A'.toNat + (n - 10))

/-- The encoding of one byte, in the words of the spec: the byte itself when it is in the
subset, otherwise `%` and the uppercase hexadecimal digits of its high and low nibble. -/
def url_encode_byte_spec (c : Char) : Str :=
  if url_safe c then [c] else ['%', hex_digit_upper (c.toNat / 16), hex_digit_upper (c.toNat % 16)]

/-- The encoding of a string, in the words of the spec: the in-order concatenation of the
encodings of its bytes. -/
def url_encode_spec : Str → Str
  | [] => []
  | c :: rest => url_encode_byte_spec c ++ url_encode_spec rest

/-- The decoding the spec describes: each `%XX` triplet is replaced by the byte with the
hexadecimal value `XX` (read with `int_from_hex`) and every other character is copied;
`none` when `int_from_hex` throws. -/
def url_decode : Str → Option Str
  | [] => some []
  | '%' :: h :: l :: rest =>
    match int_from_hex h, int_from_hex l, url_decode rest with
    | some a, some b, some r => some (Char.ofNat (a * 16 + b) :: r)
    | _, _, _ => none
  | c :: rest => (url_decode rest).map (fun r => c :: r)

/-- The bucket `bucket`, a cache expiry of 30 seconds and a clock for the examples. -/
def sample_env : Env :=
  { bucket_name := "bucket".toList, cache_expiry_in_s := 30, now := 1700000100 }

/-- The fetch of `/bucket/a` for the examples: a 200 response, last modified at 1700000050. -/
def sample_fetched : Fetched :=
  { url := "/bucket/a".toList, response_code := 200, last_modified := 1700000050 }

/-- The keys of a map come in strictly increasing order, as a `std::map` keeps them. -/
def SortedKeys {ν : Type} (m : List (Str × ν)) : Prop := (mapKeys m).Pairwise (· < ·)

/-! ## trunk/src/fs.cc: the object cache and the path operations -/

def ENOENT : Int := 2

/-- Modelled from the spec: the hint flags of `fs.hh` (not in src). `get_object` compares the
hints with `HINT_NONE` and masks them with the other two, so they are zero and two distinct
bits. -/
def HINT_NONE : Nat := 0
/-- Modelled from the spec: the caller says the path is a directory (`fs.hh` is not in src). -/
def HINT_IS_DIR : Nat := 1
/-- Modelled from the spec: the caller says the path is a file (`fs.hh` is not in src). -/
def HINT_IS_FILE : Nat := 2

/-- The index `(str).size() - 1` of `ASSERT_NO_TRAILING_SLASH` (fs.cc line 20), in `size_t`
arithmetic. -/
def last_index (str : Str) : Nat := (str.length + 2 ^ 64 - 1) % 2 ^ 64

/-- Models `ASSERT_NO_TRAILING_SLASH(str)` (fs.cc line 20, s3_fs.cc line 19): `some true` when
the macro returns `-EINVAL`, `some false` when it falls through, `none` when the index
`size() - 1` lies outside the string, where the read is undefined. -/
def ASSERT_NO_TRAILING_SLASH (str : Str) : Option Bool :=
  match str[last_index str]? with
  | some c => some (decide (c = '/'))
  | none => none

namespace PathOps

/-- Modelled from the spec: the object hints of `object.hh` in trunk/src (not in src). -/
def OH_NONE : Nat := 0
/-- Modelled from the spec: the hint set before the `<path>/` probe (`object.hh` of trunk/src
is not in src). -/
def OH_IS_DIRECTORY : Nat := 1

/-- An HTTP request as fs.cc builds it: `init(method)`, `set_url(url, query)`,
`set_header`, `set_output_file`. -/
structure HttpRequest where
  method : Str
  url : Str
  query : Str
  headers : List (Str × Str)
  output_file : Bool
deriving DecidableEq, Repr

/-- Models `req->init(method)`. -/
def HttpRequest.init (method : Str) : HttpRequest :=
  { method := method, url := [], query := [], headers := [], output_file := false }

/-- Models `req->set_url(url, query)`. -/
def HttpRequest.set_url (req : HttpRequest) (url query : Str) : HttpRequest :=
  { req with
    url := url
    query := query }

/-- Models `req->set_header(key, value)`. -/
def HttpRequest.set_header (req : HttpRequest) (key value : Str) : HttpRequest :=
  { req with headers := mapInsert key value req.headers }

/-- Models `req->set_output_file(f)`. -/
def HttpRequest.set_output_file (req : HttpRequest) : HttpRequest :=
  { req with output_file := true }

/-- What `run` leaves in the request: response code, body and headers. -/
structure Reply where
  code : Nat
  data : Str
  headers : List (Str × Str)
deriving DecidableEq, Repr

/-- What a response stores in the target object of a request. -/
structure Payload where
  expiry : Int
  type : Early.object_type
  content_type : Str
  etag : Str
  stat : Stat
deriving DecidableEq, Repr

/-- The object of fs.cc: the path and the hints, which fs.cc sets, and the fields a response
fills. -/
structure FsObject where
  path : Str
  hints : Nat
  payload : Payload
deriving DecidableEq, Repr

/-- One page of a bucket listing as `read_directory` queries it: the text of `IsTruncated`
and of `NextMarker`, of every `CommonPrefixes/Prefix` and of the `Key` of every `Contents`. -/
structure Page where
  is_truncated : Str
  next_marker : Str
  prefixes : List Str
  keys : List Str
deriving DecidableEq, Repr

/-- The surroundings of fs.cc, inputs of the model: the store, and the code of trunk/src
that is not in src (`object.hh`, `request.hh`, pugixml). -/
structure World where
  /-- The member `_bucket`. -/
  bucket : Str
  /-- The reply of the store to a request, given how many requests were run before it. -/
  server : Nat → HttpRequest → Reply
  /-- The fields of `new object(path)`. -/
  new_object : Str → Payload
  /-- What `run` stores in the target object that `set_target_object` names. -/
  fill : FsObject → HttpRequest → Reply → Payload
  /-- Models `obj->set_mode(mode)`. -/
  set_mode : Payload → Nat → Payload
  /-- Models `obj->set_uid(uid)`. -/
  set_uid : Payload → Nat → Payload
  /-- Models `obj->set_gid(gid)`. -/
  set_gid : Payload → Nat → Payload
  /-- Models `obj->create(type)`. -/
  create : Payload → Early.object_type → Payload
  /-- Models `req->set_meta_headers(obj)`. -/
  set_meta_headers : FsObject → HttpRequest → HttpRequest
  /-- The document pugixml loads from a response body, as the two XPath queries and
  `child_value` read it. -/
  parse : Str → Page
  /-- Whether `tmpfile()` gives a file (`none`) or fails with this `errno`. -/
  tmpfile_errno : Option Int

/-- The members of `fs` the path operations read and write, with the requests run so far
(in order) and the background `prefill_stats` tasks posted so far. -/
structure FsState where
  object_cache : List (Str × FsObject)
  stats_cache : List (Str × Stat)
  files : Fs
  sent : List HttpRequest
  prefill : List (Str × Nat)
deriving DecidableEq, Repr

/-- Models `req->run()`: the store answers, the request joins the log. -/
def run (w : World) (st : FsState) (req : HttpRequest) : Reply × FsState :=
  (w.server st.sent.length req, { st with sent := st.sent ++ [req] })

/-- Models `object::is_valid` (src/object.h line 104) with `time(NULL) = now`. -/
def is_valid (now : Int) (o : FsObject) : Bool :=
  decide (0 < o.payload.expiry ∧ now < o.payload.expiry)

/-- Models `_bucket + "/" + util::url_encode(path)`. -/
def object_url (w : World) (path : Str) : Str := w.bucket ++ '/' :: url_encode path

/-- The request of `get_object`: `init(HTTP_HEAD)` (fs.cc line 43), then `set_url(url, "")`. -/
def head_request (url : Str) : HttpRequest := (HttpRequest.init "HEAD".toList).set_url url []

/-- One `set_hints` / `set_url` / `run` block of `get_object` (fs.cc lines 48-50 and 55-57):
the response code, the target object and the state afterwards. -/
def head_probe (w : World) (st : FsState) (obj : FsObject) (hints : Nat) (url : Str) :
    Nat × FsObject × FsState :=
  let obj := { obj with hints := hints }
  let r := run w st (head_request url)
  (r.1.code, { obj with payload := w.fill obj (head_request url) r.1 }, r.2)

/-- The body of the `if` of `get_object` (fs.cc lines 41-65): a new object, one or two HEAD
requests, and the cache update. A request just initialised has response code 0. -/
def fetch_object (w : World) (st : FsState) (path : Str) (hints : Nat) :
    Option FsObject × FsState :=
  let obj : FsObject := { path := path, hints := OH_NONE, payload := w.new_object path }
  let s1 : Nat × FsObject × FsState :=
    if hints = HINT_NONE ∨ hints &&& HINT_IS_DIR ≠ 0 then
      head_probe w st obj OH_IS_DIRECTORY (object_url w path ++ ['/'])
    else (0, obj, st)
  let s2 : Nat × FsObject × FsState :=
    if hints &&& HINT_IS_FILE ≠ 0 ∨ s1.1 ≠ 200 then
      head_probe w s1.2.2 s1.2.1 OH_NONE (object_url w path)
    else s1
  if s2.1 ≠ 200 then (none, s2.2.2)
  else (some s2.2.1, { s2.2.2 with object_cache := mapInsert path s2.2.1 s2.2.2.object_cache })

/-- Models `get_object` (fs.cc lines 36-69) with `time(NULL) = now`; `_object_cache.get` is a
lookup by path and `_object_cache.update` stores under the path. -/
def get_object (w : World) (now : Int) (st : FsState) (path : Str) (hints : Nat) :
    Option FsObject × FsState :=
  match mapFind path st.object_cache with
  | some obj => if is_valid now obj then (some obj, st) else fetch_object w st path hints
  | none => fetch_object w st path hints

end PathOps

namespace PathOps

/-- C's `mode_t(-1)`, `uid_t(-1)` and `gid_t(-1)`: all bits of a 32-bit unsigned set. -/
def MINUS_ONE_32 : Nat := 2 ^ 32 - 1

/-- Models `S_ISDIR(mode)`. -/
def S_ISDIR (mode : Nat) : Bool := decide (mode &&& S_IFMT = S_IFDIR)

/-- Models `get_stats` (fs.cc lines 78-92); `s` says whether the caller passed a buffer, and
the stat block copied there is returned. No `return` follows line 91: the model returns 0
there, as s3_fs.cc line 124 does. `none` is a read outside the path. -/
def get_stats (w : World) (now : Int) (st : FsState) (path : Str) (s : Bool) (hints : Nat) :
    Option (Int × Option Stat × FsState) :=
  match ASSERT_NO_TRAILING_SLASH path with
  | none => none
  | some true => some (- EINVAL, none, st)
  | some false =>
    let r := get_object w now st path hints
    match r.1 with
    | none => some (- ENOENT, none, r.2)
    | some obj => some (0, if s then some obj.payload.stat else none, r.2)

/-- Models `remove_object` (fs.cc lines 506-526). -/
def remove_object (w : World) (st : FsState) (path : Str) (hints : Nat) :
    Option (Int × FsState) :=
  match ASSERT_NO_TRAILING_SLASH path with
  | none => none
  | some true => some (- EINVAL, st)
  | some false =>
    let url := object_url w path
    let url := if hints &&& HINT_IS_DIR ≠ 0 then url ++ ['/'] else url
    let req := (HttpRequest.init "DELETE".toList).set_url url []
    let r := run w st req
    some (if r.1.code = 204 then 0 else - EIO,
      { r.2 with stats_cache := mapErase path r.2.stats_cache })

/-- The copy request of `rename_object` (fs.cc lines 115-123). -/
def rename_request (w : World) (obj : FsObject) (from_path to_path : Str) : HttpRequest :=
  let req := (HttpRequest.init "PUT".toList).set_url (object_url w to_path) []
  let req := req.set_header "Content-Type".toList obj.payload.content_type
  let req := req.set_header "x-amz-copy-source".toList (object_url w from_path)
  let req := req.set_header "x-amz-copy-source-if-match".toList obj.payload.etag
  req.set_header "x-amz-metadata-directive".toList "COPY".toList

/-- Models `rename_object` (fs.cc lines 94-131). -/
def rename_object (w : World) (now : Int) (st : FsState) (from_path to_path : Str) :
    Option (Int × FsState) :=
  match ASSERT_NO_TRAILING_SLASH from_path with
  | none => none
  | some true => some (- EINVAL, st)
  | some false =>
    match ASSERT_NO_TRAILING_SLASH to_path with
    | none => none
    | some true => some (- EINVAL, st)
    | some false =>
      let r1 := get_object w now st from_path HINT_NONE
      match r1.1 with
      | none => some (- ENOENT, r1.2)
      | some obj =>
        if obj.payload.type = Early.object_type.OT_DIRECTORY then some (- EINVAL, r1.2)
        else
          let r2 := get_object w now r1.2 to_path HINT_NONE
          if r2.1.isSome then some (- EEXIST, r2.2)
          else
            let r3 := run w r2.2 (rename_request w obj from_path to_path)
            if r3.1.code ≠ 200 then some (- EIO, r3.2)
            else remove_object w r3.2 from_path HINT_IS_FILE

/-- The copy-to-self request of `change_metadata` (fs.cc lines 157-167). -/
def change_metadata_request (w : World) (obj : FsObject) (path : Str) : HttpRequest :=
  let url := object_url w path
  let url := if obj.payload.type = Early.object_type.OT_DIRECTORY then url ++ ['/'] else url
  let req := (HttpRequest.init "PUT".toList).set_url url []
  let req := req.set_header "x-amz-copy-source".toList url
  let req := req.set_header "x-amz-copy-source-if-match".toList obj.payload.etag
  let req := req.set_header "x-amz-metadata-directive".toList "REPLACE".toList
  w.set_meta_headers obj req

/-- Models `change_metadata` (fs.cc lines 133-179). The object `get_object` returns is the one
the cache holds under the path, so the setters change the cached object. -/
def change_metadata (w : World) (now : Int) (st : FsState) (path : Str) (mode uid gid : Nat) :
    Option (Int × FsState) :=
  match ASSERT_NO_TRAILING_SLASH path with
  | none => none
  | some true => some (- EINVAL, st)
  | some false =>
    let r := get_object w now st path HINT_NONE
    match r.1 with
    | none => some (- ENOENT, r.2)
    | some obj =>
      let p := obj.payload
      let p := if mode ≠ MINUS_ONE_32 then w.set_mode p mode else p
      let p := if uid ≠ MINUS_ONE_32 then w.set_uid p uid else p
      let p := if gid ≠ MINUS_ONE_32 then w.set_gid p gid else p
      let obj := { obj with payload := p }
      let st1 := { r.2 with object_cache := mapInsert path obj r.2.object_cache }
      let r2 := run w st1 (change_metadata_request w obj path)
      if r2.1.code ≠ 200 then some (- EIO, r2.2)
      else some (0, { r2.2 with object_cache := mapErase path r2.2.object_cache })

/-- Models `create_object` (fs.cc lines 250-289). Line 260 lacks the brace that line 263
closes; the model reads the `if` with the brace, as s3_fs.cc lines 264-267 have it. The
block of lines 279-284 changes only the local `mode`, which is not read again. -/
def create_object (w : World) (now : Int) (st : FsState) (path : Str) (mode : Nat) :
    Option (Int × FsState) :=
  match ASSERT_NO_TRAILING_SLASH path with
  | none => none
  | some true => some (- EINVAL, st)
  | some false =>
    let url := object_url w path
    let r := get_object w now st path HINT_NONE
    if r.1.isSome then some (- EEXIST, r.2)
    else
      let url := if S_ISDIR mode then url ++ ['/'] else url
      let p := w.create (w.new_object path)
        (if S_ISDIR mode then Early.object_type.OT_DIRECTORY else Early.object_type.OT_FILE)
      let obj : FsObject := { path := path, hints := OH_NONE, payload := w.set_mode p mode }
      let req := (HttpRequest.init "PUT".toList).set_url url []
      let req := req.set_header "Content-Type".toList "binary/octet-stream".toList
      let req := w.set_meta_headers obj req
      some (0, (run w r.2 req).2)

/-- Models `open` (fs.cc lines 291-343): the return value, `*context` and the state. -/
def fs_open (w : World) (st : FsState) (path : Str) : Option (Int × Option Nat × FsState) :=
  match ASSERT_NO_TRAILING_SLASH path with
  | none => none
  | some true => some (- EINVAL, none, st)
  | some false =>
    match w.tmpfile_errno with
    | some e => some (- e, none, st)
    | none =>
      let req := ((HttpRequest.init "GET".toList).set_url (object_url w path) []).set_output_file
      let r := run w st req
      if r.1.code ≠ 200 then some (if r.1.code = 404 then - ENOENT else - EIO, none, r.2)
      else
        let t := open_locked r.2.files path
        some (0, some t.2, { r.2 with files := t.1 })

end PathOps

namespace PathOps

/-- How a run of `read_directory` ends: it returns `ret` after handing `entries` to the
filler, or it reads outside a string (or `std::string::assign` is given the length
`size_t(-1)`), or the store is still answering `IsTruncated = true` when the fuel is spent. -/
inductive Listing where
  | done (ret : Int) (entries : List Str) (st : FsState)
  | undefined
  | unfinished
deriving DecidableEq, Repr

/-- Apply `f` to every element; `none` as soon as one application is `none`. -/
def collect {α β : Type} (f : α → Option β) : List α → Option (List β)
  | [] => some []
  | a :: rest =>
    match f a, collect f rest with
    | some b, some bs => some (b :: bs)
    | _, _ => none

/-- The body of the loop over the common prefixes (fs.cc lines 218-224): `full_path` and
`relative_path`, both less their last character. With `strlen(full_path_cs) ≤ path_len` the
pointer `full_path_cs + path_len` is past the text or the length passed to `assign` is
`size_t(-1)`. -/
def prefix_entry (path_len : Nat) (full_path_cs : Str) : Option (Str × Str) :=
  if path_len < full_path_cs.length then
    some (full_path_cs.take (full_path_cs.length - 1),
      (full_path_cs.drop path_len).take (full_path_cs.length - path_len - 1))
  else none

/-- The body of the loop over the keys (fs.cc lines 233-243): nothing for the key that
`strcmp` finds equal to `path`, else `full_path` and `relative_path`. -/
def key_entry (path : Str) (full_path_cs : Str) : Option (Option (Str × Str)) :=
  if path = full_path_cs then some none
  else if path.length ≤ full_path_cs.length then
    some (some (full_path_cs, full_path_cs.drop path.length))
  else none

/-- The request of one pass of the loop (fs.cc line 205, after `init(HTTP_GET)` on line
198). -/
def list_request (w : World) (path marker : Str) : HttpRequest :=
  (HttpRequest.init "GET".toList).set_url w.bucket
    ("delimiter=/&prefix=".toList ++ url_encode path ++ "&marker=".toList ++ marker)

/-- The loop of `read_directory` (fs.cc lines 200-245), with at most `fuel` passes. -/
def list_loop (w : World) (path : Str) : Nat → Str → FsState → List Str → Listing
  | 0, _, _, _ => .unfinished
  | fuel + 1, marker, st, entries =>
    let r := run w st (list_request w path marker)
    let doc := w.parse r.1.data
    let truncated : Bool := decide (doc.is_truncated = "true".toList)
    let marker := if truncated then doc.next_marker else marker
    match collect (prefix_entry path.length) doc.prefixes, collect (key_entry path) doc.keys with
    | some ps, some ks =>
      let found := ks.filterMap id
      let st1 := { r.2 with
        prefill := r.2.prefill ++ ps.map (fun e => (e.1, HINT_IS_DIR))
          ++ found.map (fun e => (e.1, HINT_IS_FILE)) }
      let entries := entries ++ ps.map Prod.snd ++ found.map Prod.snd
      if truncated then list_loop w path fuel marker st1 entries
      else .done 0 entries st1
    | _, _ => .undefined

/-- The part of `read_directory` after the trailing-slash check (fs.cc lines 193-247). -/
def read_directory_body (w : World) (fuel : Nat) (st : FsState) (_path : Str) : Listing :=
  let path := if _path ≠ [] then _path ++ ['/'] else []
  list_loop w path fuel [] st []

/-- Models `read_directory` (fs.cc lines 181-248; s3_fs.cc lines 184-253 have the same
statements): `entries` are the names handed to the filler, in order. -/
def read_directory (w : World) (fuel : Nat) (st : FsState) (_path : Str) : Listing :=
  match ASSERT_NO_TRAILING_SLASH _path with
  | none => .undefined
  | some true => .done (- EINVAL) [] st
  | some false => read_directory_body w fuel st _path

/-! ### Concrete inputs of the examples -/

/-- An object nothing has filled yet. -/
def sample_payload : Payload :=
  { expiry := 0, type := Early.object_type.OT_INVALID, content_type := [], etag := [],
    stat := { st_mode := 0, st_uid := 0, st_gid := 0, st_size := 0, st_mtime := 0,
              st_nlink := 1, st_blksize := 512, st_blocks := 0 } }

/-- The listing of a bucket that holds the key `a` and the common prefix `b/`. -/
def sample_page : Page :=
  { is_truncated := "false".toList, next_marker := [],
    prefixes := ["b/".toList], keys := ["a".toList] }

/-- A store with the bucket `/bucket` that holds `a`, `b/`, `c` and `c/`: HEAD and GET of
their URLs are answered by 200, DELETE by 204, every other request by 404; a 200 sets the
expiry to 130 and the type by the hint. -/
def sample_world : World :=
  { bucket := "/bucket".toList
    server := fun _ req =>
      if req.url = "/bucket/a".toList ∨ req.url = "/bucket/b/".toList
          ∨ req.url = "/bucket/c".toList ∨ req.url = "/bucket/c/".toList then
        { code := if req.method = "DELETE".toList then 204 else 200, data := [], headers := [] }
      else { code := 404, data := [], headers := [] }
    new_object := fun _ => sample_payload
    fill := fun o _ reply =>
      if reply.code = 200 then
        { o.payload with
          expiry := 130
          type := if o.hints = OH_IS_DIRECTORY then Early.object_type.OT_DIRECTORY
            else Early.object_type.OT_FILE }
      else o.payload
    set_mode := fun p mode => { p with stat := { p.stat with st_mode := mode } }
    set_uid := fun p uid => { p with stat := { p.stat with st_uid := uid } }
    set_gid := fun p gid => { p with stat := { p.stat with st_gid := gid } }
    create := fun p type => { p with type := type }
    set_meta_headers := fun _ req => req
    parse := fun _ => sample_page
    tmpfile_errno := none }

/-- Nothing cached, nothing open, nothing sent. -/
def sample_state : FsState :=
  { object_cache := [], stats_cache := [],
    files := { handles := [], open_files := [], next_open_file_handle := 0 },
    sent := [], prefill := [] }

end PathOps

namespace PathOps

/-- The object of the path `a`, valid until 130. -/
def sample_object : FsObject :=
  { path := "a".toList, hints := OH_NONE,
    payload := { sample_payload with expiry := 130, type := Early.object_type.OT_FILE } }

/-- The cache holds `sample_object`; nothing open, nothing sent. -/
def sample_cached_state : FsState :=
  { object_cache := [("a".toList, sample_object)], stats_cache := [],
    files := { handles := [], open_files := [], next_open_file_handle := 0 },
    sent := [], prefill := [] }

end PathOps

/-! ## src/base/request.cc: the retry loop and the cancellation flag -/

namespace Base

/-- The `CURLcode` values of `<curl/curl.h>` that `request::run` names. -/
def CURLE_OK : Nat := 0
def CURLE_COULDNT_RESOLVE_PROXY : Nat := 5
def CURLE_COULDNT_RESOLVE_HOST : Nat := 6
def CURLE_COULDNT_CONNECT : Nat := 7
def CURLE_PARTIAL_FILE : Nat := 18
def CURLE_UPLOAD_FAILED : Nat := 25
def CURLE_OPERATION_TIMEDOUT : Nat := 28
def CURLE_SSL_CONNECT_ERROR : Nat := 35
def CURLE_GOT_NOTHING : Nat := 52
def CURLE_SEND_ERROR : Nat := 55
def CURLE_RECV_ERROR : Nat := 56
def CURLE_BAD_CONTENT_ENCODING : Nat := 61

/-- Modelled from the spec: `enum http_method` of `base/request.h` (not in src), with one
more value for every integer that is none of the five methods. -/
inductive http_method where
  | HTTP_DELETE
  | HTTP_GET
  | HTTP_HEAD
  | HTTP_POST
  | HTTP_PUT
  | unsupported
deriving DecidableEq, Repr

/-- The members of `request` that request.cc reads and writes, but for the two running
times, which are floating-point sums. `input_buffer` holds the bytes from the pointer
`_input_buffer` on. Calls into libcurl are taken to return `CURLE_OK` where `TEST_OK` wraps
them. -/
structure Request where
  canceled : Bool
  timeout : Int
  url : Str
  method : Str
  headers : List (Str × Str)
  response_headers : List (Str × Str)
  output_buffer : Str
  response_code : Int
  last_modified : Int
  input_buffer : Str
  input_size : Nat
  curl_error : Str
  run_count : Nat
  total_bytes_transferred : Nat
deriving DecidableEq, Repr

/-- Models `request::set_input_buffer` (lines 266-277): the message thrown, if any, and the
request afterwards. -/
def set_input_buffer (req : Request) (buffer : Str) (size : Nat) : Option Str × Request :=
  let req := { req with
    input_buffer := buffer
    input_size := size }
  if req.method = "PUT".toList then (none, req)
  else if req.method = "POST".toList then (none, req)
  else if size ≠ 0 then (some "can't set input data for non-POST/non-PUT request.".toList, req)
  else (none, req)

/-- The method name `init` stores, `none` for an unsupported method (lines 149-170). -/
def method_name : http_method → Option Str
  | .HTTP_DELETE => some "DELETE".toList
  | .HTTP_GET => some "GET".toList
  | .HTTP_HEAD => some "HEAD".toList
  | .HTTP_POST => some "POST".toList
  | .HTTP_PUT => some "PUT".toList
  | .unsupported => none

/-- Models `request::init` (lines 131-174): the message thrown, if any, and the request
afterwards. -/
def init (req : Request) (method : http_method) : Option Str × Request :=
  if req.canceled then (some "cannot reuse a canceled request.".toList, req)
  else
    let req := { req with
      curl_error := []
      url := []
      output_buffer := []
      response_headers := []
      response_code := 0
      last_modified := 0
      headers := [] }
    match method_name method with
    | none => (some "unsupported HTTP method.".toList, req)
    | some name => set_input_buffer { req with method := name } [] 0

/-- The text after the first `c`, if `c` occurs: `strchr(s, c) + 1`. -/
def after_first (c : Char) : Str → Option Str
  | [] => none
  | x :: rest => if x = c then some rest else after_first c rest

/-- Models `request::process_header` (lines 176-213). `data` are the `size * items` bytes
handed over and `terminated` says whether the byte after them is NUL: the value returned
and the request afterwards. -/
def process_header (req : Request) (data : Str) (terminated : Bool) : Nat × Request :=
  let size := data.length
  if req.canceled then (0, req)
  else if ¬ terminated then (size, req)
  else
    let line := data.takeWhile (fun c => c ≠ Char.ofNat 0)
    let line := line.takeWhile (fun c => c ≠ '\n')
    let line := line.takeWhile (fun c => c ≠ '\r')
    match after_first ':' line with
    | none => (size, req)
    | some pos =>
      let key := line.takeWhile (fun c => c ≠ ':')
      let pos := if pos.head? = some ' ' then pos.drop 1 else pos
      (size, { req with response_headers := mapInsert key pos req.response_headers })

/-- Models `request::process_output` (lines 215-231), `data` being the `size * items` bytes
handed over. -/
def process_output (req : Request) (data : Str) : Nat × Request :=
  if req.canceled then (0, req)
  else (data.length, { req with output_buffer := req.output_buffer ++ data })

/-- Models `request::process_input` (lines 233-251) with `size * items = size`: the value
returned (the bytes copied to `data` are `input_buffer.take remaining`) and the request
afterwards. -/
def process_input (req : Request) (size : Nat) : Nat × Request :=
  if req.canceled then (0, req)
  else
    let remaining := if size > req.input_size then req.input_size else size
    (remaining, { req with
      input_buffer := req.input_buffer.drop remaining
      input_size := req.input_size - remaining })

/-- Models `request::set_url` (lines 253-264): `_url` is the URL as given; the adjusted URL
with the query goes to libcurl only. -/
def set_url (req : Request) (url : Str) : Request := { req with url := url }

/-- Models `request::check_timeout` (lines 279-289) with `time(NULL) = now`. -/
def check_timeout (req : Request) (now : Int) : Bool × Request :=
  if req.timeout ≠ 0 ∧ now > req.timeout then (true, { req with canceled := true })
  else (false, req)

end Base

namespace Base

/-- What can reach a request while `curl_easy_perform` runs: the three callbacks libcurl was
given in the constructor (lines 98-103), and `check_timeout`, which is public. -/
inductive Callback where
  | header (data : Str) (terminated : Bool)
  | output (data : Str)
  | input (size : Nat)
  | check_timeout (now : Int)
deriving DecidableEq, Repr

/-- The request after one callback. -/
def Callback.apply (req : Request) : Callback → Request
  | .header data terminated => (process_header req data terminated).2
  | .output data => (process_output req data).2
  | .input size => (process_input req size).2
  | .check_timeout now => (Base.check_timeout req now).2

/-- The outcome of one attempt, an input of the model: what the hook's `pre_run` sets as
headers, the clock when the deadline is armed, the callbacks during the transfer, the value
`curl_easy_perform` returns with the text it leaves in the error buffer, what
`curl_easy_getinfo` reports, and the answer of the hook's `should_retry`. -/
structure Attempt where
  pre_run_headers : List (Str × Str)
  start : Int
  callbacks : List Callback
  r : Nat
  curl_error : Str
  response_code : Int
  last_modified : Int
  should_retry : Bool
deriving DecidableEq, Repr

/-- The values of `base/config.h` and `base/request.h` (not in src) that `run` reads. -/
structure RunConfig where
  max_transfer_retries : Int
  request_timeout_in_s : Int
  DEFAULT_REQUEST_TIMEOUT : Int
deriving DecidableEq, Repr

/-- What `run` is seen to do: the hook's `pre_run(this, iter)` and `curl_easy_perform`. -/
inductive RunEvent where
  | pre_run (iter : Nat)
  | perform (iter : Nat)
deriving DecidableEq, Repr

/-- How `run` ends: the message thrown, if any, the request afterwards and the events, in
order. -/
structure RunResult where
  thrown : Option Str
  req : Request
  trace : List RunEvent
deriving DecidableEq, Repr

/-- The condition of lines 336-347. -/
def is_retryable (r : Nat) : Bool :=
  r = CURLE_COULDNT_RESOLVE_PROXY || r = CURLE_COULDNT_RESOLVE_HOST ||
  r = CURLE_COULDNT_CONNECT || r = CURLE_PARTIAL_FILE || r = CURLE_UPLOAD_FAILED ||
  r = CURLE_OPERATION_TIMEDOUT || r = CURLE_SSL_CONNECT_ERROR || r = CURLE_GOT_NOTHING ||
  r = CURLE_SEND_ERROR || r = CURLE_RECV_ERROR || r = CURLE_BAD_CONTENT_ENCODING

/-- The statements of `run` after the loop (lines 366-378). -/
def run_finish (req : Request) (r : Nat) (request_size : Nat) (trace : List RunEvent) :
    RunResult :=
  if r ≠ CURLE_OK then { thrown := some req.curl_error, req := req, trace := trace }
  else
    let req :=
      if req.run_count > 0 then
        { req with total_bytes_transferred :=
            (req.total_bytes_transferred + request_size + req.output_buffer.length) % 2 ^ 64 }
      else req
    { thrown := none, req := { req with run_count := (req.run_count + 1) % 2 ^ 64 },
      trace := trace }

/-- The headers as a pass of the loop finds them after the hook's `pre_run` (lines
313-314). -/
def headers_after_pre_run (has_hook : Bool) (a : Attempt) (req : Request) : List (Str × Str) :=
  if has_hook then a.pre_run_headers.foldl (fun m e => mapInsert e.1 e.2 m) req.headers
  else req.headers

/-- The local `request_size` after lines 316-327 of a pass. -/
def size_after (has_hook : Bool) (a : Attempt) (req : Request) (request_size : Nat) : Nat :=
  ((headers_after_pre_run has_hook a req).foldl
    (fun n e => (n + (e.1 ++ ": ".toList ++ e.2).length) % 2 ^ 64) request_size
    + req.input_size) % 2 ^ 64

/-- The request after lines 310-331 of a pass: buffers cleared, `pre_run`, the deadline
armed, the transfer with its callbacks, the deadline reset. -/
def after_transfer (cfg : RunConfig) (has_hook : Bool) (timeout_in_s : Int) (a : Attempt)
    (req : Request) : Request :=
  let req := { req with
    output_buffer := []
    response_headers := []
    headers := headers_after_pre_run has_hook a req
    timeout := a.start +
      (if timeout_in_s = cfg.DEFAULT_REQUEST_TIMEOUT then cfg.request_timeout_in_s
       else timeout_in_s) }
  let req := a.callbacks.foldl Callback.apply req
  { req with
    curl_error := if a.r = CURLE_OK then req.curl_error else a.curl_error
    timeout := 0 }

/-- The loop of `run` (lines 307-364) with `passes` passes left before `iter` reaches
`max_transfer_retries`; `r` and `request_size` are the locals of `run`. -/
def run_loop (cfg : RunConfig) (has_hook : Bool) (transport : Nat → Attempt)
    (timeout_in_s : Int) :
    Nat → Nat → Request → Nat → Nat → List RunEvent → RunResult
  | 0, _, req, r, request_size, trace => run_finish req r request_size trace
  | passes + 1, iter, req, _, request_size, trace =>
    let a := transport iter
    let trace := trace ++ (if has_hook then [RunEvent.pre_run iter] else [])
      ++ [RunEvent.perform iter]
    let request_size := size_after has_hook a req request_size
    let req := after_transfer cfg has_hook timeout_in_s a req
    if req.canceled then
      { thrown := some "request timed out.".toList, req := req, trace := trace }
    else if is_retryable a.r then
      run_loop cfg has_hook transport timeout_in_s passes (iter + 1) req a.r request_size trace
    else if a.r = CURLE_OK then
      let req := { req with
        response_code := a.response_code
        last_modified := a.last_modified }
      if has_hook ∧ a.should_retry then
        run_loop cfg has_hook transport timeout_in_s passes (iter + 1) req a.r request_size trace
      else run_finish req a.r request_size trace
    else run_finish req a.r request_size trace

/-- Models `request::run` (lines 291-388); `has_hook` says whether `_hook` is set. -/
def run (cfg : RunConfig) (has_hook : Bool) (transport : Nat → Attempt) (req : Request)
    (timeout_in_s : Int) : RunResult :=
  if req.url = [] then
    { thrown := some "call set_url() first!".toList, req := req, trace := [] }
  else if req.method = [] then
    { thrown := some "call set_method() first!".toList, req := req, trace := [] }
  else if req.canceled then
    { thrown := some "cannot reuse a canceled request.".toList, req := req, trace := [] }
  else
    run_loop cfg has_hook transport timeout_in_s cfg.max_transfer_retries.toNat 0 req
      CURLE_OK 0 []

/-- An operation on a request handle. -/
inductive Op where
  | init (method : http_method)
  | set_url (url : Str)
  | set_input_buffer (buffer : Str) (size : Nat)
  | callback (c : Callback)
  | run (cfg : RunConfig) (has_hook : Bool) (transport : Nat → Attempt) (timeout_in_s : Int)

/-- The request after an operation. -/
def Op.apply (req : Request) : Op → Request
  | .init method => (Base.init req method).2
  | .set_url url => Base.set_url req url
  | .set_input_buffer buffer size => (Base.set_input_buffer req buffer size).2
  | .callback c => c.apply req
  | .run cfg has_hook transport timeout_in_s =>
    (Base.run cfg has_hook transport req timeout_in_s).req

/-! ### Vocabulary of the statements about `run` -/

/-- The deadline `run` arms for an attempt (line 329). -/
def deadline (cfg : RunConfig) (timeout_in_s : Int) (a : Attempt) : Int :=
  a.start + (if timeout_in_s = cfg.DEFAULT_REQUEST_TIMEOUT then cfg.request_timeout_in_s
    else timeout_in_s)

/-- A call of `check_timeout` during the attempt finds the deadline armed and passed. -/
def Attempt.cancels (cfg : RunConfig) (timeout_in_s : Int) (a : Attempt) : Bool :=
  a.callbacks.any fun c =>
    match c with
    | .check_timeout now =>
      decide (deadline cfg timeout_in_s a ≠ 0 ∧ now > deadline cfg timeout_in_s a)
    | _ => false

/-- The transport errors the spec lists as retried: DNS resolution failure (of the proxy or
of the host), connect failure, partial file, upload failed, operation timed out, SSL connect
error, zero-byte response, send error, receive error, bad content encoding. -/
def listed_errors : List Nat :=
  [CURLE_COULDNT_RESOLVE_PROXY, CURLE_COULDNT_RESOLVE_HOST, CURLE_COULDNT_CONNECT,
   CURLE_PARTIAL_FILE, CURLE_UPLOAD_FAILED, CURLE_OPERATION_TIMEDOUT, CURLE_SSL_CONNECT_ERROR,
   CURLE_GOT_NOTHING, CURLE_SEND_ERROR, CURLE_RECV_ERROR, CURLE_BAD_CONTENT_ENCODING]

/-- The attempt failed with a listed error, or succeeded and the hook's `should_retry`
returned true. -/
def Attempt.asks_retry (has_hook : Bool) (a : Attempt) : Prop :=
  a.r ∈ listed_errors ∨ (a.r = CURLE_OK ∧ has_hook = true ∧ a.should_retry = true)

/-- The events of `n` attempts in a row from the pass `iter` on: `pre_run(iter)` when there
is a hook, then the transfer. -/
def trace_from (has_hook : Bool) : Nat → Nat → List RunEvent
  | _, 0 => []
  | iter, n + 1 =>
    (if has_hook then [RunEvent.pre_run iter] else []) ++ [RunEvent.perform iter]
      ++ trace_from has_hook (iter + 1) n

/-- A request ready to run: `PUT /bucket/a`, not cancelled. -/
def sample_request : Request :=
  { canceled := false, timeout := 0, url := "/bucket/a".toList, method := "PUT".toList,
    headers := [], response_headers := [], output_buffer := [], response_code := 0,
    last_modified := 0, input_buffer := [], input_size := 0, curl_error := [],
    run_count := 0, total_bytes_transferred := 0 }

/-- Five attempts at most, thirty seconds each. -/
def sample_run_config : RunConfig :=
  { max_transfer_retries := 5, request_timeout_in_s := 30, DEFAULT_REQUEST_TIMEOUT := -1 }

/-- The first attempt cannot connect, the second one succeeds with 200, and the hook asks
for no further attempt. -/
def sample_transport (iter : Nat) : Attempt :=
  { pre_run_headers := [("Date".toList, "now".toList)], start := 1000, callbacks := [],
    r := if iter = 0 then CURLE_COULDNT_CONNECT else CURLE_OK,
    curl_error := if iter = 0 then "connect".toList else [],
    response_code := 200, last_modified := 0, should_retry := false }

end Base

/-! ## tags/release-0.13/src/services/aws_impl.cc: signing -/

namespace Aws

/-- Models `AWS_HEADER_PREFIX` (line 56). -/
def AWS_HEADER_PREFIX : Str := "x-amz-".toList

/-- Models `safe_find` (lines 61-66). -/
def safe_find (map : List (Str × Str)) (key : Str) : Str :=
  match mapFind key map with
  | some value => value
  | none => []

/-- The condition of line 141 on an entry of the header map. -/
def is_canonical (e : Str × Str) : Bool :=
  decide (e.2 ≠ [] ∧ e.1.take AWS_HEADER_PREFIX.length = AWS_HEADER_PREFIX)

/-- The text `sign` hands to `hmac_sha1::sign` (lines 130-144), `date` being
`timer::get_http_time()`. `headers` is a reference to the header map of the request, so it
sees the `Date` header set on line 132. -/
def to_sign (req : Request) (date : Str) : Str :=
  let req := req.set_header "Date".toList date
  let headers := req.headers
  let to_sign := req.method ++ ['\n'] ++ safe_find headers "Content-MD5".toList ++ ['\n']
    ++ safe_find headers "Content-Type".toList ++ ['\n'] ++ date ++ ['\n']
  let to_sign := headers.foldl
    (fun acc e => if is_canonical e then acc ++ (e.1 ++ [':'] ++ e.2 ++ ['\n']) else acc) to_sign
  to_sign ++ req.url

/-- Models `aws_impl::sign` (lines 124-148): the request afterwards. The key, the secret and
the base64 text of the HMAC-SHA1 of a text under a secret are inputs of the model. -/
def sign (key secret : Str) (mac_base64 : Str → Str → Str) (req : Request) (date : Str) :
    Request :=
  (req.set_header "Date".toList date).set_header "Authorization".toList
    ("AWS ".toList ++ key ++ [':'] ++ mac_base64 secret (to_sign req date))

/-! ### The canonical string in the words of the spec -/

/-- A header name in lower case. -/
def lowercased (name : Str) : Str := name.map Char.toLower

/-- The canonical headers as the spec words them: every header whose name carries the
provider prefix, the name lowercased, written `key:value\n`, in lexicographic order of the
key. -/
def canonical_headers_spec (headers : List (Str × Str)) : Str :=
  let carried := (headers.map fun e => (lowercased e.1, e.2)).filter
    fun e => decide (AWS_HEADER_PREFIX <+: e.1)
  let ordered := carried.insertionSort fun a b => ¬ b.1 < a.1
  (ordered.map fun e => e.1 ++ [':'] ++ e.2 ++ ['\n']).flatten

/-- The string to sign as the spec words it. -/
def to_sign_spec (req : Request) (date : Str) : Str :=
  req.method ++ ['\n'] ++ safe_find req.headers "Content-MD5".toList ++ ['\n']
    ++ safe_find req.headers "Content-Type".toList ++ ['\n'] ++ date ++ ['\n']
    ++ canonical_headers_spec req.headers ++ req.url

/-- The line of a header in the canonical string. -/
def header_line (e : Str × Str) : Str := e.1 ++ [':'] ++ e.2 ++ ['\n']

/-- A PUT of `/bucket/a` with a content type, a user xattr and a header without value. -/
def sample_request : Request :=
  ((((Request.init "PUT".toList).set_url "/bucket/a".toList).set_header
    "Content-Type".toList "text/plain".toList).set_header
    "x-amz-meta-color".toList "blue".toList).set_header "x-amz-acl".toList []

/-- A PUT of `/bucket/a` with a user xattr whose name has an upper-case letter. -/
def sample_request_upper : Request :=
  ((Request.init "PUT".toList).set_url "/bucket/a".toList).set_header
    "x-amz-meta-Color".toList "blue".toList

end Aws

namespace PathOps

/-! ### Vocabulary of the statements about `read_directory` -/

/-- What one page of a listing names under a directory: the sub-directories and the files. -/
structure Names where
  dirs : List Str
  files : List Str
deriving DecidableEq, Repr

/-- The parameter `path` of the loop of `read_directory`: `_path + "/"`, or nothing for the
bucket root (fs.cc lines 193-194). -/
def dir_prefix (_path : Str) : Str := if _path ≠ [] then _path ++ ['/'] else []

/-- The page the store serves to the request number `idx` of a listing of `pre` from
`marker` on. -/
def served (w : World) (pre : Str) (idx : Nat) (marker : Str) : Page :=
  w.parse (w.server idx (list_request w pre marker)).data

/-- The page names exactly `n` under `pre`: each sub-directory `d` as the common prefix
`pre ++ d ++ "/"`, each file `f` as the key `pre ++ f`. -/
def page_names (pre : Str) (page : Page) (n : Names) : Prop :=
  page.prefixes = n.dirs.map (fun d => pre ++ d ++ ['/']) ∧
  page.keys = n.files.map (fun f => pre ++ f)

/-- From the request number `idx` and the marker `marker` on, the store serves the pages
`first :: rest` of the listing of `pre`: every page but the last says `IsTruncated = true`
and gives the marker of the next one. -/
def Lists (w : World) (pre : Str) : Nat → Str → Names → List Names → Prop
  | idx, marker, n, [] =>
    (served w pre idx marker).is_truncated ≠ "true".toList ∧
    page_names pre (served w pre idx marker) n
  | idx, marker, n, m :: rest =>
    (served w pre idx marker).is_truncated = "true".toList ∧
    page_names pre (served w pre idx marker) n ∧
    Lists w pre (idx + 1) (served w pre idx marker).next_marker m rest

/-- The names the pages give, page by page: the sub-directories, then the files but for the
empty name (the key that is the directory itself). -/
def reported (pages : List Names) : List Str :=
  (pages.map fun n => n.dirs ++ n.files.filter (fun f => decide (f ≠ []))).flatten

/-- The sample store, but every listing is that of the directory `d` holding the file `a`
and the sub-directory `b`. -/
def sample_world_d : World :=
  { sample_world with
    parse := fun _ =>
      { is_truncated := "false".toList, next_marker := [],
        prefixes := ["d/b/".toList], keys := ["d/a".toList] } }

end PathOps

namespace PathOps

/-- The state after the pass of the loop of `read_directory` that is served the names `n`:
the request has joined the log, and a `prefill_stats` task is posted for every name
reported. -/
def after_page (w : World) (pre marker : Str) (st : FsState) (n : Names) : FsState :=
  { st with
    sent := st.sent ++ [list_request w pre marker]
    prefill := st.prefill ++ n.dirs.map (fun d => (pre ++ d, HINT_IS_DIR))
      ++ (n.files.filter (fun f => decide (f ≠ []))).map (fun f => (pre ++ f, HINT_IS_FILE)) }

end PathOps

/-! ## The later binding: `get_metadata` and `remove_metadata` -/

namespace Trunk

/-- Modelled from the spec: `xattr::is_removable` (`xattr.h` is not in src). -/
def Xattr.is_removable (x : Xattr) : Bool := x.mode &&& XM_REMOVABLE ≠ 0

/-- Models `object::get_metadata` (lines 226-244); `get_value` stands for
`xattr::get_value(buffer, max_size)` (`xattr.h` is not in src) and `none` for the
`std::out_of_range` that `key.substr(XATTR_PREFIX_LEN)` throws for a key shorter than the
prefix. -/
def get_metadata (get_value : Xattr → Nat → Int) (o : Object) (key : Str) (max_size : Nat) :
    Option Int :=
  match substr_from key XATTR_PREFIX_LEN, substr key 0 XATTR_PREFIX_LEN with
  | some user_key, some key_head =>
    if key_head ≠ XATTR_PREFIX then some (- ENOATTR)
    else
      match mapFind user_key o.metadata with
      | none => some (- ENOATTR)
      | some value => some (get_value value max_size)
  | _, _ => none

/-- Models `object::remove_metadata` (lines 246-256); `none` stands for the
`std::out_of_range` that `key.substr(XATTR_PREFIX_LEN)` throws for a key shorter than the
prefix. -/
def remove_metadata (o : Object) (key : Str) : Option (Int × Object) :=
  match substr_from key XATTR_PREFIX_LEN with
  | none => none
  | some user_key =>
    match mapFind user_key o.metadata with
    | none => some (- ENOATTR, o)
    | some value =>
      if ¬ value.is_removable then some (- ENOATTR, o)
      else some (0, { o with metadata := mapErase user_key o.metadata })

/-- The sample object with the user xattr `color = blue`. -/
def sample_object_color : Object :=
  { sample_object with
    metadata := [("color".toList,
      { key := "color".toList, value := "blue".toList, mode := USER_XATTR_FLAGS })] }

end Trunk

namespace Base

/-- Every attempt is armed at 1000 and ends in `CURLE_RECV_ERROR`, after `check_timeout`
was called at 1031. -/
def sample_transport_timeout (_iter : Nat) : Attempt :=
  { pre_run_headers := [], start := 1000, callbacks := [Callback.check_timeout 1031],
    r := CURLE_RECV_ERROR, curl_error := "recv".toList,
    response_code := 0, last_modified := 0, should_retry := false }

end Base

end S3Fuse

/-! # Theorems -/

namespace S3Fuse

/-! ## Bit arithmetic on the status bitmap -/

theorem and_or_bit (s m b : Nat) : (s ||| m) &&& b = (s &&& b) ||| (m &&& b) :=
  Nat.and_distrib_right s m b

theorem set_in_use_flushing (s : Nat) : (s ||| FS_IN_USE) &&& FS_FLUSHING = s &&& FS_FLUSHING := by
  have h : FS_IN_USE &&& FS_FLUSHING = 0 := by decide
  rw [and_or_bit, h, Nat.or_zero]

theorem land_lor_self (s m : Nat) : (s &&& m) ||| m = m := by
  apply Nat.eq_of_testBit_eq
  intro i
  simp only [Nat.testBit_or, Nat.testBit_and]
  cases s.testBit i <;> simp

theorem set_in_use_in_use (s : Nat) : (s ||| FS_IN_USE) &&& FS_IN_USE = FS_IN_USE := by
  rw [and_or_bit, Nat.and_self, land_lor_self]

theorem set_flushing_in_use (s : Nat) : (s ||| FS_FLUSHING) &&& FS_IN_USE = s &&& FS_IN_USE := by
  have h : FS_FLUSHING &&& FS_IN_USE = 0 := by decide
  rw [and_or_bit, h, Nat.or_zero]

theorem set_flushing_flushing (s : Nat) : (s ||| FS_FLUSHING) &&& FS_FLUSHING = FS_FLUSHING := by
  rw [and_or_bit, Nat.and_self, land_lor_self]

theorem set_flushing_dirty (s : Nat) : (s ||| FS_FLUSHING) &&& FS_DIRTY = s &&& FS_DIRTY := by
  have h : FS_FLUSHING &&& FS_DIRTY = 0 := by decide
  rw [and_or_bit, h, Nat.or_zero]

theorem set_in_use_dirty (s : Nat) : (s ||| FS_IN_USE) &&& FS_DIRTY = s &&& FS_DIRTY := by
  have h : FS_IN_USE &&& FS_DIRTY = 0 := by decide
  rw [and_or_bit, h, Nat.or_zero]

theorem clear_in_use_in_use (s : Nat) : (s &&& bitNot32 FS_IN_USE) &&& FS_IN_USE = 0 := by
  rw [Nat.and_assoc]
  have h : bitNot32 FS_IN_USE &&& FS_IN_USE = 0 := by decide
  rw [h]; simp

theorem clear_flushing_flushing (s : Nat) : (s &&& bitNot32 FS_FLUSHING) &&& FS_FLUSHING = 0 := by
  rw [Nat.and_assoc]
  have h : bitNot32 FS_FLUSHING &&& FS_FLUSHING = 0 := by decide
  rw [h]; simp

theorem clear_dirty_dirty (s : Nat) : (s &&& bitNot32 FS_DIRTY) &&& FS_DIRTY = 0 := by
  rw [Nat.and_assoc]
  have h : bitNot32 FS_DIRTY &&& FS_DIRTY = 0 := by decide
  rw [h]; simp

theorem clear_dirty_flushing (s : Nat) :
    (s &&& bitNot32 FS_DIRTY) &&& FS_FLUSHING = s &&& FS_FLUSHING := by
  rw [Nat.and_assoc]
  have h : bitNot32 FS_DIRTY &&& FS_FLUSHING = FS_FLUSHING := by decide
  rw [h]

theorem clear_dirty_in_use (s : Nat) :
    (s &&& bitNot32 FS_DIRTY) &&& FS_IN_USE = s &&& FS_IN_USE := by
  rw [Nat.and_assoc]
  have h : bitNot32 FS_DIRTY &&& FS_IN_USE = FS_IN_USE := by decide
  rw [h]

theorem clear_flushing_in_use (s : Nat) :
    (s &&& bitNot32 FS_FLUSHING) &&& FS_IN_USE = s &&& FS_IN_USE := by
  rw [Nat.and_assoc]
  have h : bitNot32 FS_FLUSHING &&& FS_IN_USE = FS_IN_USE := by decide
  rw [h]

theorem clear_flushing_dirty (s : Nat) :
    (s &&& bitNot32 FS_FLUSHING) &&& FS_DIRTY = s &&& FS_DIRTY := by
  rw [Nat.and_assoc]
  have h : bitNot32 FS_FLUSHING &&& FS_DIRTY = FS_DIRTY := by decide
  rw [h]

theorem clear_in_use_flushing (s : Nat) :
    (s &&& bitNot32 FS_IN_USE) &&& FS_FLUSHING = s &&& FS_FLUSHING := by
  rw [Nat.and_assoc]
  have h : bitNot32 FS_IN_USE &&& FS_FLUSHING = FS_FLUSHING := by decide
  rw [h]

theorem write_end_in_use (s : Nat) :
    ((s &&& bitNot32 FS_IN_USE) ||| FS_DIRTY) &&& FS_IN_USE = 0 := by
  rw [and_or_bit, clear_in_use_in_use]; decide

theorem write_end_dirty (s : Nat) :
    ((s &&& bitNot32 FS_IN_USE) ||| FS_DIRTY) &&& FS_DIRTY = FS_DIRTY := by
  rw [and_or_bit, Nat.and_self, land_lor_self]

/-! ## The heap of handles -/

theorem modifyAt_getElem? (f : Nat → Nat) (h : Nat) (l : List FileHandle) (i : Nat) :
    (modifyAt f h l)[i]? =
      if i = h then (l[i]?).map (fun hd => { hd with status := f hd.status }) else l[i]? := by
  induction l generalizing h i with
  | nil => simp [modifyAt]
  | cons hd rest ih =>
    cases h with
    | zero =>
      cases i with
      | zero => simp [modifyAt]
      | succ i => simp [modifyAt]
    | succ h =>
      cases i with
      | zero => simp [modifyAt]
      | succ i => simp [modifyAt, ih]

theorem mem_modifyAt (f : Nat → Nat) (h : Nat) (l : List FileHandle) (x : FileHandle)
    (hx : x ∈ modifyAt f h l) :
    x ∈ l ∨ ∃ hd, l[h]? = some hd ∧ x = { hd with status := f hd.status } := by
  induction l generalizing h with
  | nil => simp [modifyAt] at hx
  | cons hd rest ih =>
    cases h with
    | zero =>
      simp only [modifyAt, List.mem_cons] at hx
      rcases hx with hx | hx
      · right; exact ⟨hd, by simp, hx⟩
      · left; exact List.mem_cons_of_mem _ hx
    | succ h =>
      simp only [modifyAt, List.mem_cons] at hx
      rcases hx with hx | hx
      · left; rw [hx]; exact List.mem_cons_self _ _
      · rcases ih h hx with h1 | ⟨hd', h1, h2⟩
        · left; exact List.mem_cons_of_mem _ h1
        · right; exact ⟨hd', by simpa using h1, h2⟩

theorem statusOf_modifyStatus (fs : Fs) (h : Nat) (f : Nat → Nat) (hd : FileHandle)
    (hh : fs.handles[h]? = some hd) : statusOf (modifyStatus fs h f) h = f hd.status := by
  simp [statusOf, modifyStatus, modifyAt_getElem?, hh]

theorem statusOf_eq (fs : Fs) (h : Nat) (hd : FileHandle) (hh : fs.handles[h]? = some hd) :
    statusOf fs h = hd.status := by
  simp [statusOf, hh]

/-- Changing the status of one handle keeps `Exclusive` when the new status of that handle
does not have both bits. -/
theorem exclusive_modify (fs : Fs) (h : Nat) (f : Nat → Nat) (hfs : Exclusive fs)
    (hf : ∀ hd, fs.handles[h]? = some hd →
      ¬ (f hd.status &&& FS_IN_USE ≠ 0 ∧ f hd.status &&& FS_FLUSHING ≠ 0)) :
    Exclusive (modifyStatus fs h f) := by
  intro x hx
  rcases mem_modifyAt f h fs.handles x hx with h1 | ⟨hd, h1, h2⟩
  · exact hfs x h1
  · rw [h2]; exact hf hd h1

theorem exclusive_open_locked (fs : Fs) (path : Str) (hfs : Exclusive fs) :
    Exclusive (open_locked fs path).1 := by
  intro x hx
  simp only [S3Fuse.open_locked, List.mem_append, List.mem_singleton] at hx
  rcases hx with hx | hx
  · exact hfs x hx
  · rw [hx]; simp [FS_NONE]

theorem exclusive_read_lock1 (fs : Fs) (context : Nat) (hfs : Exclusive fs) :
    Exclusive (read_lock1 fs context).1 := by
  unfold S3Fuse.read_lock1
  split
  · exact hfs
  · split
    · exact hfs
    · rename_i h _ hfl
      apply exclusive_modify _ _ _ hfs
      intro hd hh
      rw [statusOf_eq fs h hd hh] at hfl
      rw [set_in_use_flushing]
      exact fun hc => hfl hc.2

theorem exclusive_write_lock1 (fs : Fs) (context : Nat) (hfs : Exclusive fs) :
    Exclusive (write_lock1 fs context).1 :=
  exclusive_read_lock1 fs context hfs

theorem exclusive_read_lock2 (fs : Fs) (h : Nat) (hfs : Exclusive fs) :
    Exclusive (read_lock2 fs h) := by
  apply exclusive_modify _ _ _ hfs
  intro hd _
  rw [clear_in_use_in_use]; simp

theorem exclusive_write_lock2 (fs : Fs) (h : Nat) (hfs : Exclusive fs) :
    Exclusive (write_lock2 fs h) := by
  apply exclusive_modify _ _ _ hfs
  intro hd _
  rw [write_end_in_use]; simp

theorem exclusive_flush_lock1 (fs : Fs) (context : Nat) (hfs : Exclusive fs) :
    Exclusive (flush_lock1 fs context).1 := by
  unfold S3Fuse.flush_lock1
  split
  · exact hfs
  · split
    · exact hfs
    · split
      · exact hfs
      · rename_i h _ hiu _
        apply exclusive_modify _ _ _ hfs
        intro hd hh
        rw [statusOf_eq fs h hd hh] at hiu
        rw [set_flushing_in_use]
        exact fun hc => hiu hc.1

theorem exclusive_close_lock1 (fs : Fs) (context : Nat) (hfs : Exclusive fs) :
    Exclusive (close_lock1 fs context).1 := by
  unfold S3Fuse.close_lock1
  split
  · exact hfs
  · split
    · exact hfs
    · rename_i h _ hiu
      apply exclusive_modify _ _ _ hfs
      intro hd hh
      rw [statusOf_eq fs h hd hh] at hiu
      rw [set_flushing_in_use]
      exact fun hc => hiu (Or.inl hc.1)

theorem exclusive_clear_flushing (fs : Fs) (h : Nat) (hfs : Exclusive fs) :
    Exclusive (modifyStatus fs h (fun s => s &&& bitNot32 FS_FLUSHING)) := by
  apply exclusive_modify _ _ _ hfs
  intro hd _
  rw [clear_flushing_flushing]; simp

theorem exclusive_clear_dirty (fs : Fs) (h : Nat) (hfs : Exclusive fs) :
    Exclusive (modifyStatus fs h (fun s => s &&& bitNot32 FS_DIRTY)) := by
  apply exclusive_modify _ _ _ hfs
  intro hd hh
  rw [clear_dirty_flushing, clear_dirty_in_use]
  exact hfs hd (List.getElem?_mem hh)

theorem exclusive_flush_lock2 (fs : Fs) (h : Nat) (r : Int) (hfs : Exclusive fs) :
    Exclusive (flush_lock2 fs h r) := by
  unfold S3Fuse.flush_lock2
  simp only
  split
  · exact exclusive_clear_dirty _ _ (exclusive_clear_flushing _ _ hfs)
  · exact exclusive_clear_flushing _ _ hfs

theorem exclusive_close_lock2 (fs : Fs) (context h : Nat) (r : Int) (hfs : Exclusive fs) :
    Exclusive (close_lock2 fs context h r) := by
  unfold S3Fuse.close_lock2
  simp only
  split
  · exact exclusive_clear_dirty _ _ (exclusive_clear_flushing _ _ hfs)
  · exact exclusive_clear_flushing _ _ hfs

theorem exclusive_enter (s : Sys) (t : Nat) (res : Fs × Locked) (pc : Nat → Pc)
    (hs : Exclusive s.fs) (hres : Exclusive res.1) : Exclusive (enter s t res pc).fs := by
  unfold S3Fuse.enter
  split
  · split <;> exact hres
  · exact hs

theorem exclusive_step (s : Sys) (a : Action) (hs : Exclusive s.fs) :
    Exclusive (step s a).fs := by
  cases a with
  | open_ path => exact exclusive_open_locked _ _ hs
  | read_begin t context => exact exclusive_enter _ _ _ _ hs (exclusive_read_lock1 _ _ hs)
  | read_end t =>
    simp only [S3Fuse.step]; split
    · exact exclusive_read_lock2 _ _ hs
    · exact hs
  | write_begin t context => exact exclusive_enter _ _ _ _ hs (exclusive_write_lock1 _ _ hs)
  | write_end t =>
    simp only [S3Fuse.step]; split
    · exact exclusive_write_lock2 _ _ hs
    · exact hs
  | flush_begin t context => exact exclusive_enter _ _ _ _ hs (exclusive_flush_lock1 _ _ hs)
  | flush_upload t upload =>
    simp only [S3Fuse.step]; split
    · exact hs
    · exact hs
  | flush_end t =>
    simp only [S3Fuse.step]; split
    · exact exclusive_flush_lock2 _ _ _ hs
    · exact hs
  | close_begin t context => exact exclusive_enter _ _ _ _ hs (exclusive_close_lock1 _ _ hs)
  | close_upload t upload =>
    simp only [S3Fuse.step]; split
    · exact hs
    · exact hs
  | close_end t =>
    simp only [S3Fuse.step]; split
    · exact exclusive_close_lock2 _ _ _ _ hs
    · exact hs

theorem exclusive_foldl (acts : List Action) (s : Sys) (hs : Exclusive s.fs) :
    Exclusive (acts.foldl step s).fs := by
  induction acts generalizing s with
  | nil => exact hs
  | cons a rest ih => exact ih (step s a) (exclusive_step s a hs)

/-- C1: in every state reached from the empty open-file table by steps of open, read, write,
flush and close (each split at its unlock/lock points, threads interleaved in any way), no
handle, whether still in the table or already erased from it, has both the in-use bit and
the flushing bit set. -/
theorem C1_in_use_and_flushing_exclusive (acts : List Action) :
    ∀ hd ∈ (run acts).fs.handles,
      ¬ (hd.status &&& FS_IN_USE ≠ 0 ∧ hd.status &&& FS_FLUSHING ≠ 0) :=
  exclusive_foldl acts Sys.init (by intro x hx; simp [Sys.init] at hx)

/-- C1 (witness): while thread 1 is inside a read the handle of context 0 is in the heap with
status `FS_IN_USE`, and it does not have both bits. -/
theorem C1_in_use_and_flushing_exclusive_witness :
    ({ status := FS_IN_USE, path := "f".toList } : FileHandle)
        ∈ (run [.open_ "f".toList, .read_begin 1 0]).fs.handles ∧
    ¬ (FS_IN_USE &&& FS_IN_USE ≠ 0 ∧ FS_IN_USE &&& FS_FLUSHING ≠ 0) :=
  ⟨by decide,
   C1_in_use_and_flushing_exclusive [.open_ "f".toList, .read_begin 1 0]
     { status := FS_IN_USE, path := "f".toList } (by decide)⟩

/-- C2 (the code at the failing input): two threads read the same handle; the first to
finish clears the in-use bit although the second is still inside its `pread`, and a flush
that starts then finds the handle free and sets the flushing bit while that read is still in
progress. -/
theorem C2_in_use_cleared_under_second_reader :
    (run [.open_ "f".toList, .read_begin 1 0, .read_begin 2 0, .read_end 1]).threads 2
        = .in_read 0 ∧
    statusOf (run [.open_ "f".toList, .read_begin 1 0, .read_begin 2 0, .read_end 1]).fs 0
        &&& FS_IN_USE = 0 ∧
    (run [.open_ "f".toList, .read_begin 1 0, .read_begin 2 0, .read_end 1,
        .flush_begin 3 0]).threads 2 = .in_read 0 ∧
    (run [.open_ "f".toList, .read_begin 1 0, .read_begin 2 0, .read_end 1,
        .flush_begin 3 0]).threads 3 = .flush_pending 0 ∧
    statusOf (run [.open_ "f".toList, .read_begin 1 0, .read_begin 2 0, .read_end 1,
        .flush_begin 3 0]).fs 0 &&& FS_FLUSHING ≠ 0 := by
  decide

/-- The status of the handle after the second locked section of `flush`, in any state. -/
theorem statusOf_flush_lock2 (fs : Fs) (h : Nat) (hd : FileHandle) (r : Int)
    (hh : fs.handles[h]? = some hd) :
    statusOf (flush_lock2 fs h r) h
      = if r = 0 then (hd.status &&& bitNot32 FS_FLUSHING) &&& bitNot32 FS_DIRTY
        else hd.status &&& bitNot32 FS_FLUSHING := by
  have hh2 : (modifyStatus fs h (fun s => s &&& bitNot32 FS_FLUSHING)).handles[h]?
      = some { hd with status := hd.status &&& bitNot32 FS_FLUSHING } := by
    simp [modifyStatus, modifyAt_getElem?, hh]
  unfold flush_lock2
  simp only
  split
  · rw [statusOf_modifyStatus _ h _ _ hh2]
  · rw [statusOf_modifyStatus _ h _ _ hh]

/-- C3 (counterexample): after `open` and the first locked section of a flush by thread 1
the handle of context 0 has the flushing bit set, and a second `flush` of that context
returns 0, not `-EBUSY`. -/
theorem C3_flush_on_flushing_returns_zero :
    statusOf (run [.open_ "f".toList, .flush_begin 1 0]).fs 0 &&& FS_FLUSHING ≠ 0 ∧
    (fs_flush (run [.open_ "f".toList, .flush_begin 1 0]).fs 0 (- EIO)).1 = 0 ∧
    (fs_flush (run [.open_ "f".toList, .flush_begin 1 0]).fs 0 (- EIO)).1 ≠ -EBUSY := by
  decide

/-- C3 (amended): for a context in the table, `flush` returns `-EBUSY` when the handle has
the in-use bit set, and returns 0 when the in-use bit is clear and the flushing bit is set
(another thread is flushing or closing); in both cases the table and every status are
unchanged and no upload is started. -/
theorem C3_flush_busy_or_zero (fs : Fs) (context h : Nat) (upload : Int)
    (hfind : mapFind context fs.open_files = some h) :
    (statusOf fs h &&& FS_IN_USE ≠ 0 → fs_flush fs context upload = (-EBUSY, fs, false)) ∧
    (statusOf fs h &&& FS_IN_USE = 0 → statusOf fs h &&& FS_FLUSHING ≠ 0 →
      fs_flush fs context upload = (0, fs, false)) := by
  constructor
  · intro hiu
    simp [fs_flush, flush_lock1, hfind, hiu]
  · intro hiu hfl
    simp [fs_flush, flush_lock1, hfind, hiu, hfl]

/-- C3 (witness): a handle in use gives `-EBUSY`, a handle being flushed gives 0. -/
theorem C3_flush_busy_or_zero_witness :
    fs_flush (run [.open_ "f".toList, .read_begin 1 0]).fs 0 (- EIO)
      = (-EBUSY, (run [.open_ "f".toList, .read_begin 1 0]).fs, false) ∧
    fs_flush (run [.open_ "f".toList, .flush_begin 1 0]).fs 0 (- EIO)
      = (0, (run [.open_ "f".toList, .flush_begin 1 0]).fs, false) :=
  ⟨(C3_flush_busy_or_zero (run [.open_ "f".toList, .read_begin 1 0]).fs 0 0 (- EIO)
      (by decide)).1 (by decide),
   (C3_flush_busy_or_zero (run [.open_ "f".toList, .flush_begin 1 0]).fs 0 0 (- EIO)
      (by decide)).2 (by decide) (by decide)⟩

/-- C4: for a context in the table whose handle is neither in use nor flushing, `flush` sets
the flushing bit in its first locked section, starts the upload exactly when the dirty bit
is set, and returns the upload's result (0 when no upload was needed); on return the
flushing bit is clear, the dirty bit is clear exactly when the upload returned 0 or no upload
was needed, and a failed upload leaves the dirty bit set and its error code is returned.
Whatever state the second locked section finds (other threads may have run meanwhile), it
leaves the flushing bit clear, clears the dirty bit when `r` is 0 and keeps it otherwise. -/
theorem C4_flush_free_handle (fs : Fs) (context h : Nat) (hd : FileHandle) (upload : Int)
    (hfind : mapFind context fs.open_files = some h)
    (hh : fs.handles[h]? = some hd)
    (hiu : hd.status &&& FS_IN_USE = 0)
    (hfl : hd.status &&& FS_FLUSHING = 0) :
    (flush_lock1 fs context).2 = .go h ∧
    statusOf (flush_lock1 fs context).1 h &&& FS_FLUSHING ≠ 0 ∧
    ((fs_flush fs context upload).2.2 = true ↔ hd.status &&& FS_DIRTY ≠ 0) ∧
    (fs_flush fs context upload).1 = (if hd.status &&& FS_DIRTY ≠ 0 then upload else 0) ∧
    statusOf (fs_flush fs context upload).2.1 h &&& FS_FLUSHING = 0 ∧
    (statusOf (fs_flush fs context upload).2.1 h &&& FS_DIRTY = 0 ↔
      (upload = 0 ∨ hd.status &&& FS_DIRTY = 0)) ∧
    (hd.status &&& FS_DIRTY ≠ 0 → upload ≠ 0 →
      (fs_flush fs context upload).1 = upload ∧
      statusOf (fs_flush fs context upload).2.1 h &&& FS_DIRTY ≠ 0) ∧
    (∀ (fs2 : Fs) (hd2 : FileHandle) (r : Int), fs2.handles[h]? = some hd2 →
      statusOf (flush_lock2 fs2 h r) h &&& FS_FLUSHING = 0 ∧
      (r = 0 → statusOf (flush_lock2 fs2 h r) h &&& FS_DIRTY = 0) ∧
      (r ≠ 0 → statusOf (flush_lock2 fs2 h r) h &&& FS_DIRTY = hd2.status &&& FS_DIRTY)) := by
  have hs : statusOf fs h = hd.status := statusOf_eq fs h hd hh
  have h1 : flush_lock1 fs context = (modifyStatus fs h (fun s => s ||| FS_FLUSHING), .go h) := by
    simp [flush_lock1, hfind, hs, hiu, hfl]
  have hh1 : (modifyStatus fs h (fun s => s ||| FS_FLUSHING)).handles[h]?
      = some { hd with status := hd.status ||| FS_FLUSHING } := by
    simp [modifyStatus, modifyAt_getElem?, hh]
  have hs1 : statusOf (modifyStatus fs h (fun s => s ||| FS_FLUSHING)) h
      = hd.status ||| FS_FLUSHING := statusOf_modifyStatus fs h _ hd hh
  have hflush : fs_flush fs context upload =
      ((flush_unlocked (modifyStatus fs h (fun s => s ||| FS_FLUSHING)) h upload).1,
       flush_lock2 (modifyStatus fs h (fun s => s ||| FS_FLUSHING)) h
         (flush_unlocked (modifyStatus fs h (fun s => s ||| FS_FLUSHING)) h upload).1,
       (flush_unlocked (modifyStatus fs h (fun s => s ||| FS_FLUSHING)) h upload).2) := by
    simp [fs_flush, h1]
  have hun : flush_unlocked (modifyStatus fs h (fun s => s ||| FS_FLUSHING)) h upload
      = if hd.status &&& FS_DIRTY ≠ 0 then (upload, true) else (0, false) := by
    simp [flush_unlocked, hs1, set_flushing_dirty]
  have hFne : FS_FLUSHING ≠ 0 := by decide
  have hl2 : ∀ r : Int,
      statusOf (flush_lock2 (modifyStatus fs h (fun s => s ||| FS_FLUSHING)) h r) h
      = if r = 0 then ((hd.status ||| FS_FLUSHING) &&& bitNot32 FS_FLUSHING) &&& bitNot32 FS_DIRTY
        else (hd.status ||| FS_FLUSHING) &&& bitNot32 FS_FLUSHING :=
    fun r => statusOf_flush_lock2 _ h _ r hh1
  have hdirty_keep : ((hd.status ||| FS_FLUSHING) &&& bitNot32 FS_FLUSHING) &&& FS_DIRTY
      = hd.status &&& FS_DIRTY := by
    rw [clear_flushing_dirty, set_flushing_dirty]
  refine ⟨by rw [h1], ?_, ?_, ?_, ?_, ?_, ?_, ?_⟩
  · rw [h1]; simp only; rw [hs1, set_flushing_flushing]; exact hFne
  · rw [hflush, hun]; split <;> simp_all
  · rw [hflush, hun]; split <;> simp_all
  · rw [hflush]; simp only; rw [hl2]
    split
    · rw [clear_dirty_flushing, clear_flushing_flushing]
    · rw [clear_flushing_flushing]
  · rw [hflush]; simp only; rw [hl2, hun]
    by_cases hdz : hd.status &&& FS_DIRTY = 0
    · simp only [hdz, ne_eq, not_true_eq_false, if_false, if_true, or_true, iff_true]
      rw [clear_dirty_dirty]
    · by_cases hu : upload = 0
      · simp only [hdz, ne_eq, not_false_eq_true, if_true, hu, true_or, iff_true]
        rw [clear_dirty_dirty]
      · simp only [hdz, ne_eq, not_false_eq_true, if_true, hu, if_false, or_self, iff_false]
        rw [hdirty_keep]; exact hdz
  · intro hdz hu
    rw [hflush]; simp only; rw [hl2, hun]
    simp only [hdz, ne_eq, not_false_eq_true, if_true, hu, if_false]
    rw [hdirty_keep]
    exact ⟨trivial, hdz⟩
  · intro fs2 hd2 r hh2
    rw [statusOf_flush_lock2 fs2 h hd2 r hh2]
    refine ⟨?_, ?_, ?_⟩
    · split
      · rw [clear_dirty_flushing, clear_flushing_flushing]
      · rw [clear_flushing_flushing]
    · intro hr; rw [if_pos hr, clear_dirty_dirty]
    · intro hr; rw [if_neg hr, clear_flushing_dirty]

/-- C4 (witness): a handle made dirty by a write, flushed with an upload that fails with
`- EIO`: the hypotheses hold, `- EIO` is returned, flushing is clear and dirty is still set. -/
theorem C4_flush_free_handle_witness :
    (fs_flush (run [.open_ "f".toList, .write_begin 1 0, .write_end 1]).fs 0 (- EIO)).1 = - EIO ∧
    statusOf (fs_flush (run [.open_ "f".toList, .write_begin 1 0, .write_end 1]).fs 0
      (- EIO)).2.1 0 &&& FS_FLUSHING = 0 ∧
    statusOf (fs_flush (run [.open_ "f".toList, .write_begin 1 0, .write_end 1]).fs 0
      (- EIO)).2.1 0 &&& FS_DIRTY ≠ 0 :=
  have h := C4_flush_free_handle (run [.open_ "f".toList, .write_begin 1 0, .write_end 1]).fs
    0 0 { status := FS_DIRTY, path := "f".toList } (- EIO)
    (by decide) (by decide) (by decide) (by decide)
  ⟨(h.2.2.2.2.2.2.1 (by decide) (by decide)).1, h.2.2.2.2.1,
   (h.2.2.2.2.2.2.1 (by decide) (by decide)).2⟩

/-- C5: `read` and `write` return `-EINVAL` for a context that is not in the table and
`-EBUSY` when the handle has the flushing bit set, and the table with every status is then
unchanged; otherwise the first locked section sets the in-use bit before the `pread` or
`pwrite`, whose result is returned, the second locked section clears it, and after such a
write the dirty bit is set. -/
theorem C5_read_write (fs : Fs) (context : Nat) (r : Int) :
    (mapFind context fs.open_files = none →
      fs_read fs context r = (-EINVAL, fs) ∧ fs_write fs context r = (-EINVAL, fs)) ∧
    (∀ h, mapFind context fs.open_files = some h → statusOf fs h &&& FS_FLUSHING ≠ 0 →
      fs_read fs context r = (-EBUSY, fs) ∧ fs_write fs context r = (-EBUSY, fs)) ∧
    (∀ h hd, mapFind context fs.open_files = some h → fs.handles[h]? = some hd →
      hd.status &&& FS_FLUSHING = 0 →
      (read_lock1 fs context).2 = .go h ∧
      statusOf (read_lock1 fs context).1 h &&& FS_IN_USE ≠ 0 ∧
      (fs_read fs context r).1 = r ∧
      statusOf (fs_read fs context r).2 h &&& FS_IN_USE = 0 ∧
      (write_lock1 fs context).2 = .go h ∧
      statusOf (write_lock1 fs context).1 h &&& FS_IN_USE ≠ 0 ∧
      (fs_write fs context r).1 = r ∧
      statusOf (fs_write fs context r).2 h &&& FS_IN_USE = 0 ∧
      statusOf (fs_write fs context r).2 h &&& FS_DIRTY ≠ 0) := by
  refine ⟨?_, ?_, ?_⟩
  · intro hnone
    simp [fs_read, fs_write, read_lock1, write_lock1, hnone]
  · intro h hfind hfl
    simp [fs_read, fs_write, read_lock1, write_lock1, hfind, hfl]
  · intro h hd hfind hh hfl
    have hs : statusOf fs h = hd.status := statusOf_eq fs h hd hh
    have hr1 : read_lock1 fs context = (modifyStatus fs h (fun s => s ||| FS_IN_USE), .go h) := by
      simp [read_lock1, hfind, hs, hfl]
    have hw1 : write_lock1 fs context = (modifyStatus fs h (fun s => s ||| FS_IN_USE), .go h) := by
      simp [write_lock1, hfind, hs, hfl]
    have hh1 : (modifyStatus fs h (fun s => s ||| FS_IN_USE)).handles[h]?
        = some { hd with status := hd.status ||| FS_IN_USE } := by
      simp [modifyStatus, modifyAt_getElem?, hh]
    have hs1 : statusOf (modifyStatus fs h (fun s => s ||| FS_IN_USE)) h
        = hd.status ||| FS_IN_USE := statusOf_modifyStatus fs h _ hd hh
    have hIne : FS_IN_USE ≠ 0 := by decide
    have hDne : FS_DIRTY ≠ 0 := by decide
    have hread : fs_read fs context r
        = (r, read_lock2 (modifyStatus fs h (fun s => s ||| FS_IN_USE)) h) := by
      simp [fs_read, hr1]
    have hwrite : fs_write fs context r
        = (r, write_lock2 (modifyStatus fs h (fun s => s ||| FS_IN_USE)) h) := by
      simp [fs_write, hw1]
    have hrs : statusOf (read_lock2 (modifyStatus fs h (fun s => s ||| FS_IN_USE)) h) h
        = (hd.status ||| FS_IN_USE) &&& bitNot32 FS_IN_USE := by
      unfold read_lock2; rw [statusOf_modifyStatus _ h _ _ hh1]
    have hws : statusOf (write_lock2 (modifyStatus fs h (fun s => s ||| FS_IN_USE)) h) h
        = ((hd.status ||| FS_IN_USE) &&& bitNot32 FS_IN_USE) ||| FS_DIRTY := by
      unfold write_lock2; rw [statusOf_modifyStatus _ h _ _ hh1]
    refine ⟨by rw [hr1], ?_, by rw [hread], ?_, by rw [hw1], ?_, by rw [hwrite], ?_, ?_⟩
    · rw [hr1]; simp only; rw [hs1, set_in_use_in_use]; exact hIne
    · rw [hread]; simp only; rw [hrs, clear_in_use_in_use]
    · rw [hw1]; simp only; rw [hs1, set_in_use_in_use]; exact hIne
    · rw [hwrite]; simp only; rw [hws, write_end_in_use]
    · rw [hwrite]; simp only; rw [hws, write_end_dirty]; exact hDne

/-- C5 (witness): on the table after one `open`, context 7 is missing (`-EINVAL`), and a
write on context 0 returns what `pwrite` returned and leaves the handle dirty and not in
use; after the first locked section of a flush, a read of context 0 returns `-EBUSY`. -/
theorem C5_read_write_witness :
    fs_read (run [.open_ "f".toList]).fs 7 4096 = (-EINVAL, (run [.open_ "f".toList]).fs) ∧
    fs_read (run [.open_ "f".toList, .flush_begin 1 0]).fs 0 4096
      = (-EBUSY, (run [.open_ "f".toList, .flush_begin 1 0]).fs) ∧
    (fs_write (run [.open_ "f".toList]).fs 0 4096).1 = 4096 ∧
    statusOf (fs_write (run [.open_ "f".toList]).fs 0 4096).2 0 &&& FS_DIRTY ≠ 0 :=
  ⟨((C5_read_write (run [.open_ "f".toList]).fs 7 4096).1 (by decide)).1,
   ((C5_read_write (run [.open_ "f".toList, .flush_begin 1 0]).fs 0 4096).2.1 0
      (by decide) (by decide)).1,
   ((C5_read_write (run [.open_ "f".toList]).fs 0 4096).2.2 0
      { status := FS_NONE, path := "f".toList } (by decide) (by decide) (by decide)).2.2.2.2.2.2.1,
   ((C5_read_write (run [.open_ "f".toList]).fs 0 4096).2.2 0
      { status := FS_NONE, path := "f".toList } (by decide) (by decide)
      (by decide)).2.2.2.2.2.2.2.2⟩

/-- A property of both branches holds of the conditional. -/
theorem ite_prop {α : Type} (P : α → Prop) (c : Prop) [Decidable c] (a b : α)
    (ha : c → P a) (hb : ¬ c → P b) : P (if c then a else b) := by
  by_cases h : c
  · rw [if_pos h]; exact ha h
  · rw [if_neg h]; exact hb h

/-! ## Maps -/

theorem mapFind_mapInsert_self {κ ν : Type} [DecidableEq κ] [LT κ]
    [DecidableRel (α := κ) (· < ·)] (k : κ) (v : ν) (m : List (κ × ν)) :
    mapFind k (mapInsert k v m) = some v := by
  induction m with
  | nil => simp [mapInsert, mapFind]
  | cons e rest ih =>
    obtain ⟨k', v'⟩ := e
    unfold mapInsert
    by_cases h1 : k' = k
    · simp [h1, mapFind]
    · by_cases h2 : k < k'
      · simp [h1, h2, mapFind]
      · simp [h1, h2, mapFind, ih]

theorem mapFind_mapInsert_ne {κ ν : Type} [DecidableEq κ] [LT κ]
    [DecidableRel (α := κ) (· < ·)] (k k2 : κ) (v : ν) (m : List (κ × ν)) (hne : k ≠ k2) :
    mapFind k2 (mapInsert k v m) = mapFind k2 m := by
  induction m with
  | nil => simp [mapInsert, mapFind, hne]
  | cons e rest ih =>
    obtain ⟨k', v'⟩ := e
    unfold mapInsert
    by_cases h1 : k' = k
    · subst h1; simp [mapFind, hne]
    · by_cases h2 : k < k'
      · simp [h1, h2, mapFind, hne]
      · by_cases h3 : k' = k2
        · subst h3; simp [h1, h2, mapFind]
        · simp [h1, h2, mapFind, h3, ih]

theorem mem_mapKeys_mapInsert {κ ν : Type} [DecidableEq κ] [LT κ]
    [DecidableRel (α := κ) (· < ·)] (k k2 : κ) (v : ν) (m : List (κ × ν))
    (hmem : k2 ∈ mapKeys (mapInsert k v m)) : k2 = k ∨ k2 ∈ mapKeys m := by
  induction m with
  | nil => simp [mapInsert, mapKeys] at hmem; exact Or.inl hmem
  | cons e rest ih =>
    obtain ⟨k', v'⟩ := e
    unfold mapInsert at hmem
    by_cases h1 : k' = k
    · simp only [h1, if_true, mapKeys, List.map_cons, List.mem_cons] at hmem
      rcases hmem with h | h
      · exact Or.inl h
      · right; simp only [mapKeys, List.map_cons, List.mem_cons]; exact Or.inr h
    · by_cases h2 : k < k'
      · simp only [h1, h2, if_true, if_false, mapKeys, List.map_cons, List.mem_cons] at hmem
        rcases hmem with h | h | h
        · exact Or.inl h
        · right; simp only [mapKeys, List.map_cons, List.mem_cons]; exact Or.inl h
        · right; simp only [mapKeys, List.map_cons, List.mem_cons]; exact Or.inr h
      · simp only [h1, h2, if_false, mapKeys, List.map_cons, List.mem_cons] at hmem
        rcases hmem with h | h
        · right; simp only [mapKeys, List.map_cons, List.mem_cons]; exact Or.inl h
        · rcases ih h with h' | h'
          · exact Or.inl h'
          · right; simp only [mapKeys, List.map_cons, List.mem_cons]; exact Or.inr h'

theorem mem_mapKeys_mapErase {κ ν : Type} [DecidableEq κ] (k k2 : κ) (m : List (κ × ν))
    (hmem : k2 ∈ mapKeys (mapErase k m)) : k2 ∈ mapKeys m := by
  simp only [mapKeys, mapErase, List.mem_map, List.mem_filter] at hmem ⊢
  obtain ⟨e, ⟨he, _⟩, hk⟩ := hmem
  exact ⟨e, he, hk⟩

/-! ## `strncmp` against a prefix without NUL -/

theorem strncmp_eq_iff_prefix (p : Str) (hp : ∀ c ∈ p, c ≠ '\x00') (a : Str) :
    strncmp_eq a p p.length = true ↔ p <+: a := by
  induction p generalizing a with
  | nil => simp [strncmp_eq]
  | cons c p' ih =>
    have hc : c ≠ '\x00' := hp c (List.mem_cons_self _ _)
    have hp' : ∀ d ∈ p', d ≠ '\x00' := fun d hd => hp d (List.mem_cons_of_mem _ hd)
    cases a with
    | nil =>
      simp only [List.length_cons, strncmp_eq, List.headD_nil, List.headD_cons]
      simp [Ne.symm hc]
    | cons x a' =>
      simp only [List.length_cons, strncmp_eq, List.headD_cons, List.tail_cons]
      by_cases hx : x = c
      · subst hx
        simp only [ne_eq, not_true_eq_false, if_false, hc]
        rw [ih hp' a']
        exact (List.cons_prefix_cons.trans (by simp)).symm
      · simp only [ne_eq, hx, not_false_eq_true, if_true]
        constructor
        · intro h; cases h
        · intro h
          have := (List.cons_prefix_cons.mp h).1
          exact absurd this.symm hx

theorem strncmp_reserved (key : Str) :
    strncmp_eq key Early.META_PREFIX_RESERVED Early.META_PREFIX_RESERVED_LEN = true
      ↔ Reserved key := by
  unfold Early.META_PREFIX_RESERVED_LEN Reserved
  exact strncmp_eq_iff_prefix Early.META_PREFIX_RESERVED (by decide) key

/-! ## The early binding: reserved names -/

theorem noReserved_mapInsert {ν : Type} (k : Str) (v : ν) (m : List (Str × ν))
    (hk : ¬ Reserved k) (hm : NoReservedKey m) : NoReservedKey (mapInsert k v m) := by
  intro k2 hk2
  rcases mem_mapKeys_mapInsert k k2 v m hk2 with h | h
  · rw [h]; exact hk
  · exact hm k2 h

theorem noReserved_mapErase {ν : Type} (k : Str) (m : List (Str × ν))
    (hm : NoReservedKey m) : NoReservedKey (mapErase k m) :=
  fun k2 hk2 => hm k2 (mem_mapKeys_mapErase k k2 m hk2)

theorem early_set_metadata_reserved (o : Early.Object) (key value : Str) (flags : Nat)
    (hkey : Reserved key ∨ key = "__md5__".toList ∨ key = "__etag__".toList
      ∨ key = "__content_type__".toList) :
    Early.set_metadata o key value flags = (-EINVAL, o) := by
  unfold Early.set_metadata
  simp only
  by_cases hr : Reserved key
  · rw [if_pos ((strncmp_reserved key).mpr hr)]
  · have hn : ¬ strncmp_eq key Early.META_PREFIX_RESERVED Early.META_PREFIX_RESERVED_LEN = true :=
      fun h => hr ((strncmp_reserved key).mp h)
    rw [if_neg hn, if_pos (hkey.resolve_left hr)]

theorem noReserved_set_metadata (o : Early.Object) (key value : Str) (flags : Nat)
    (hm : NoReservedKey o.metadata) :
    NoReservedKey (Early.set_metadata o key value flags).2.metadata := by
  unfold Early.set_metadata
  simp only
  split_ifs with c1 c2 c3 c4
  · exact hm
  · exact hm
  · exact hm
  · exact hm
  · exact noReserved_mapInsert key value o.metadata
      (fun h => c1 ((strncmp_reserved key).mpr h)) hm

theorem noReserved_remove_metadata (o : Early.Object) (key : Str)
    (hm : NoReservedKey o.metadata) :
    NoReservedKey (Early.remove_metadata o key).2.metadata := by
  unfold Early.remove_metadata
  split
  · exact hm
  · exact noReserved_mapErase key o.metadata hm

theorem noReserved_request_process_header (svc : Service) (o : Early.Object)
    (key value : Str) (hm : NoReservedKey o.metadata) :
    NoReservedKey (Early.request_process_header svc o key value).metadata := by
  unfold Early.request_process_header
  simp only
  iterate 10
    (refine ite_prop (fun x : Early.Object => NoReservedKey x.metadata) _ _ _ (fun _ => hm)
      (fun _ => ?_))
  refine ite_prop (fun x : Early.Object => NoReservedKey x.metadata) _ _ _ (fun c11 => ?_)
    (fun _ => hm)
  exact noReserved_mapInsert _ value o.metadata
    (fun h => c11.2 ((strncmp_reserved _).mpr h)) hm

theorem noReserved_apply (svc : Service) (cfg : Config) (o : Early.Object) (op : Early.MetaOp)
    (hm : NoReservedKey o.metadata) : NoReservedKey (op.apply svc cfg o).metadata := by
  cases op with
  | set_metadata key value flags => exact noReserved_set_metadata o key value flags hm
  | remove_metadata key => exact noReserved_remove_metadata o key hm
  | request_init => intro k hk; simp [Early.MetaOp.apply, Early.request_init, mapKeys] at hk
  | request_process_header key value =>
    exact noReserved_request_process_header svc o key value hm

theorem noReserved_foldl (svc : Service) (cfg : Config) (ops : List Early.MetaOp)
    (o : Early.Object) (hm : NoReservedKey o.metadata) :
    NoReservedKey (ops.foldl (Early.MetaOp.apply svc cfg) o).metadata := by
  induction ops generalizing o with
  | nil => exact hm
  | cons op rest ih => exact ih (op.apply svc cfg o) (noReserved_apply svc cfg o op hm)

/-- C8: in the early binding `set_metadata` returns `-EINVAL` and leaves the object (its
metadata map included) unchanged for every key that begins with `s3fuse-` or is `__md5__`,
`__etag__` or `__content_type__`, whatever the value and the flags; and an object whose
metadata map has no key beginning with `s3fuse-` (as a new object's empty map) has none
after any sequence of `set_metadata`, `remove_metadata`, `request_init` and
`request_process_header` calls. -/
theorem C8_reserved_names_rejected (svc : Service) (cfg : Config) (o : Early.Object)
    (ops : List Early.MetaOp) (hm : ∀ k ∈ mapKeys o.metadata, ¬ Reserved k) :
    (∀ key value flags,
      (Reserved key ∨ key = "__md5__".toList ∨ key = "__etag__".toList
        ∨ key = "__content_type__".toList) →
      Early.set_metadata o key value flags = (-EINVAL, o)) ∧
    (∀ k ∈ mapKeys (ops.foldl (Early.MetaOp.apply svc cfg) o).metadata, ¬ Reserved k) :=
  ⟨fun key value flags hkey => early_set_metadata_reserved o key value flags hkey,
   noReserved_foldl svc cfg ops o hm⟩

/-- C8 (witness): on an object with an empty metadata map, `s3fuse-mode` is rejected, and
after a header `x-amz-meta-s3fuse-foo`, a `set_metadata` of `s3fuse-x` and one of `color` no
key is reserved. -/
theorem C8_reserved_names_rejected_witness :
    (∀ k ∈ mapKeys Early.sample_object.metadata, ¬ Reserved k) ∧
    Early.set_metadata Early.sample_object "s3fuse-mode".toList "0777".toList 0
      = (-EINVAL, Early.sample_object) ∧
    (∀ k ∈ mapKeys ([Early.MetaOp.request_process_header "x-amz-meta-s3fuse-foo".toList "1".toList,
        Early.MetaOp.set_metadata "s3fuse-x".toList "v".toList 0,
        Early.MetaOp.set_metadata "color".toList "blue".toList 0].foldl
        (Early.MetaOp.apply .aws sample_config) Early.sample_object).metadata, ¬ Reserved k) :=
  have h := C8_reserved_names_rejected .aws sample_config Early.sample_object
    [Early.MetaOp.request_process_header "x-amz-meta-s3fuse-foo".toList "1".toList,
     Early.MetaOp.set_metadata "s3fuse-x".toList "v".toList 0,
     Early.MetaOp.set_metadata "color".toList "blue".toList 0]
    (by decide)
  ⟨by decide, h.1 "s3fuse-mode".toList "0777".toList 0 (Or.inl (by decide)), h.2⟩

/-! ## `set_metadata` flags -/

theorem early_set_metadata_unreserved (o : Early.Object) (key value : Str) (flags : Nat)
    (hres : ¬ Reserved key) (h1 : key ≠ "__md5__".toList) (h2 : key ≠ "__etag__".toList)
    (h3 : key ≠ "__content_type__".toList) :
    Early.set_metadata o key value flags =
      if flags &&& XATTR_CREATE ≠ 0 ∧ (mapFind key o.metadata).isSome then (-EEXIST, o)
      else if flags &&& XATTR_REPLACE ≠ 0 ∧ (mapFind key o.metadata).isNone then (-ENODATA, o)
      else (0, { o with metadata := mapInsert key value o.metadata }) := by
  have hn : ¬ strncmp_eq key Early.META_PREFIX_RESERVED Early.META_PREFIX_RESERVED_LEN = true :=
    fun h => hres ((strncmp_reserved key).mp h)
  have hs : ¬ (key = "__md5__".toList ∨ key = "__etag__".toList
      ∨ key = "__content_type__".toList) := by
    rintro (h | h | h)
    · exact h1 h
    · exact h2 h
    · exact h3 h
  unfold Early.set_metadata
  simp only
  rw [if_neg hn, if_neg hs]

theorem early_get_metadata_unreserved (o : Early.Object) (key : Str)
    (h1 : key ≠ "__md5__".toList) (h2 : key ≠ "__etag__".toList)
    (h3 : key ≠ "__content_type__".toList) :
    Early.get_metadata o key =
      match mapFind key o.metadata with
      | none => (-ENODATA, none)
      | some v => (0, some v) := by
  unfold Early.get_metadata
  rw [if_neg h1, if_neg h2, if_neg h3]

theorem early_get_metadata_insert_ne (o : Early.Object) (key k2 value : Str) (hne : k2 ≠ key) :
    Early.get_metadata { o with metadata := mapInsert key value o.metadata } k2
      = Early.get_metadata o k2 := by
  unfold Early.get_metadata
  simp only
  rw [mapFind_mapInsert_ne key k2 value o.metadata (Ne.symm hne)]

theorem trunk_substr_user (u : Str) :
    substr_from (Trunk.XATTR_PREFIX ++ u) Trunk.XATTR_PREFIX_LEN = some u ∧
    substr (Trunk.XATTR_PREFIX ++ u) 0 Trunk.XATTR_PREFIX_LEN = some Trunk.XATTR_PREFIX := by
  constructor
  · simp [substr_from, Trunk.XATTR_PREFIX_LEN]
  · simp [substr, Trunk.XATTR_PREFIX_LEN]

/-- The later `set_metadata` on a key `user.<u>`: only the flags and the presence of `u`
decide. -/
theorem trunk_set_metadata_user (t : Trunk.Object) (u value : Str) (flags : Nat) :
    Trunk.set_metadata t (Trunk.XATTR_PREFIX ++ u) value flags =
      if flags &&& XATTR_CREATE ≠ 0 ∧ (mapFind u t.metadata).isSome then
        some { ret := -EEXIST, needs_commit := false, obj := t }
      else
        match mapFind u t.metadata with
        | none =>
          if flags &&& XATTR_REPLACE ≠ 0 then
            some { ret := -ENOATTR, needs_commit := false, obj := t }
          else
            some (Trunk.set_metadata_entry
              { t with
                metadata :=
                  mapInsert u (Trunk.static_xattr_create u Trunk.USER_XATTR_FLAGS) t.metadata }
              u (Trunk.static_xattr_create u Trunk.USER_XATTR_FLAGS) value)
        | some x => some (Trunk.set_metadata_entry t u x value) := by
  unfold Trunk.set_metadata
  rw [(trunk_substr_user u).1, (trunk_substr_user u).2]
  simp only [ne_eq, not_true_eq_false, if_false]

/-- C10: for a key that is not reserved, the early `set_metadata` returns `-EEXIST` when
`XATTR_CREATE` is set and the key is present, and `-ENODATA` when `XATTR_REPLACE` is set and
the key is absent, leaving the object unchanged; in every other case it returns 0, a
following `get_metadata` of the key returns the value set, and `get_metadata` of every other
key returns what it returned before. The later binding gives the same two errors
(`-EEXIST`, `-ENOATTR`) for a key `user.<u>`, also leaving the object unchanged. -/
theorem C10_xattr_flags (o : Early.Object) (key value : Str) (flags : Nat)
    (hres : ¬ Reserved key) (h1 : key ≠ "__md5__".toList) (h2 : key ≠ "__etag__".toList)
    (h3 : key ≠ "__content_type__".toList) :
    (flags &&& XATTR_CREATE ≠ 0 → (mapFind key o.metadata).isSome →
      Early.set_metadata o key value flags = (-EEXIST, o)) ∧
    (flags &&& XATTR_REPLACE ≠ 0 → mapFind key o.metadata = none →
      Early.set_metadata o key value flags = (-ENODATA, o)) ∧
    (¬ (flags &&& XATTR_CREATE ≠ 0 ∧ (mapFind key o.metadata).isSome) →
      ¬ (flags &&& XATTR_REPLACE ≠ 0 ∧ mapFind key o.metadata = none) →
      (Early.set_metadata o key value flags).1 = 0 ∧
      Early.get_metadata (Early.set_metadata o key value flags).2 key = (0, some value) ∧
      ∀ k2, k2 ≠ key →
        Early.get_metadata (Early.set_metadata o key value flags).2 k2
          = Early.get_metadata o k2) ∧
    (∀ (t : Trunk.Object) (u : Str),
      (flags &&& XATTR_CREATE ≠ 0 → (mapFind u t.metadata).isSome →
        Trunk.set_metadata t (Trunk.XATTR_PREFIX ++ u) value flags
          = some { ret := -EEXIST, needs_commit := false, obj := t }) ∧
      (flags &&& XATTR_REPLACE ≠ 0 → mapFind u t.metadata = none →
        Trunk.set_metadata t (Trunk.XATTR_PREFIX ++ u) value flags
          = some { ret := -ENOATTR, needs_commit := false, obj := t })) := by
  have hset := early_set_metadata_unreserved o key value flags hres h1 h2 h3
  refine ⟨?_, ?_, ?_, ?_⟩
  · intro hc hp
    rw [hset, if_pos ⟨hc, hp⟩]
  · intro hr ha
    have hnp : ¬ (flags &&& XATTR_CREATE ≠ 0 ∧ (mapFind key o.metadata).isSome = true) := by
      rw [ha]; simp
    have hnone : (mapFind key o.metadata).isNone = true := by rw [ha]; rfl
    rw [hset, if_neg hnp, if_pos ⟨hr, hnone⟩]
  · intro hn1 hn2
    have hn2' : ¬ (flags &&& XATTR_REPLACE ≠ 0 ∧ (mapFind key o.metadata).isNone = true) := by
      intro h
      exact hn2 ⟨h.1, Option.isNone_iff_eq_none.mp h.2⟩
    rw [hset, if_neg hn1, if_neg hn2']
    refine ⟨rfl, ?_, ?_⟩
    · rw [early_get_metadata_unreserved _ key h1 h2 h3]
      simp only
      rw [mapFind_mapInsert_self]
    · intro k2 hk2
      exact early_get_metadata_insert_ne o key k2 value hk2
  · intro t u
    have ht := trunk_set_metadata_user t u value flags
    constructor
    · intro hc hp
      rw [ht, if_pos ⟨hc, hp⟩]
    · intro hr ha
      have hnp : ¬ (flags &&& XATTR_CREATE ≠ 0 ∧ (mapFind u t.metadata).isSome = true) := by
        rw [ha]; simp
      rw [ht, if_neg hnp, ha]
      simp only
      rw [if_pos hr]

/-- C10 (witness): `color` is not reserved; with `XATTR_CREATE` on an object that has it the
answer is `-EEXIST`, with `XATTR_REPLACE` on an object that lacks it `-ENODATA`, and with no
flag the value is stored and read back. -/
theorem C10_xattr_flags_witness :
    Early.set_metadata (Early.set_metadata Early.sample_object "color".toList "red".toList 0).2
      "color".toList "blue".toList XATTR_CREATE
      = (-EEXIST, (Early.set_metadata Early.sample_object "color".toList "red".toList 0).2) ∧
    Early.set_metadata Early.sample_object "color".toList "blue".toList XATTR_REPLACE
      = (-ENODATA, Early.sample_object) ∧
    Early.get_metadata (Early.set_metadata Early.sample_object "color".toList "blue".toList 0).2
      "color".toList = (0, some "blue".toList) :=
  ⟨(C10_xattr_flags (Early.set_metadata Early.sample_object "color".toList "red".toList 0).2
      "color".toList "blue".toList XATTR_CREATE (by decide) (by decide) (by decide)
      (by decide)).1 (by decide) (by decide),
   (C10_xattr_flags Early.sample_object "color".toList "blue".toList XATTR_REPLACE
      (by decide) (by decide) (by decide) (by decide)).2.1 (by decide) (by decide),
   ((C10_xattr_flags Early.sample_object "color".toList "blue".toList 0
      (by decide) (by decide) (by decide) (by decide)).2.2.1 (by decide) (by decide)).2.1⟩

/-! ## The later binding: names with the reserved prefix -/

/-- C9 (counterexample): on an object with an empty metadata map the later `set_metadata`
accepts `user.s3fuse-mode`: it does not return `-EINVAL` and the map then holds an entry
`s3fuse-mode` with the value given. -/
theorem C9_trunk_accepts_user_s3fuse_mode :
    Trunk.sample_object.metadata = [] ∧
    (Trunk.set_metadata Trunk.sample_object "user.s3fuse-mode".toList "0777".toList 0).map
      (fun r => (decide (r.ret = -EINVAL), r.needs_commit, mapFind "s3fuse-mode".toList r.obj.metadata))
      = some (false, true,
          some { key := "s3fuse-mode".toList, value := "0777".toList,
                 mode := Trunk.USER_XATTR_FLAGS }) := by
  decide

/-- C9 (amended): the later `set_metadata` treats a name `user.<u>` alike whether or not
`u` begins with `s3fuse-`: when `u` is absent and `XATTR_REPLACE` is not set it creates the
entry `u` with the user flags, stores the value, asks for a commit and returns 0; when `u`
is present with a writable entry and `XATTR_CREATE` is not set it stores the value in that
entry and returns 0. -/
theorem C9_trunk_set_metadata_any_user_name (t : Trunk.Object) (u value : Str) (flags : Nat) :
    (mapFind u t.metadata = none → flags &&& XATTR_REPLACE = 0 →
      Trunk.set_metadata t (Trunk.XATTR_PREFIX ++ u) value flags
        = some { ret := 0, needs_commit := true,
                 obj :=
                  { t with
                    metadata :=
                      mapInsert u { key := u, value := value, mode := Trunk.USER_XATTR_FLAGS }
                        (mapInsert u (Trunk.static_xattr_create u Trunk.USER_XATTR_FLAGS)
                          t.metadata) } } ∧
      mapFind u
        (mapInsert u ({ key := u, value := value, mode := Trunk.USER_XATTR_FLAGS } : Trunk.Xattr)
          (mapInsert u (Trunk.static_xattr_create u Trunk.USER_XATTR_FLAGS) t.metadata))
        = some { key := u, value := value, mode := Trunk.USER_XATTR_FLAGS }) ∧
    (∀ x, mapFind u t.metadata = some x → x.is_writable = true → flags &&& XATTR_CREATE = 0 →
      Trunk.set_metadata t (Trunk.XATTR_PREFIX ++ u) value flags
        = some { ret := 0, needs_commit := x.is_commit_required,
                 obj := { t with metadata := mapInsert u { x with value := value } t.metadata } })
    := by
  have ht := trunk_set_metadata_user t u value flags
  constructor
  · intro habs hrep
    have hnp : ¬ (flags &&& XATTR_CREATE ≠ 0 ∧ (mapFind u t.metadata).isSome = true) := by
      rw [habs]; simp
    have hw : (Trunk.static_xattr_create u Trunk.USER_XATTR_FLAGS).is_writable = true := by
      show decide (Trunk.USER_XATTR_FLAGS &&& Trunk.XM_WRITABLE ≠ 0) = true
      decide
    have hcr : (Trunk.static_xattr_create u Trunk.USER_XATTR_FLAGS).is_commit_required = true := by
      show decide (Trunk.USER_XATTR_FLAGS &&& Trunk.XM_COMMIT_REQUIRED ≠ 0) = true
      decide
    refine ⟨?_, mapFind_mapInsert_self _ _ _⟩
    rw [ht, if_neg hnp, habs]
    simp only
    rw [if_neg (by rw [hrep]; simp)]
    unfold Trunk.set_metadata_entry
    rw [if_neg (by rw [hw]; simp), hcr]
    rfl
  · intro x hx hw hcre
    have hnp : ¬ (flags &&& XATTR_CREATE ≠ 0 ∧ (mapFind u t.metadata).isSome = true) := by
      rw [hcre]; simp
    rw [ht, if_neg hnp, hx]
    simp only
    unfold Trunk.set_metadata_entry
    rw [if_neg (by rw [hw]; simp)]
    rfl

/-- C9 (witness): `user.s3fuse-mode` on an object with an empty metadata map. -/
theorem C9_trunk_set_metadata_any_user_name_witness :
    Trunk.set_metadata Trunk.sample_object (Trunk.XATTR_PREFIX ++ "s3fuse-mode".toList)
      "0777".toList 0
      = some { ret := 0, needs_commit := true,
               obj :=
                { Trunk.sample_object with
                  metadata :=
                    mapInsert "s3fuse-mode".toList
                      { key := "s3fuse-mode".toList, value := "0777".toList,
                        mode := Trunk.USER_XATTR_FLAGS }
                      (mapInsert "s3fuse-mode".toList
                        (Trunk.static_xattr_create "s3fuse-mode".toList Trunk.USER_XATTR_FLAGS)
                        Trunk.sample_object.metadata) } } :=
  ((C9_trunk_set_metadata_any_user_name Trunk.sample_object "s3fuse-mode".toList
      "0777".toList 0).1 (by decide) (by decide)).1

/-! ## Request headers -/

theorem find_set_header_self (req : Request) (k v : Str) :
    mapFind k (req.set_header k v).headers = some v :=
  mapFind_mapInsert_self k v req.headers

theorem find_set_header_ne (req : Request) (k v k2 : Str) (hne : k ≠ k2) :
    mapFind k2 (req.set_header k v).headers = mapFind k2 req.headers :=
  mapFind_mapInsert_ne k k2 v req.headers hne

/-- The headers written for the metadata entries all carry the meta prefix, so a header whose
name does not start with it is not touched. -/
theorem find_metadata_headers (pre k2 : Str) (hk : ∀ x, pre ++ x ≠ k2)
    (m : List (Str × Trunk.Xattr)) (req : Request) :
    mapFind k2 (m.foldl
      (fun r e => if e.2.is_serializable then
        r.set_header (pre ++ e.2.to_header.1) e.2.to_header.2 else r) req).headers
      = mapFind k2 req.headers := by
  induction m generalizing req with
  | nil => rfl
  | cons e rest ih =>
    rw [List.foldl_cons, ih]
    by_cases hser : e.2.is_serializable = true
    · rw [if_pos hser]; exact find_set_header_ne req _ _ k2 (hk _)
    · rw [if_neg hser]

theorem meta_header_ne_if_match (svc : Service) (x : Str) :
    svc.get_header_meta_prefix ++ x ≠ svc.get_header_prefix ++ "copy-source-if-match".toList := by
  cases svc <;> simp [Service.get_header_meta_prefix, Service.get_header_prefix]

/-- The etag of the object is what `set_request_headers` writes as the last-update-etag
header. -/
theorem set_request_headers_last_update_etag (svc : Service) (o : Trunk.Object) (req : Request) :
    mapFind (svc.get_header_meta_prefix ++ Trunk.metadata_LAST_UPDATE_ETAG)
      (Trunk.set_request_headers svc o req).headers = some o.etag := by
  unfold Trunk.set_request_headers
  simp only
  rw [find_set_header_ne _ _ _ _ (by cases svc <;> decide), find_set_header_self]

/-- The copy-source-if-match header is left as it was by `set_request_headers`. -/
theorem set_request_headers_if_match (svc : Service) (o : Trunk.Object) (req : Request) :
    mapFind (svc.get_header_prefix ++ "copy-source-if-match".toList)
      (Trunk.set_request_headers svc o req).headers
      = mapFind (svc.get_header_prefix ++ "copy-source-if-match".toList) req.headers := by
  unfold Trunk.set_request_headers
  simp only
  rw [find_set_header_ne _ _ _ _ (by cases svc <;> decide),
    find_set_header_ne _ _ _ _ (by cases svc <;> decide),
    find_set_header_ne _ _ _ _ (by cases svc <;> decide),
    find_set_header_ne _ _ _ _ (by cases svc <;> decide),
    find_set_header_ne _ _ _ _ (by cases svc <;> decide),
    find_set_header_ne _ _ _ _ (by cases svc <;> decide),
    find_metadata_headers _ _ (meta_header_ne_if_match svc)]

theorem commit_request_last_update_etag (svc : Service) (o : Trunk.Object) :
    mapFind (svc.get_header_meta_prefix ++ Trunk.metadata_LAST_UPDATE_ETAG)
      (Trunk.commit_request svc o).headers = some o.etag := by
  unfold Trunk.commit_request
  exact set_request_headers_last_update_etag svc o _

theorem commit_request_if_match (svc : Service) (o : Trunk.Object) (he : o.etag ≠ []) :
    mapFind (svc.get_header_prefix ++ "copy-source-if-match".toList)
      (Trunk.commit_request svc o).headers = some o.etag := by
  unfold Trunk.commit_request
  simp only
  rw [set_request_headers_if_match, if_pos he,
    find_set_header_ne _ _ _ _ (by cases svc <;> decide), find_set_header_self]

/-- Setting a header changes neither the method nor the URL. -/
theorem set_header_method_url (req : Request) (key value : Str) :
    (req.set_header key value).method = req.method ∧
    (req.set_header key value).url = req.url := ⟨rfl, rfl⟩

/-- The metadata headers change neither the method nor the URL. -/
theorem set_request_headers_method_url (svc : Service) (o : Trunk.Object) (req : Request) :
    (Trunk.set_request_headers svc o req).method = req.method ∧
    (Trunk.set_request_headers svc o req).url = req.url := by
  have hfold : ∀ (m : List (Str × Trunk.Xattr)) (r : Request),
      (m.foldl (fun r e => if e.2.is_serializable then
        r.set_header ( svc.get_header_meta_prefix ++ e.2.to_header.1) e.2.to_header.2
        else r) r).method = r.method ∧
      (m.foldl (fun r e => if e.2.is_serializable then
        r.set_header ( svc.get_header_meta_prefix ++ e.2.to_header.1) e.2.to_header.2
        else r) r).url = r.url := by
    intro m
    induction m with
    | nil => intro r; exact ⟨rfl, rfl⟩
    | cons e rest ih =>
      intro r
      rw [List.foldl_cons]
      by_cases h : e.2.is_serializable = true
      · rw [if_pos h]
        exact ih _
      · rw [if_neg h]
        exact ih _
  unfold Trunk.set_request_headers
  exact hfold o.metadata req

/-- Every pass of `commit` builds a PUT of the URL of the object (object.cc lines 371-372). -/
theorem commit_request_method_url (svc : Service) (o : Trunk.Object) :
    (Trunk.commit_request svc o).method = "PUT".toList ∧
    (Trunk.commit_request svc o).url = o.url := by
  unfold Trunk.commit_request
  simp only
  have h := set_request_headers_method_url svc o
    (if o.etag ≠ [] then
      (((Request.init "PUT".toList).set_url o.url).set_header
        (svc.get_header_prefix ++ "copy-source".toList) o.url).set_header
        (svc.get_header_prefix ++ "copy-source-if-match".toList) o.etag |>.set_header
        (svc.get_header_prefix ++ "metadata-directive".toList) "REPLACE".toList
     else (Request.init "PUT".toList).set_url o.url)
  rw [h.1, h.2]
  split_ifs <;> exact ⟨rfl, rfl⟩

/-! ## `object::commit` -/

/-- The last pass of the loop runs one request and fails with `-EIO` on a response other
than 200. -/
theorem commit_loop_last {Doc : Type} (svc : Service) (srv : Server) (xml : Trunk.Xml Doc)
    (i : Nat) (o : Trunk.Object) (sent : List Request) :
    (Trunk.commit_loop svc srv xml i 1 o sent).2.2 = sent ++ [Trunk.commit_request svc o] ∧
    ((srv i (Trunk.commit_request svc o)).code ≠ 200 →
      (Trunk.commit_loop svc srv xml i 1 o sent).1 = - EIO) := by
  rw [Trunk.commit_loop]
  by_cases hc : (srv i (Trunk.commit_request svc o)).code ≠ 200
  · rw [if_pos hc]; exact ⟨rfl, fun _ => rfl⟩
  · rw [if_neg hc]
    refine ⟨?_, fun h => absurd h hc⟩
    split
    · rfl
    · split
      · rfl
      · split
        · rfl
        · split
          · rfl
          · split
            · rfl
            · split
              · rfl
              · rw [Trunk.commit_loop]

/-- The first pass of `commit`: either the etag changed and the loop goes into its second
pass with the new etag stored, or `commit` returns after one request with the object as it
was. -/
theorem commit_first_pass {Doc : Type} (svc : Service) (srv : Server) (xml : Trunk.Xml Doc)
    (o : Trunk.Object) :
    (∃ e, Trunk.FirstPutChangedEtag svc srv xml o e ∧
      Trunk.commit svc srv xml o
        = Trunk.commit_loop svc srv xml 1 1 { o with etag := e } [Trunk.commit_request svc o]) ∨
    ((¬ ∃ e, Trunk.FirstPutChangedEtag svc srv xml o e) ∧
      ∃ r, Trunk.commit svc srv xml o = (r, o, [Trunk.commit_request svc o]) ∧
        ((srv 0 (Trunk.commit_request svc o)).code ≠ 200 → r = - EIO)) := by
  unfold Trunk.commit
  rw [Trunk.commit_loop]
  simp only [List.nil_append]
  by_cases hc : (srv 0 (Trunk.commit_request svc o)).code ≠ 200
  · right
    rw [if_pos hc]
    exact ⟨fun ⟨e, he⟩ => hc he.1, - EIO, rfl, fun _ => rfl⟩
  · rw [if_neg hc]
    have hc' : (srv 0 (Trunk.commit_request svc o)).code = 200 := not_not.mp hc
    by_cases ho : (srv 0 (Trunk.commit_request svc o)).output = []
    · right
      rw [if_pos ho]
      exact ⟨fun ⟨e, he⟩ => he.2.1 ho, 0, rfl, fun h => absurd h hc⟩
    · rw [if_neg ho]
      by_cases hetag : o.etag = []
      · right
        rw [if_pos hetag]
        exact ⟨fun ⟨e, he⟩ => he.2.2.1 hetag, 0, rfl, fun h => absurd h hc⟩
      · rw [if_neg hetag]
        cases hparse : xml.parse (srv 0 (Trunk.commit_request svc o)).output with
        | none =>
          right
          refine ⟨?_, - EIO, rfl, fun h => absurd h hc⟩
          rintro ⟨e, he⟩
          have := he.2.2.2.1
          simp [Trunk.body_etag, hparse] at this
        | some doc =>
          simp only
          by_cases hf : (xml.find doc).1 ≠ 0
          · right
            rw [if_pos hf]
            refine ⟨?_, (xml.find doc).1, rfl, fun h => absurd h hc⟩
            rintro ⟨e, he⟩
            have := he.2.2.2.1
            simp [Trunk.body_etag, hparse, hf] at this
          · rw [if_neg hf]
            have hf' : (xml.find doc).1 = 0 := not_not.mp hf
            have hbody : Trunk.body_etag xml (srv 0 (Trunk.commit_request svc o)).output
                = some (xml.find doc).2 := by
              simp [Trunk.body_etag, hparse, hf']
            by_cases hne : (xml.find doc).2 = []
            · right
              rw [if_pos hne]
              refine ⟨?_, - EIO, rfl, fun h => absurd h hc⟩
              rintro ⟨e, he⟩
              have h4 := he.2.2.2.1
              rw [hbody] at h4
              exact he.2.2.2.2.1 ((Option.some.inj h4) ▸ hne)
            · rw [if_neg hne]
              by_cases hsame : (xml.find doc).2 = o.etag
              · right
                rw [if_pos hsame]
                refine ⟨?_, 0, rfl, fun h => absurd h hc⟩
                rintro ⟨e, he⟩
                have h4 := he.2.2.2.1
                rw [hbody] at h4
                exact he.2.2.2.2.2 ((Option.some.inj h4) ▸ hsame)
              · left
                rw [if_neg hsame]
                exact ⟨(xml.find doc).2, ⟨hc', ho, hetag, hbody, hne, hsame⟩, rfl⟩

/-- C6: `object::commit` runs a second PUT exactly when the first PUT returned 200 with a
non-empty body whose ETag is non-empty and differs from the non-empty etag the object held;
the loop then goes into its second pass with the new etag stored in the object, and the
second PUT carries it as copy-source-if-match and as the last-update-etag header. The first
request is always run, never more than two are, a response other than 200 to any request
that was run makes `commit` return `-EIO`, and every request run has the method PUT and the
URL of the object. -/
theorem C6_commit_recommits_once {Doc : Type} (svc : Service) (srv : Server)
    (xml : Trunk.Xml Doc) (o : Trunk.Object) :
    ((Trunk.commit svc srv xml o).2.2.length = 2 ↔
      ∃ e, Trunk.FirstPutChangedEtag svc srv xml o e) ∧
    (∀ e, Trunk.FirstPutChangedEtag svc srv xml o e →
      Trunk.commit svc srv xml o
        = Trunk.commit_loop svc srv xml 1 1 { o with etag := e }
            [Trunk.commit_request svc o] ∧
      (Trunk.commit svc srv xml o).2.2
        = [Trunk.commit_request svc o, Trunk.commit_request svc { o with etag := e }] ∧
      mapFind (svc.get_header_prefix ++ "copy-source-if-match".toList)
        (Trunk.commit_request svc { o with etag := e }).headers = some e ∧
      mapFind (svc.get_header_meta_prefix ++ Trunk.metadata_LAST_UPDATE_ETAG)
        (Trunk.commit_request svc { o with etag := e }).headers = some e) ∧
    (Trunk.commit svc srv xml o).2.2.head? = some (Trunk.commit_request svc o) ∧
    (Trunk.commit svc srv xml o).2.2.length ≤ 2 ∧
    (∀ i req, (Trunk.commit svc srv xml o).2.2[i]? = some req → (srv i req).code ≠ 200 →
      (Trunk.commit svc srv xml o).1 = - EIO) ∧
    (∀ req ∈ (Trunk.commit svc srv xml o).2.2,
      req.method = "PUT".toList ∧ req.url = o.url) := by
  rcases commit_first_pass svc srv xml o with ⟨e, hE, hcommit⟩ | ⟨hno, r, hcommit, hr⟩
  · have hl := commit_loop_last svc srv xml 1 { o with etag := e } [Trunk.commit_request svc o]
    have hreqs : (Trunk.commit svc srv xml o).2.2
        = [Trunk.commit_request svc o, Trunk.commit_request svc { o with etag := e }] := by
      rw [hcommit, hl.1]; rfl
    refine ⟨⟨fun _ => ⟨e, hE⟩, fun _ => by rw [hreqs]; rfl⟩, ?_, by rw [hreqs]; rfl,
      by rw [hreqs]; exact Nat.le_refl 2, ?_, ?_⟩
    · intro e2 hE2
      have he : e2 = e := by
        have h1 := hE.2.2.2.1
        have h2 := hE2.2.2.2.1
        rw [h1] at h2
        exact (Option.some.inj h2).symm
      subst he
      exact ⟨hcommit, hreqs, commit_request_if_match svc { o with etag := e2 } hE.2.2.2.2.1,
        commit_request_last_update_etag svc { o with etag := e2 }⟩
    · intro i req hi hcode
      rw [hreqs] at hi
      match i, hi with
      | 0, hi =>
        simp only [List.getElem?_cons_zero, Option.some.injEq] at hi
        rw [← hi] at hcode
        exact absurd hE.1 hcode
      | 1, hi =>
        simp only [List.getElem?_cons_succ, List.getElem?_cons_zero, Option.some.injEq] at hi
        rw [← hi] at hcode
        rw [hcommit]
        exact hl.2 hcode
      | n + 2, hi => simp at hi
    · intro req hreq
      rw [hreqs] at hreq
      simp only [List.mem_cons, List.mem_singleton, List.not_mem_nil, or_false] at hreq
      rcases hreq with rfl | rfl
      · exact commit_request_method_url svc o
      · exact commit_request_method_url svc { o with etag := e }
  · have hreqs : (Trunk.commit svc srv xml o).2.2 = [Trunk.commit_request svc o] := by
      rw [hcommit]
    refine ⟨⟨fun h => ?_, fun h => absurd h hno⟩, fun e hE => absurd ⟨e, hE⟩ hno,
      by rw [hreqs]; rfl, by rw [hreqs]; exact Nat.le_succ 1, ?_, ?_⟩
    · rw [hreqs] at h; simp at h
    · intro i req hi hcode
      rw [hreqs] at hi
      match i, hi with
      | 0, hi =>
        simp only [List.getElem?_cons_zero, Option.some.injEq] at hi
        rw [← hi] at hcode
        rw [hcommit]
        exact hr hcode
      | n + 1, hi => simp at hi
    · intro req hreq
      rw [hreqs] at hreq
      simp only [List.mem_singleton] at hreq
      subst hreq
      exact commit_request_method_url svc o

/-- C6 (witness): the object holds etag `"e0"` and the first PUT reports `"e1"`: two PUTs
of `/bucket/a` are run and the second carries `"e1"` as copy-source-if-match and as
last-update-etag. -/
theorem C6_commit_recommits_once_witness :
    Trunk.FirstPutChangedEtag .aws Trunk.sample_server Trunk.sample_xml Trunk.sample_object
      "\"e1\"".toList ∧
    (Trunk.commit .aws Trunk.sample_server Trunk.sample_xml Trunk.sample_object).2.2
      = [Trunk.commit_request .aws Trunk.sample_object,
         Trunk.commit_request .aws { Trunk.sample_object with etag := "\"e1\"".toList }] ∧
    mapFind (Service.aws.get_header_prefix ++ "copy-source-if-match".toList)
      (Trunk.commit_request .aws { Trunk.sample_object with etag := "\"e1\"".toList }).headers
      = some "\"e1\"".toList ∧
    mapFind (Service.aws.get_header_meta_prefix ++ Trunk.metadata_LAST_UPDATE_ETAG)
      (Trunk.commit_request .aws { Trunk.sample_object with etag := "\"e1\"".toList }).headers
      = some "\"e1\"".toList ∧
    (∀ req ∈ (Trunk.commit .aws Trunk.sample_server Trunk.sample_xml Trunk.sample_object).2.2,
      req.method = "PUT".toList ∧ req.url = Trunk.sample_object.url) ∧
    (Trunk.commit .aws Trunk.sample_server Trunk.sample_xml Trunk.sample_object).2.2.map
      (fun req => (req.method, req.url))
      = [("PUT".toList, "/bucket/a".toList), ("PUT".toList, "/bucket/a".toList)] :=
  have hE : Trunk.FirstPutChangedEtag .aws Trunk.sample_server Trunk.sample_xml
      Trunk.sample_object "\"e1\"".toList :=
    ⟨by decide, by decide, by decide, by decide, by decide, by decide⟩
  ⟨hE,
   ((C6_commit_recommits_once .aws Trunk.sample_server Trunk.sample_xml
      Trunk.sample_object).2.1 "\"e1\"".toList hE).2.1,
   ((C6_commit_recommits_once .aws Trunk.sample_server Trunk.sample_xml
      Trunk.sample_object).2.1 "\"e1\"".toList hE).2.2.1,
   ((C6_commit_recommits_once .aws Trunk.sample_server Trunk.sample_xml
      Trunk.sample_object).2.1 "\"e1\"".toList hE).2.2.2,
   (C6_commit_recommits_once .aws Trunk.sample_server Trunk.sample_xml
      Trunk.sample_object).2.2.2.2.2,
   by decide⟩

/-- C7 (counterexample): the store answers the first PUT with 412 and would answer 200 to
any further request; `object::commit` and `object::commit_metadata` both return `-EIO`
having run that one PUT only: nothing is refetched and no second attempt is made. -/
theorem C7_first_412_is_final :
    (Trunk.commit .aws sample_server_412 Trunk.sample_xml Trunk.sample_object).1 = - EIO ∧
    (Trunk.commit .aws sample_server_412 Trunk.sample_xml Trunk.sample_object).2.2.length = 1 ∧
    (Early.commit_metadata .aws sample_server_412 Early.sample_object).1 = - EIO ∧
    (Early.commit_metadata .aws sample_server_412 Early.sample_object).2.length = 1 := by
  decide

/-- C7 (amended): when the first PUT of a metadata commit gets a response other than 200
(a 412 included), `object::commit` returns `-EIO` at once with the object unchanged and that
PUT the only request run, and so does the early `object::commit_metadata`: no refetch and no
further attempt. -/
theorem C7_commit_fails_on_first_non_200 {Doc : Type} (svc : Service) (srv : Server)
    (xml : Trunk.Xml Doc) (o : Trunk.Object) (eo : Early.Object) :
    ((srv 0 (Trunk.commit_request svc o)).code ≠ 200 →
      Trunk.commit svc srv xml o = (- EIO, o, [Trunk.commit_request svc o])) ∧
    ((srv 0 (Early.commit_metadata_request svc eo)).code ≠ 200 →
      Early.commit_metadata svc srv eo = (- EIO, [Early.commit_metadata_request svc eo])) := by
  constructor
  · intro hc
    unfold Trunk.commit
    rw [Trunk.commit_loop, if_pos hc]
    rfl
  · intro hc
    unfold Early.commit_metadata
    simp only
    rw [if_pos hc]

/-- C7 (witness): a 412 to the first PUT. -/
theorem C7_commit_fails_on_first_non_200_witness :
    Trunk.commit .aws sample_server_412 Trunk.sample_xml Trunk.sample_object
      = (- EIO, Trunk.sample_object, [Trunk.commit_request .aws Trunk.sample_object]) ∧
    Early.commit_metadata .aws sample_server_412 Early.sample_object
      = (- EIO, [Early.commit_metadata_request .aws Early.sample_object]) :=
  ⟨(C7_commit_fails_on_first_non_200 .aws sample_server_412 Trunk.sample_xml
      Trunk.sample_object Early.sample_object).1 (by decide),
   (C7_commit_fails_on_first_non_200 .aws sample_server_412 Trunk.sample_xml
      Trunk.sample_object Early.sample_object).2 (by decide)⟩

/-! ## Percent-encoding -/

theorem isalnum_iff (c : Char) :
    isalnum c = true ↔
      ('a' ≤ c ∧ c ≤ 'z') ∨ ('A' ≤ c ∧ c ≤ 'Z') ∨ ('0' ≤ c ∧ c ≤ '9') := by
  simp only [isalnum, Bool.or_eq_true, Bool.and_eq_true, decide_eq_true_eq]
  tauto

theorem url_encode_cond_iff (c : Char) :
    (c = '/' ∨ c = '.' ∨ c = '-' ∨ c = '*' ∨ c = '_' ∨ isalnum c = true) ↔ url_safe c := by
  rw [isalnum_iff]
  unfold url_safe
  tauto

theorem hex_upper_table :
    ∀ n, n < 16 → HEX_UPPER.getD n '\x00' = hex_digit_upper n := by
  decide

theorem int_from_hex_upper : ∀ n, n < 16 → int_from_hex (hex_digit_upper n) = some n := by
  decide

theorem hex_digit_upper_ne_percent : ∀ n, n < 16 → hex_digit_upper n ≠ '%' := by
  decide

theorem url_safe_ne_percent (c : Char) (hc : url_safe c) : c ≠ '%' := by
  intro h
  subst h
  revert hc
  decide

/-- One round of the loop appends the encoding of the byte. -/
theorem url_encode_step_spec (ret : Str) (c : Char) (hc : c.toNat < 256) :
    url_encode_step ret c = ret ++ url_encode_byte_spec c := by
  unfold url_encode_step url_encode_byte_spec
  by_cases hs : url_safe c
  · rw [if_pos ((url_encode_cond_iff c).mpr hs), if_pos hs]
  · rw [if_neg (fun h => hs ((url_encode_cond_iff c).mp h)), if_neg hs]
    have h8 : toU8 c = c.toNat := Nat.mod_eq_of_lt hc
    have hhi : c.toNat / 16 < 16 := by omega
    have hlo : c.toNat % 16 < 16 := Nat.mod_lt _ (by decide)
    rw [h8, hex_upper_table _ hhi, hex_upper_table _ hlo]
    simp

theorem foldl_url_encode_step (s : Str) (ret : Str) (hs : IsBytes s) :
    s.foldl url_encode_step ret = ret ++ url_encode_spec s := by
  induction s generalizing ret with
  | nil => simp [url_encode_spec]
  | cons c rest ih =>
    have hc : c.toNat < 256 := hs c (List.mem_cons_self _ _)
    have hrest : IsBytes rest := fun d hd => hs d (List.mem_cons_of_mem _ hd)
    rw [List.foldl_cons, ih _ hrest, url_encode_step_spec ret c hc, url_encode_spec,
      List.append_assoc]

theorem url_encode_eq_spec (s : Str) (hs : IsBytes s) :
    url_encode s = url_encode_spec s := by
  unfold url_encode
  rw [foldl_url_encode_step s [] hs, List.nil_append]

/-- C14: for every byte string, `url_encode` gives the in-order concatenation of the
encodings of its bytes: the byte itself when it is an ASCII letter, an ASCII digit or one of
`/`, `.`, `-`, `*`, `_`, and otherwise `%` followed by the uppercase hexadecimal digits of
its high and low nibble. -/
theorem C14_url_encode_bytewise (s : Str) (hs : ∀ c ∈ s, c.toNat < 256) :
    url_encode s = url_encode_spec s :=
  url_encode_eq_spec s hs

/-- C14 (witness): a space becomes `%20`, a slash and letters stay. -/
theorem C14_url_encode_bytewise_witness :
    (∀ c ∈ "a b/c".toList, c.toNat < 256) ∧
    url_encode "a b/c".toList = url_encode_spec "a b/c".toList ∧
    url_encode_spec "a b/c".toList = "a%20b/c".toList :=
  ⟨by decide, C14_url_encode_bytewise "a b/c".toList (by decide), by decide⟩

theorem url_safe_is_byte (c : Char) (hc : url_safe c) : c.toNat < 256 := by
  have h1 : ∀ d : Char, c ≤ d → c.toNat ≤ d.toNat := fun d h => h
  unfold url_safe at hc
  rcases hc with h | h | h | h | h | h | h | h
  · have := h1 _ h.2; have e : 'z'.toNat = 122 := rfl; omega
  · have := h1 _ h.2; have e : 'Z'.toNat = 90 := rfl; omega
  · have := h1 _ h.2; have e : '9'.toNat = 57 := rfl; omega
  all_goals (subst h; decide)

theorem url_encode_spec_safe (s : Str) (hs : ∀ c ∈ s, url_safe c) : url_encode_spec s = s := by
  induction s with
  | nil => rfl
  | cons c rest ih =>
    have hc : url_safe c := hs c (List.mem_cons_self _ _)
    rw [url_encode_spec, ih (fun d hd => hs d (List.mem_cons_of_mem _ hd)),
      url_encode_byte_spec, if_pos hc]
    rfl

/-- Decoding undoes the encoding of one byte in front of any text. -/
theorem url_decode_byte (c : Char) (hc : c.toNat < 256) (rest : Str) :
    url_decode (url_encode_byte_spec c ++ rest) = (url_decode rest).map (fun r => c :: r) := by
  unfold url_encode_byte_spec
  by_cases hs : url_safe c
  · rw [if_pos hs]
    exact url_decode.eq_3 c rest (fun _ _ _ h _ => url_safe_ne_percent c hs h)
  · rw [if_neg hs]
    have hhi : c.toNat / 16 < 16 := by omega
    have hlo : c.toNat % 16 < 16 := Nat.mod_lt _ (by decide)
    have hval : c.toNat / 16 * 16 + c.toNat % 16 = c.toNat := by omega
    show url_decode ('%' :: hex_digit_upper (c.toNat / 16) :: hex_digit_upper (c.toNat % 16)
      :: rest) = _
    rw [url_decode.eq_2, int_from_hex_upper _ hhi, int_from_hex_upper _ hlo]
    cases url_decode rest with
    | none => rfl
    | some r =>
      simp only [Option.map_some']
      rw [hval, Char.ofNat_toNat]

theorem url_decode_encode_spec (s : Str) (hs : IsBytes s) :
    url_decode (url_encode_spec s) = some s := by
  induction s with
  | nil => rfl
  | cons c rest ih =>
    rw [url_encode_spec, url_decode_byte c (hs c (List.mem_cons_self _ _)),
      ih (fun d hd => hs d (List.mem_cons_of_mem _ hd))]
    rfl

theorem count_percent_byte (c : Char) (hc : c.toNat < 256) :
    (url_encode_byte_spec c).count '%' = if url_safe c then 0 else 1 := by
  unfold url_encode_byte_spec
  by_cases hs : url_safe c
  · rw [if_pos hs, if_pos hs]
    simp [List.count_cons, url_safe_ne_percent c hs]
  · rw [if_neg hs, if_neg hs]
    have hhi : c.toNat / 16 < 16 := by omega
    have hlo : c.toNat % 16 < 16 := Nat.mod_lt _ (by decide)
    simp [List.count_cons, hex_digit_upper_ne_percent _ hhi, hex_digit_upper_ne_percent _ hlo]

theorem count_percent_spec (s : Str) (hs : IsBytes s) :
    (url_encode_spec s).count '%' = (s.filter (fun c => decide (¬ url_safe c))).length := by
  induction s with
  | nil => rfl
  | cons c rest ih =>
    rw [url_encode_spec, List.count_append, count_percent_byte c (hs c (List.mem_cons_self _ _)),
      ih (fun d hd => hs d (List.mem_cons_of_mem _ hd))]
    by_cases hc : url_safe c
    · simp [List.filter_cons, hc]
    · simp [List.filter_cons, hc]; omega

/-- C15: `url_encode` is the identity on strings made only of bytes of the subset
`[A-Za-z0-9/.\-*_]`, so encoding such a string twice equals encoding it once; for every byte
string, replacing each `%XX` triplet of the encoding by the byte of hexadecimal value `XX`
and copying every other character gives the string back, the encoding holding exactly one
`%` for each byte outside the subset; and `url_encode` is injective on byte strings. -/
theorem C15_url_encode_round_trip (s t : Str) :
    ((∀ c ∈ s, url_safe c) → url_encode s = s ∧ url_encode (url_encode s) = url_encode s) ∧
    (IsBytes s →
      url_decode (url_encode s) = some s ∧
      (url_encode s).count '%' = (s.filter (fun c => decide (¬ url_safe c))).length) ∧
    (IsBytes s → IsBytes t → url_encode s = url_encode t → s = t) := by
  refine ⟨?_, ?_, ?_⟩
  · intro hs
    have hb : IsBytes s := fun c hc => url_safe_is_byte c (hs c hc)
    have h1 : url_encode s = s := by
      rw [url_encode_eq_spec s hb, url_encode_spec_safe s hs]
    exact ⟨h1, by rw [h1, h1]⟩
  · intro hb
    rw [url_encode_eq_spec s hb]
    exact ⟨url_decode_encode_spec s hb, count_percent_spec s hb⟩
  · intro hs ht h
    have h1 := url_decode_encode_spec s hs
    have h2 := url_decode_encode_spec t ht
    rw [← url_encode_eq_spec s hs, h, url_encode_eq_spec t ht, h2] at h1
    exact (Option.some.inj h1).symm

/-- C15 (witness): `a/b-c` is left as it is; `a b%` is a byte string whose encoding
`a%20b%25` decodes back to it. -/
theorem C15_url_encode_round_trip_witness :
    url_encode "a/b-c".toList = "a/b-c".toList ∧
    url_decode (url_encode "a b%".toList) = some "a b%".toList ∧
    url_encode "a b%".toList = "a%20b%25".toList :=
  ⟨((C15_url_encode_round_trip "a/b-c".toList "a b%".toList).1 (by decide)).1,
   ((C15_url_encode_round_trip "a b%".toList "a b%".toList).2.1
      (show ∀ c ∈ "a b%".toList, c.toNat < 256 by decide)).1,
   by decide⟩

/-! ## `set_mode` -/

theorem keep_type_bits (s m : Nat) :
    ((s &&& S_IFMT) ||| (m &&& bitNot32 S_IFMT)) &&& S_IFMT = s &&& S_IFMT := by
  have h : bitNot32 S_IFMT &&& S_IFMT = 0 := by decide
  rw [and_or_bit, Nat.and_assoc, Nat.and_self, Nat.and_assoc, h, Nat.and_zero, Nat.or_zero]

/-- C13 (counterexample): `set_mode(0)` on an object of mode 0100644 with the default mode
0755 configured gives 0100755 in both bindings, not `(0100644 & S_IFMT) | (0 & ~S_IFMT)`,
which is 0100000. -/
theorem C13_set_mode_zero_takes_default :
    (Early.set_mode sample_config Early.sample_object 0).stat.st_mode = 0o100755 ∧
    (Trunk.set_mode sample_config Trunk.sample_object 0).stat.st_mode = 0o100755 ∧
    (Early.sample_object.stat.st_mode &&& S_IFMT) ||| (0 &&& bitNot32 S_IFMT) = 0o100000 := by
  decide

/-- C13 (amended): for every current `st_mode` and every supplied mode `m`, in both
bindings: when `m & ~S_IFMT` is not zero, `set_mode(m)` leaves
`(st_mode & S_IFMT) | (m & ~S_IFMT)`, whose file-type bits are those of `st_mode`; when
`m & ~S_IFMT` is zero the configured default mode is used in its place and the result is
`(st_mode & S_IFMT) | default_mode`. -/
theorem C13_set_mode (cfg : Config) (eo : Early.Object) (t : Trunk.Object) (m : Nat) :
    (m &&& bitNot32 S_IFMT ≠ 0 →
      (Early.set_mode cfg eo m).stat.st_mode
        = (eo.stat.st_mode &&& S_IFMT) ||| (m &&& bitNot32 S_IFMT) ∧
      (Early.set_mode cfg eo m).stat.st_mode &&& S_IFMT = eo.stat.st_mode &&& S_IFMT ∧
      (Trunk.set_mode cfg t m).stat.st_mode
        = (t.stat.st_mode &&& S_IFMT) ||| (m &&& bitNot32 S_IFMT) ∧
      (Trunk.set_mode cfg t m).stat.st_mode &&& S_IFMT = t.stat.st_mode &&& S_IFMT) ∧
    (m &&& bitNot32 S_IFMT = 0 →
      (Early.set_mode cfg eo m).stat.st_mode = (eo.stat.st_mode &&& S_IFMT) ||| cfg.default_mode ∧
      (Trunk.set_mode cfg t m).stat.st_mode = (t.stat.st_mode &&& S_IFMT) ||| cfg.default_mode)
    := by
  constructor
  · intro hm
    have he : (Early.set_mode cfg eo m).stat.st_mode
        = (eo.stat.st_mode &&& S_IFMT) ||| (m &&& bitNot32 S_IFMT) := by
      simp only [Early.set_mode, if_neg hm]
    have ht : (Trunk.set_mode cfg t m).stat.st_mode
        = (t.stat.st_mode &&& S_IFMT) ||| (m &&& bitNot32 S_IFMT) := by
      simp only [Trunk.set_mode, if_neg hm]
    exact ⟨he, by rw [he, keep_type_bits], ht, by rw [ht, keep_type_bits]⟩
  · intro hm
    exact ⟨by simp only [Early.set_mode, if_pos hm], by simp only [Trunk.set_mode, if_pos hm]⟩

/-- C13 (witness): chmod 0640 on a regular file of mode 0100644 gives 0100640. -/
theorem C13_set_mode_witness :
    (Early.set_mode sample_config Early.sample_object 0o640).stat.st_mode
      = (Early.sample_object.stat.st_mode &&& S_IFMT) ||| (0o640 &&& bitNot32 S_IFMT) ∧
    (Early.sample_object.stat.st_mode &&& S_IFMT) ||| (0o640 &&& bitNot32 S_IFMT) = 0o100640 :=
  ⟨((C13_set_mode sample_config Early.sample_object Trunk.sample_object 0o640).1
      (by decide)).1, by decide⟩

/-! ## `st_blocks` -/

theorem blocks_of_size_in_range (s : Int) (h0 : 0 ≤ s) (h1 : s ≤ 2 ^ 63 - 512) :
    blocks_of_size s = (s + 511) / 512 := by
  have hw : wrap64 (wrap64 (s + BLOCK_SIZE) - 1) = s + 511 := by
    unfold wrap64 BLOCK_SIZE
    omega
  unfold blocks_of_size
  rw [hw]
  exact Int.tdiv_eq_ediv (by omega) (by decide)

theorem ceil_div_512 (s : Int) : (s + 511) / 512 = ⌈(s : ℚ) / 512⌉ := by
  symm
  rw [Int.ceil_eq_iff]
  constructor
  · rw [lt_div_iff₀ (by norm_num : (0 : ℚ) < 512)]
    have hb3 : 512 * ((s + 511) / 512) - 512 < s := by omega
    have hq : (512 : ℚ) * (((s + 511) / 512 : Int) : ℚ) - 512 < (s : ℚ) := by exact_mod_cast hb3
    linarith
  · rw [div_le_iff₀ (by norm_num : (0 : ℚ) < 512)]
    have hb4 : s ≤ 512 * ((s + 511) / 512) := by omega
    have hq : (s : ℚ) ≤ 512 * (((s + 511) / 512 : Int) : ℚ) := by exact_mod_cast hb4
    linarith

/-- C20 (counterexample): a `Content-Length` of 9223372036854775807 is read as the largest
`off_t`; adding `BLOCK_SIZE` wraps around and `st_blocks` comes out negative, while the
ceiling of the size over 512 is 18014398509481984. -/
theorem C20_blocks_wrap_at_top :
    (Trunk.init .aws sample_env Trunk.sample_object
      [("Content-Length".toList, "9223372036854775807".toList)] 0 none).stat.st_size
      = 9223372036854775807 ∧
    (Trunk.init .aws sample_env Trunk.sample_object
      [("Content-Length".toList, "9223372036854775807".toList)] 0 none).stat.st_blocks
      = -18014398509481983 ∧
    blocks_of_size 9223372036854775807 = -18014398509481983 ∧
    ((9223372036854775807 : Int) + 511) / 512 = 18014398509481984 := by
  decide

/-- C20 (amended): for every file size `s` with `0 ≤ s ≤ 2^63 - 512`, the `st_blocks`
computed from a response, `(s + 511) / 512` on `off_t`, equals the ceiling of `s / 512`: in
`object::init` of the later binding, and in `request_process_response` of the early binding
for an object inferred to be a file. -/
theorem C20_blocks_is_ceiling (s : Int) (h0 : 0 ≤ s) (h1 : s ≤ 2 ^ 63 - 512) :
    blocks_of_size s = ⌈(s : ℚ) / 512⌉ ∧
    (∀ (svc : Service) (env : Env) (o : Trunk.Object) (headers : List (Str × Str))
        (last_modified : Int) (glacier : Option (List Trunk.Xattr)),
      (Trunk.init svc env o headers last_modified glacier).stat.st_size = s →
      (Trunk.init svc env o headers last_modified glacier).stat.st_blocks = ⌈(s : ℚ) / 512⌉) ∧
    (∀ (env : Env) (o : Early.Object) (req : Fetched),
      req.url ≠ [] → req.response_code = 200 →
      Early.infer_type req.url o.content_type = .OT_FILE → o.stat.st_size = s →
      (Early.request_process_response env o req).stat.st_blocks = ⌈(s : ℚ) / 512⌉) := by
  have hb : blocks_of_size s = ⌈(s : ℚ) / 512⌉ := by
    rw [blocks_of_size_in_range s h0 h1, ceil_div_512]
  refine ⟨hb, ?_, ?_⟩
  · intro svc env o headers last_modified glacier hs
    have hsz : (Trunk.init svc env o headers last_modified glacier).stat.st_size
        = strtol (Trunk.get_response_header headers "Content-Length".toList) := rfl
    have hbl : (Trunk.init svc env o headers last_modified glacier).stat.st_blocks
        = blocks_of_size (strtol (Trunk.get_response_header headers "Content-Length".toList)) :=
      rfl
    rw [hbl, ← hsz, hs, hb]
  · intro env o req hurl hcode htype hs
    have hn : ¬ (req.url = [] ∨ req.response_code ≠ 200) := by
      rintro (h | h)
      · exact hurl h
      · exact h hcode
    unfold Early.request_process_response
    rw [if_neg hn]
    simp only [htype, if_true]
    rw [hs, hb]

/-- C20 (witness): 10 MiB gives 20480 blocks, 11 bytes give one block, 0 bytes none. -/
theorem C20_blocks_is_ceiling_witness :
    blocks_of_size 10485760 = ⌈((10485760 : Int) : ℚ) / 512⌉ ∧
    blocks_of_size 10485760 = 20480 ∧ blocks_of_size 11 = 1 ∧ blocks_of_size 0 = 0 :=
  ⟨(C20_blocks_is_ceiling 10485760 (by decide) (by decide)).1, by decide, by decide, by decide⟩

/-! ## The early binding: an object built from a response -/

theorem mask_type_bits (x : Nat) : (x &&& bitNot32 S_IFMT) &&& S_IFMT = 0 := by
  have h : bitNot32 S_IFMT &&& S_IFMT = 0 := by decide
  rw [Nat.and_assoc, h, Nat.and_zero]

theorem no_type_bits_request_process_header (svc : Service) (o : Early.Object)
    (key value : Str) (hm : o.stat.st_mode &&& S_IFMT = 0) :
    (Early.request_process_header svc o key value).stat.st_mode &&& S_IFMT = 0 := by
  unfold Early.request_process_header
  simp only
  iterate 3
    (refine ite_prop (fun x : Early.Object => x.stat.st_mode &&& S_IFMT = 0) _ _ _
      (fun _ => hm) (fun _ => ?_))
  refine ite_prop (fun x : Early.Object => x.stat.st_mode &&& S_IFMT = 0) _ _ _
    (fun _ => mask_type_bits _) (fun _ => ?_)
  iterate 7
    (refine ite_prop (fun x : Early.Object => x.stat.st_mode &&& S_IFMT = 0) _ _ _
      (fun _ => hm) (fun _ => ?_))
  exact hm

theorem no_type_bits_foldl (svc : Service) (headers : List (Str × Str)) (o : Early.Object)
    (hm : o.stat.st_mode &&& S_IFMT = 0) :
    (headers.foldl (fun ob h => Early.request_process_header svc ob h.1 h.2) o).stat.st_mode
      &&& S_IFMT = 0 := by
  induction headers generalizing o with
  | nil => exact hm
  | cons h rest ih =>
    exact ih _ (no_type_bits_request_process_header svc o h.1 h.2 hm)

theorem no_type_bits_read_headers (svc : Service) (cfg : Config) (o : Early.Object)
    (headers : List (Str × Str)) (hcfg : cfg.default_mode &&& S_IFMT = 0) :
    (Early.read_headers svc cfg o headers).stat.st_mode &&& S_IFMT = 0 :=
  no_type_bits_foldl svc headers (Early.request_init cfg o) hcfg

/-- On a 200 response with a URL, `request_process_response` goes past its early return. -/
theorem request_process_response_ok (env : Env) (o : Early.Object) (req : Fetched)
    (hurl : req.url ≠ []) (hcode : req.response_code = 200) :
    (Early.request_process_response env o req).type
        = Early.infer_type req.url o.content_type ∧
    (Early.request_process_response env o req).stat.st_mode
        = o.stat.st_mode ||| Early.get_mode_by_type (Early.infer_type req.url o.content_type) ∧
    (Early.request_process_response env o req).stat.st_mtime
        = (if o.mtime_etag ≠ o.etag ∧ req.last_modified > o.stat.st_mtime
            then req.last_modified else o.stat.st_mtime) ∧
    (Early.request_process_response env o req).md5
        = (if (o.md5_etag ≠ o.etag ∨ (if ¬ is_valid_md5 o.md5 then [] else o.md5) = [])
              ∧ is_valid_md5 o.etag
            then o.etag else (if ¬ is_valid_md5 o.md5 then [] else o.md5)) ∧
    (Early.request_process_response env o req).md5_etag = o.etag ∧
    (Early.request_process_response env o req).mtime_etag = o.etag := by
  have hn : ¬ (req.url = [] ∨ req.response_code ≠ 200) := by
    rintro (h | h)
    · exact hurl h
    · exact h hcode
  unfold Early.request_process_response
  rw [if_neg hn]
  exact ⟨rfl, rfl, rfl, rfl, rfl, rfl⟩

theorem type_bits_of_type (x : Nat) (hx : x &&& S_IFMT = 0) (ty : Early.object_type) :
    (x ||| Early.get_mode_by_type ty) &&& S_IFMT = Early.get_mode_by_type ty := by
  have h : Early.get_mode_by_type ty &&& S_IFMT = Early.get_mode_by_type ty := by
    cases ty <;> decide
  rw [and_or_bit, hx, h, Nat.zero_or]

/-- C16: for a 200 response with a non-empty request URL, the type of the object built from
it (`request_init`, the headers, `request_process_response`) is directory if the URL ends
in `/`, otherwise symlink if the Content-Type read is exactly `text/symlink`, otherwise
file; and, the configured default mode being a permission mode without file-type bits, the
file-type bits of `st_mode` afterwards are `S_IFDIR`, `S_IFLNK` or `S_IFREG` accordingly. -/
theorem C16_type_inference (svc : Service) (cfg : Config) (env : Env) (o : Early.Object)
    (headers : List (Str × Str)) (req : Fetched)
    (hurl : req.url ≠ []) (hcode : req.response_code = 200)
    (hcfg : cfg.default_mode &&& S_IFMT = 0) :
    (Early.build svc cfg env o headers req).type
      = (if req.url.getLast? = some '/' then Early.object_type.OT_DIRECTORY
         else if (Early.read_headers svc cfg o headers).content_type = "text/symlink".toList
           then Early.object_type.OT_SYMLINK
         else Early.object_type.OT_FILE) ∧
    (Early.build svc cfg env o headers req).stat.st_mode &&& S_IFMT
      = (if req.url.getLast? = some '/' then S_IFDIR
         else if (Early.read_headers svc cfg o headers).content_type = "text/symlink".toList
           then S_IFLNK
         else S_IFREG) := by
  have h := request_process_response_ok env (Early.read_headers svc cfg o headers) req hurl hcode
  have hm := no_type_bits_read_headers svc cfg o headers hcfg
  unfold Early.build
  refine ⟨h.1, ?_⟩
  rw [h.2.1, type_bits_of_type _ hm]
  unfold Early.infer_type
  by_cases h1 : req.url.getLast? = some '/'
  · rw [if_pos h1, if_pos h1]; rfl
  · rw [if_neg h1, if_neg h1]
    by_cases h2 : (Early.read_headers svc cfg o headers).content_type
        = Early.SYMLINK_CONTENT_TYPE
    · rw [if_pos h2, if_pos (show (Early.read_headers svc cfg o headers).content_type
        = "text/symlink".toList from h2)]
      rfl
    · rw [if_neg h2, if_neg (show ¬ (Early.read_headers svc cfg o headers).content_type
        = "text/symlink".toList from h2)]
      rfl

/-- C16 (witness): `/bucket/d/` with no headers is a directory, `/bucket/a` with
`Content-Type: text/symlink` a symlink. -/
theorem C16_type_inference_witness :
    (Early.build .aws sample_config sample_env Early.sample_object []
      { url := "/bucket/d/".toList, response_code := 200, last_modified := 0 }).stat.st_mode
      &&& S_IFMT = S_IFDIR ∧
    (Early.build .aws sample_config sample_env Early.sample_object
      [("Content-Type".toList, "text/symlink".toList)] sample_fetched).type
      = Early.object_type.OT_SYMLINK :=
  ⟨(C16_type_inference .aws sample_config sample_env Early.sample_object []
      { url := "/bucket/d/".toList, response_code := 200, last_modified := 0 }
      (by decide) (by decide) (by decide)).2,
   (C16_type_inference .aws sample_config sample_env Early.sample_object
      [("Content-Type".toList, "text/symlink".toList)] sample_fetched
      (by decide) (by decide) (by decide)).1⟩

/-- C19 (counterexample): a 200 response with a multipart ETag (`<32 hex>-3` in quotes, not
of valid MD5 shape) and a stored `s3fuse-md5` of valid shape: the object built from it keeps
the stored md5, which is not empty. -/
theorem C19_multipart_keeps_stored_md5 :
    is_valid_md5 "\"0123456789abcdef0123456789abcdef-3\"".toList = false ∧
    (Early.build .aws sample_config sample_env Early.sample_object
      [("ETag".toList, "\"0123456789abcdef0123456789abcdef-3\"".toList),
       ("x-amz-meta-s3fuse-md5".toList, "\"00112233445566778899aabbccddeeff\"".toList),
       ("x-amz-meta-s3fuse-md5-etag".toList, "\"0123456789abcdef0123456789abcdef-3\"".toList)]
      sample_fetched).md5 = "\"00112233445566778899aabbccddeeff\"".toList ∧
    (Early.build .aws sample_config sample_env Early.sample_object
      [("ETag".toList, "\"0123456789abcdef0123456789abcdef-3\"".toList),
       ("x-amz-meta-s3fuse-md5".toList, "\"00112233445566778899aabbccddeeff\"".toList),
       ("x-amz-meta-s3fuse-md5-etag".toList, "\"0123456789abcdef0123456789abcdef-3\"".toList)]
      sample_fetched).md5 ≠ [] := by
  decide

/-- C19 (amended): when an object is built from a 200 response whose ETag is not of valid
MD5 shape (a multipart etag), the ETag is not adopted: the object's md5 afterwards is the
stored `s3fuse-md5` when that has valid MD5 shape, and empty otherwise, whatever
`s3fuse-md5-etag` was stored. -/
theorem C19_multipart_md5 (env : Env) (o : Early.Object) (req : Fetched)
    (hurl : req.url ≠ []) (hcode : req.response_code = 200)
    (hetag : is_valid_md5 o.etag = false) :
    (Early.request_process_response env o req).md5
      = (if is_valid_md5 o.md5 = true then o.md5 else []) := by
  rw [(request_process_response_ok env o req hurl hcode).2.2.2.1]
  have hn : ¬ ((o.md5_etag ≠ o.etag ∨ (if ¬ is_valid_md5 o.md5 = true then [] else o.md5) = [])
      ∧ is_valid_md5 o.etag = true) := by
    intro hc
    rw [hetag] at hc
    exact Bool.false_ne_true hc.2
  rw [if_neg hn]
  by_cases hv : is_valid_md5 o.md5 = true
  · rw [if_pos hv, if_neg (not_not.mpr hv)]
  · rw [if_neg hv, if_pos hv]

/-- C19 (witness): a multipart ETag with no stored md5 leaves the md5 empty. -/
theorem C19_multipart_md5_witness :
    (Early.request_process_response sample_env
      { Early.sample_object with etag := "\"0123456789abcdef0123456789abcdef-3\"".toList }
      sample_fetched).md5
      = (if is_valid_md5 Early.sample_object.md5 = true then Early.sample_object.md5 else []) :=
  C19_multipart_md5 sample_env
    { Early.sample_object with etag := "\"0123456789abcdef0123456789abcdef-3\"".toList }
    sample_fetched (by decide) (by decide) (by decide)

/-! ## The mode header: `%#o` and `strtol` -/

theorem digitVal_digitChar : ∀ d, d < 8 → digitVal (Nat.digitChar d) = some d := by decide

theorem octal_char_facts : ∀ d, d < 8 →
    Nat.digitChar d ≠ 'x' ∧ Nat.digitChar d ≠ 'X' := by
  decide

/-- Reading back the octal digits that `Nat.toDigitsCore` writes in front of `ds`. -/
theorem strtolDigits_toDigitsCore (fuel : Nat) :
    ∀ n, n < fuel → ∃ k, ∀ (ds : List Char) (a : Nat),
      strtolDigits 8 (Nat.toDigitsCore 8 fuel n ds) a = strtolDigits 8 ds (a * 8 ^ k + n) := by
  induction fuel with
  | zero => intro n h; omega
  | succ f ih =>
    intro n hn
    have hlt : n % 8 < 8 := Nat.mod_lt _ (by decide)
    by_cases h0 : n / 8 = 0
    · refine ⟨1, fun ds a => ?_⟩
      have hn8 : n % 8 = n := by omega
      simp only [Nat.toDigitsCore, h0, if_true]
      rw [strtolDigits, digitVal_digitChar _ hlt]
      simp only
      rw [if_pos hlt, hn8, pow_one]
    · obtain ⟨k, hk⟩ := ih (n / 8) (by omega)
      refine ⟨k + 1, fun ds a => ?_⟩
      simp only [Nat.toDigitsCore, h0, if_false]
      rw [hk, strtolDigits, digitVal_digitChar _ hlt]
      simp only
      rw [if_pos hlt]
      congr 1
      rw [pow_succ]
      nlinarith [Nat.div_add_mod n 8]

theorem mem_toDigitsCore (fuel : Nat) :
    ∀ n (ds : List Char) c, c ∈ Nat.toDigitsCore 8 fuel n ds →
      c ∈ ds ∨ ∃ d, d < 8 ∧ c = Nat.digitChar d := by
  induction fuel with
  | zero => intro n ds c h; simp only [Nat.toDigitsCore] at h; exact Or.inl h
  | succ f ih =>
    intro n ds c h
    have hlt : n % 8 < 8 := Nat.mod_lt _ (by decide)
    simp only [Nat.toDigitsCore] at h
    split at h
    · rcases List.mem_cons.mp h with h | h
      · exact Or.inr ⟨_, hlt, h⟩
      · exact Or.inl h
    · rcases ih _ _ _ h with h | h
      · rcases List.mem_cons.mp h with h | h
        · exact Or.inr ⟨_, hlt, h⟩
        · exact Or.inl h
      · exact Or.inr h

theorem strtol_zero_shape3 (x y : Char) (r : List Char) :
    strtol ('0' :: x :: y :: r) =
      if (x = 'x' ∨ x = 'X') ∧ (digitVal y).any (fun v => decide (v < 16)) = true then
        (if ((strtolDigits 16 (y :: r) 0 : Nat) : Int) > LONG_MAX then LONG_MAX
          else ((strtolDigits 16 (y :: r) 0 : Nat) : Int))
      else
        (if ((strtolDigits 8 ('0' :: x :: y :: r) 0 : Nat) : Int) > LONG_MAX then LONG_MAX
          else ((strtolDigits 8 ('0' :: x :: y :: r) 0 : Nat) : Int)) := by
  unfold strtol
  by_cases h : (x = 'x' ∨ x = 'X') ∧ (digitVal y).any (fun v => decide (v < 16)) = true
  · simp [h, List.dropWhile, isspace]
  · simp [h, List.dropWhile, isspace]

theorem strtol_zero_shape2 (x : Char) :
    strtol ['0', x] =
        (if ((strtolDigits 8 ['0', x] 0 : Nat) : Int) > LONG_MAX then LONG_MAX
          else ((strtolDigits 8 ['0', x] 0 : Nat) : Int)) := by
  unfold strtol
  simp [List.dropWhile, isspace]

/-- The text `0` followed by octal digits is read by `strtol` in base 8. -/
theorem strtol_zero_octal (ds : List Char)
    (hds : ∀ c ∈ ds, ∃ d, d < 8 ∧ c = Nat.digitChar d)
    (hsmall : strtolDigits 8 ds 0 < 2 ^ 63) :
    strtol ('0' :: ds) = ((strtolDigits 8 ds 0 : Nat) : Int) := by
  have hparse : strtolDigits 8 ('0' :: ds) 0 = strtolDigits 8 ds 0 := by
    rw [strtolDigits]
    rfl
  have hle : ¬ ((strtolDigits 8 ds 0 : Nat) : Int) > LONG_MAX := by
    unfold LONG_MAX
    omega
  cases ds with
  | nil => decide
  | cons x r =>
    obtain ⟨d, hd, hxd⟩ := hds x (List.mem_cons_self _ _)
    have hf := octal_char_facts d hd
    rw [← hxd] at hf
    cases r with
    | nil => rw [strtol_zero_shape2, hparse, if_neg hle]
    | cons y r2 =>
      rw [strtol_zero_shape3, if_neg (fun hc => hc.1.elim hf.1 hf.2), hparse, if_neg hle]

/-- The text of `%#o` for a 32-bit value, cut to the 16-byte buffer, is read back by
`strtol` as the value. -/
theorem strtol_fmt_alt_octal (n : Nat) (hn : n < 2 ^ 32) :
    strtol (snprintf16 (fmt_alt_octal n)) = (n : Int) := by
  unfold fmt_alt_octal
  by_cases h0 : n = 0
  · subst h0; decide
  · rw [if_neg h0]
    have hlen : (Nat.toDigits 8 n).length ≤ 11 :=
      Nat.toDigitsCore_length 8 (by decide) (n + 1) n 11
        (lt_of_lt_of_le hn (by decide)) (by decide)
    have htake : snprintf16 ('0' :: Nat.toDigits 8 n) = '0' :: Nat.toDigits 8 n := by
      unfold snprintf16
      exact List.take_of_length_le (by rw [List.length_cons]; omega)
    obtain ⟨k, hk⟩ := strtolDigits_toDigitsCore (n + 1) n (Nat.lt_succ_self n)
    have hval : strtolDigits 8 (Nat.toDigits 8 n) 0 = n := by
      unfold Nat.toDigits
      rw [hk [] 0, strtolDigits]
      omega
    have hds : ∀ c ∈ Nat.toDigits 8 n, ∃ d, d < 8 ∧ c = Nat.digitChar d := by
      intro c hc
      rcases mem_toDigitsCore (n + 1) n [] c hc with h | h
      · cases h
      · exact h
    rw [htake, strtol_zero_octal _ hds (by rw [hval]; omega), hval]

theorem toU32_of_lt (n : Nat) (hn : n < 2 ^ 32) : toU32 (n : Int) = n := by
  unfold toU32
  omega

theorem early_meta_headers_mode (svc : Service) (o : Early.Object) (req : Request) :
    mapFind (svc.get_header_prefix ++ Early.META_PREFIX ++ "s3fuse-mode".toList)
      (Early.request_set_meta_headers svc o req).headers
      = some (snprintf16 (fmt_alt_octal (o.stat.st_mode &&& bitNot32 S_IFMT))) := by
  unfold Early.request_set_meta_headers
  simp only
  rw [find_set_header_ne _ _ _ _ (by cases svc <;> decide),
    find_set_header_ne _ _ _ _ (by cases svc <;> decide),
    find_set_header_ne _ _ _ _ (by cases svc <;> decide),
    find_set_header_ne _ _ _ _ (by cases svc <;> decide),
    find_set_header_ne _ _ _ _ (by cases svc <;> decide),
    find_set_header_ne _ _ _ _ (by cases svc <;> decide),
    find_set_header_ne _ _ _ _ (by cases svc <;> decide),
    find_set_header_self]

theorem early_header_mode (svc : Service) (o : Early.Object) (value : Str) :
    (Early.request_process_header svc o
      (svc.get_header_prefix ++ Early.META_PREFIX ++ "s3fuse-mode".toList) value).stat.st_mode
      = toU32 (strtol value) &&& bitNot32 S_IFMT := by
  cases svc <;> unfold Early.request_process_header <;>
    repeat (first | rw [if_pos rfl] | rw [if_neg (by decide)])

theorem mask_idem (m : Nat) :
    (m &&& bitNot32 S_IFMT) &&& bitNot32 S_IFMT = m &&& bitNot32 S_IFMT := by
  rw [Nat.and_assoc, Nat.and_self]

theorem mode_text_round_trip (m : Nat) (hm : m < 2 ^ 32) :
    toU32 (strtol (snprintf16 (fmt_alt_octal (m &&& bitNot32 S_IFMT)))) &&& bitNot32 S_IFMT
      = m &&& bitNot32 S_IFMT := by
  have hlt : m &&& bitNot32 S_IFMT < 2 ^ 32 := lt_of_le_of_lt Nat.and_le_left hm
  rw [strtol_fmt_alt_octal _ hlt, toU32_of_lt _ hlt, mask_idem]

/-- C12: for every 32-bit `st_mode`, the `s3fuse-mode` header that
`request_set_meta_headers` writes is `st_mode & ~S_IFMT` printed with `%#o` into the 16-byte
buffer; `strtol` with base 0 followed by the mask `~S_IFMT` reads that text back to exactly
`st_mode & ~S_IFMT`, which is what `request_process_header` stores for it, and what
`object::init` of the later binding puts under the file-type bits it keeps. -/
theorem C12_mode_header_round_trip (svc : Service) (o ob : Early.Object) (req : Request)
    (t : Trunk.Object) (env : Env) (headers : List (Str × Str)) (last_modified : Int)
    (glacier : Option (List Trunk.Xattr))
    (hm : o.stat.st_mode < 2 ^ 32) :
    mapFind (svc.get_header_prefix ++ Early.META_PREFIX ++ "s3fuse-mode".toList)
      (Early.request_set_meta_headers svc o req).headers
      = some (snprintf16 (fmt_alt_octal (o.stat.st_mode &&& bitNot32 S_IFMT))) ∧
    toU32 (strtol (snprintf16 (fmt_alt_octal (o.stat.st_mode &&& bitNot32 S_IFMT))))
      &&& bitNot32 S_IFMT = o.stat.st_mode &&& bitNot32 S_IFMT ∧
    (Early.request_process_header svc ob
      (svc.get_header_prefix ++ Early.META_PREFIX ++ "s3fuse-mode".toList)
      (snprintf16 (fmt_alt_octal (o.stat.st_mode &&& bitNot32 S_IFMT)))).stat.st_mode
      = o.stat.st_mode &&& bitNot32 S_IFMT ∧
    (Trunk.get_response_header headers (svc.get_header_meta_prefix ++ Trunk.metadata_MODE)
        = snprintf16 (fmt_alt_octal (o.stat.st_mode &&& bitNot32 S_IFMT)) →
      (Trunk.init svc env t headers last_modified glacier).stat.st_mode
        = (t.stat.st_mode &&& S_IFMT) ||| (o.stat.st_mode &&& bitNot32 S_IFMT)) := by
  refine ⟨early_meta_headers_mode svc o req, mode_text_round_trip _ hm, ?_, ?_⟩
  · rw [early_header_mode, mode_text_round_trip _ hm]
  · intro hh
    have hinit : (Trunk.init svc env t headers last_modified glacier).stat.st_mode
        = (t.stat.st_mode &&& S_IFMT)
          ||| (toU32 (strtol (Trunk.get_response_header headers
                (svc.get_header_meta_prefix ++ Trunk.metadata_MODE))) &&& bitNot32 S_IFMT) := rfl
    rw [hinit, hh, mode_text_round_trip _ hm]

/-- C12 (witness): mode 0100644 is written as `0644` and read back as 0644. -/
theorem C12_mode_header_round_trip_witness :
    Early.sample_object.stat.st_mode < 2 ^ 32 ∧
    snprintf16 (fmt_alt_octal (Early.sample_object.stat.st_mode &&& bitNot32 S_IFMT))
      = "0644".toList ∧
    toU32 (strtol (snprintf16 (fmt_alt_octal
      (Early.sample_object.stat.st_mode &&& bitNot32 S_IFMT)))) &&& bitNot32 S_IFMT
      = Early.sample_object.stat.st_mode &&& bitNot32 S_IFMT :=
  ⟨by decide, by decide,
   (C12_mode_header_round_trip .aws Early.sample_object Early.sample_object
      (Request.init "PUT".toList) Trunk.sample_object sample_env [] 0 none (by decide)).2.1⟩

/-! ## Maps with string keys in key order -/

theorem mapFind_eq_none_of_not_mem {κ ν : Type} [DecidableEq κ] (k : κ) (m : List (κ × ν))
    (hk : k ∉ mapKeys m) : mapFind k m = none := by
  induction m with
  | nil => rfl
  | cons e rest ih =>
    obtain ⟨k', v'⟩ := e
    simp only [mapKeys, List.map_cons, List.mem_cons, not_or] at hk
    simp only [mapFind]
    rw [if_neg (fun h => hk.1 h.symm)]
    exact ih hk.2

theorem mem_mapKeys_of_mapFind {κ ν : Type} [DecidableEq κ] (k : κ) (v : ν) (m : List (κ × ν))
    (hk : mapFind k m = some v) : k ∈ mapKeys m := by
  by_contra hc
  rw [mapFind_eq_none_of_not_mem k m hc] at hk
  cases hk

theorem sortedKeys_nil {ν : Type} : SortedKeys ([] : List (Str × ν)) := List.Pairwise.nil

theorem sortedKeys_mapInsert {ν : Type} (k : Str) (v : ν) (m : List (Str × ν))
    (hm : SortedKeys m) : SortedKeys (mapInsert k v m) := by
  induction m with
  | nil => simp [mapInsert, SortedKeys, mapKeys]
  | cons e rest ih =>
    obtain ⟨k', v'⟩ := e
    have hm' : (k' :: mapKeys rest).Pairwise (· < ·) := hm
    obtain ⟨hhead, htail⟩ := List.pairwise_cons.mp hm'
    unfold mapInsert
    by_cases h1 : k' = k
    · rw [if_pos h1]
      subst h1
      exact hm
    · rw [if_neg h1]
      by_cases h2 : k < k'
      · rw [if_pos h2]
        show (k :: k' :: mapKeys rest).Pairwise (· < ·)
        refine List.pairwise_cons.mpr ⟨?_, hm'⟩
        intro a ha
        rcases List.mem_cons.mp ha with ha | ha
        · rw [ha]; exact h2
        · exact lt_trans h2 (hhead a ha)
      · rw [if_neg h2]
        show (k' :: mapKeys (mapInsert k v rest)).Pairwise (· < ·)
        refine List.pairwise_cons.mpr ⟨?_, ih htail⟩
        intro a ha
        rcases mem_mapKeys_mapInsert k a v rest ha with ha | ha
        · rw [ha]
          rcases lt_trichotomy k' k with h | h | h
          · exact h
          · exact absurd h h1
          · exact absurd h h2
        · exact hhead a ha

theorem sortedKeys_mapErase {ν : Type} (k : Str) (m : List (Str × ν)) (hm : SortedKeys m) :
    SortedKeys (mapErase k m) := by
  unfold SortedKeys mapKeys mapErase
  exact List.Pairwise.sublist ((List.filter_sublist m).map Prod.fst) hm

theorem nodup_of_sortedKeys {ν : Type} (m : List (Str × ν)) (hm : SortedKeys m) :
    (mapKeys m).Nodup :=
  List.Pairwise.imp (fun h => ne_of_lt h) hm

/-- Two maps in key order with the same lookups are the same list. -/
theorem sortedKeys_ext {ν : Type} (m1 m2 : List (Str × ν)) (h1 : SortedKeys m1)
    (h2 : SortedKeys m2) (hfind : ∀ k, mapFind k m1 = mapFind k m2) : m1 = m2 := by
  induction m1 generalizing m2 with
  | nil =>
    cases m2 with
    | nil => rfl
    | cons e rest =>
      have := hfind e.1
      simp [mapFind] at this
  | cons e1 r1 ih =>
    obtain ⟨a, x⟩ := e1
    cases m2 with
    | nil =>
      have := hfind a
      simp [mapFind] at this
    | cons e2 r2 =>
      obtain ⟨b, y⟩ := e2
      have hs1 : (a :: mapKeys r1).Pairwise (· < ·) := h1
      have hs2 : (b :: mapKeys r2).Pairwise (· < ·) := h2
      obtain ⟨ha1, ht1⟩ := List.pairwise_cons.mp hs1
      obtain ⟨hb2, ht2⟩ := List.pairwise_cons.mp hs2
      have hab : a = b := by
        by_contra hne
        have hfa := hfind a
        have hfb := hfind b
        simp only [mapFind, if_true, if_neg (Ne.symm hne)] at hfa
        simp only [mapFind, if_true, if_neg hne] at hfb
        have hmem_a : a ∈ mapKeys r2 := mem_mapKeys_of_mapFind a x r2 hfa.symm
        have hmem_b : b ∈ mapKeys r1 := mem_mapKeys_of_mapFind b y r1 hfb
        exact lt_asymm (ha1 b hmem_b) (hb2 a hmem_a)
      subst hab
      have hxy : x = y := by
        have hfa := hfind a
        simp only [mapFind, if_true] at hfa
        exact Option.some.inj hfa
      subst hxy
      have htail : ∀ k, mapFind k r1 = mapFind k r2 := by
        intro k
        by_cases hk : a = k
        · subst hk
          rw [mapFind_eq_none_of_not_mem a r1 (fun hm => lt_irrefl a (ha1 a hm)),
            mapFind_eq_none_of_not_mem a r2 (fun hm => lt_irrefl a (hb2 a hm))]
        · have := hfind k
          simp only [mapFind, if_neg hk] at this
          exact this
      rw [ih r2 ht1 ht2 htail]

/-! ## The early binding: user xattrs through the headers -/

theorem early_meta_prefix_facts (svc : Service) :
    (∀ c ∈ svc.get_header_prefix ++ Early.META_PREFIX, c ≠ '\x00') ∧
    (∀ k, svc.get_header_prefix ++ Early.META_PREFIX ++ k ≠ "Content-Type".toList) ∧
    (∀ k, svc.get_header_prefix ++ Early.META_PREFIX ++ k ≠ "ETag".toList) ∧
    (∀ k, svc.get_header_prefix ++ Early.META_PREFIX ++ k ≠ "Content-Length".toList) := by
  cases svc
  · refine ⟨by decide, ?_, ?_, ?_⟩ <;> intro k <;>
      simp [Service.get_header_prefix, Early.META_PREFIX]
  · refine ⟨by decide, ?_, ?_, ?_⟩ <;> intro k <;>
      simp [Service.get_header_prefix, Early.META_PREFIX]

/-- A header `<meta-prefix><k>` with `k` not reserved is stored under `k`. -/
theorem early_process_user_header (svc : Service) (o : Early.Object) (k value : Str)
    (hk : ¬ Reserved k) :
    (Early.request_process_header svc o (svc.get_header_prefix ++ Early.META_PREFIX ++ k)
      value).metadata = mapInsert k value o.metadata := by
  obtain ⟨hnul, hct, het, hcl⟩ := early_meta_prefix_facts svc
  have hres : ∀ r : Str, Reserved r →
      svc.get_header_prefix ++ Early.META_PREFIX ++ k
        ≠ svc.get_header_prefix ++ Early.META_PREFIX ++ r := by
    intro r hr h
    exact hk ((List.append_cancel_left h) ▸ hr)
  have hcond : strncmp_eq (svc.get_header_prefix ++ Early.META_PREFIX ++ k)
        (svc.get_header_prefix ++ Early.META_PREFIX)
        (svc.get_header_prefix ++ Early.META_PREFIX).length = true
      ∧ ¬ strncmp_eq
          ((svc.get_header_prefix ++ Early.META_PREFIX ++ k).drop
            (svc.get_header_prefix ++ Early.META_PREFIX).length)
          Early.META_PREFIX_RESERVED Early.META_PREFIX_RESERVED_LEN = true := by
    constructor
    · exact ( strncmp_eq_iff_prefix _ hnul _).mpr (List.prefix_append _ _)
    · rw [List.drop_left, strncmp_reserved]
      exact hk
  unfold Early.request_process_header
  simp only
  rw [if_neg (hct k), if_neg (het k), if_neg (hcl k),
    if_neg (hres _ (by decide)), if_neg (hres _ (by decide)), if_neg (hres _ (by decide)),
    if_neg (hres _ (by decide)), if_neg (hres _ (by decide)), if_neg (hres _ (by decide)),
    if_neg (hres _ (by decide)), if_pos hcond, List.drop_left]

/-- A header other than `<meta-prefix><k>` leaves the lookup of `k` as it was. -/
theorem early_process_other_header (svc : Service) (o : Early.Object) (key value k : Str)
    (hne : key ≠ svc.get_header_prefix ++ Early.META_PREFIX ++ k) :
    mapFind k (Early.request_process_header svc o key value).metadata
      = mapFind k o.metadata := by
  obtain ⟨hnul, _, _, _⟩ := early_meta_prefix_facts svc
  unfold Early.request_process_header
  simp only
  iterate 10
    (refine ite_prop (fun x : Early.Object => mapFind k x.metadata = mapFind k o.metadata)
      _ _ _ (fun _ => rfl) (fun _ => ?_))
  refine ite_prop (fun x : Early.Object => mapFind k x.metadata = mapFind k o.metadata)
    _ _ _ (fun c11 => ?_) (fun _ => rfl)
  have hpre : svc.get_header_prefix ++ Early.META_PREFIX <+: key :=
    ( strncmp_eq_iff_prefix _ hnul key).mp c11.1
  have hkey : key = svc.get_header_prefix ++ Early.META_PREFIX
      ++ key.drop (svc.get_header_prefix ++ Early.META_PREFIX).length := by
    obtain ⟨t, ht⟩ := hpre
    rw [← ht, List.drop_left]
  exact mapFind_mapInsert_ne _ k value o.metadata (fun h => hne (by rw [hkey, h]))

/-- Reading a header list without repeated names: the lookup of a name that is not reserved
is the value of its header, or what the object held when there is no such header. -/
theorem early_read_lookup (svc : Service) (k : Str) (hk : ¬ Reserved k)
    (headers : List (Str × Str)) (hnd : (mapKeys headers).Nodup) (o : Early.Object) :
    mapFind k (headers.foldl (fun ob h => Early.request_process_header svc ob h.1 h.2)
      o).metadata
      = match mapFind (svc.get_header_prefix ++ Early.META_PREFIX ++ k) headers with
        | some v => some v
        | none => mapFind k o.metadata := by
  induction headers generalizing o with
  | nil => rfl
  | cons h rest ih =>
    obtain ⟨hkey, hval⟩ := h
    have hnd' : (hkey :: mapKeys rest).Nodup := hnd
    obtain ⟨hnot, hrest⟩ := List.nodup_cons.mp hnd'
    rw [List.foldl_cons, ih hrest]
    by_cases heq : hkey = svc.get_header_prefix ++ Early.META_PREFIX ++ k
    · subst heq
      rw [mapFind_eq_none_of_not_mem _ rest hnot]
      simp only [mapFind, if_true]
      rw [early_process_user_header svc o k hval hk, mapFind_mapInsert_self]
    · simp only [mapFind, if_neg heq]
      rw [early_process_other_header svc o hkey hval k heq]

/-- Writing the entries of a map without repeated names as headers. -/
theorem early_write_lookup (pre k : Str) (m : List (Str × Str)) (hnd : (mapKeys m).Nodup)
    (req : Request) :
    mapFind (pre ++ k) (m.foldl (fun r e => r.set_header (pre ++ e.1) e.2) req).headers
      = match mapFind k m with
        | some v => some v
        | none => mapFind (pre ++ k) req.headers := by
  induction m generalizing req with
  | nil => rfl
  | cons e rest ih =>
    obtain ⟨k1, v1⟩ := e
    have hnd' : (k1 :: mapKeys rest).Nodup := hnd
    obtain ⟨hnot, hrest⟩ := List.nodup_cons.mp hnd'
    rw [List.foldl_cons, ih hrest]
    by_cases heq : k1 = k
    · subst heq
      rw [mapFind_eq_none_of_not_mem _ rest hnot]
      simp only [mapFind, if_true]
      exact find_set_header_self req _ v1
    · simp only [mapFind, if_neg heq]
      rw [find_set_header_ne req _ v1 _ (fun h => heq (List.append_cancel_left h))]

theorem sortedKeys_headers_foldl (pre : Str) (m : List (Str × Str)) (req : Request)
    (hreq : SortedKeys req.headers) :
    SortedKeys (m.foldl (fun r e => r.set_header (pre ++ e.1) e.2) req).headers := by
  induction m generalizing req with
  | nil => exact hreq
  | cons e rest ih => exact ih _ (sortedKeys_mapInsert _ _ _ hreq)

theorem sortedKeys_request_set_meta_headers (svc : Service) (o : Early.Object) (req : Request)
    (hreq : SortedKeys req.headers) :
    SortedKeys (Early.request_set_meta_headers svc o req).headers := by
  unfold Early.request_set_meta_headers
  simp only
  iterate 8 (refine sortedKeys_mapInsert _ _ _ ?_)
  exact sortedKeys_headers_foldl _ _ _ hreq

/-- The header `<meta-prefix><k>` of `request_set_meta_headers`, for a name that is not
reserved, on a request without headers. -/
theorem early_meta_headers_user (svc : Service) (o : Early.Object) (k : Str)
    (hk : ¬ Reserved k) (hnd : (mapKeys o.metadata).Nodup) (method : Str) :
    mapFind (svc.get_header_prefix ++ Early.META_PREFIX ++ k)
      (Early.request_set_meta_headers svc o (Request.init method)).headers
      = mapFind k o.metadata := by
  obtain ⟨_, hct, _, _⟩ := early_meta_prefix_facts svc
  have hres : ∀ r : Str, Reserved r →
      svc.get_header_prefix ++ Early.META_PREFIX ++ r
        ≠ svc.get_header_prefix ++ Early.META_PREFIX ++ k := by
    intro r hr h
    exact hk ((List.append_cancel_left h) ▸ hr)
  unfold Early.request_set_meta_headers
  simp only
  rw [find_set_header_ne _ _ _ _ (fun h => hct k h.symm),
    find_set_header_ne _ _ _ _ (hres _ (by decide)),
    find_set_header_ne _ _ _ _ (hres _ (by decide)),
    find_set_header_ne _ _ _ _ (hres _ (by decide)),
    find_set_header_ne _ _ _ _ (hres _ (by decide)),
    find_set_header_ne _ _ _ _ (hres _ (by decide)),
    find_set_header_ne _ _ _ _ (hres _ (by decide)),
    find_set_header_ne _ _ _ _ (hres _ (by decide)),
    early_write_lookup _ k o.metadata hnd]
  cases mapFind k o.metadata with
  | none => rfl
  | some v => rfl

theorem sortedKeys_request_process_header (svc : Service) (o : Early.Object)
    (key value : Str) (hm : SortedKeys o.metadata) :
    SortedKeys (Early.request_process_header svc o key value).metadata := by
  unfold Early.request_process_header
  simp only
  iterate 10
    (refine ite_prop (fun x : Early.Object => SortedKeys x.metadata) _ _ _ (fun _ => hm)
      (fun _ => ?_))
  exact ite_prop (fun x : Early.Object => SortedKeys x.metadata) _ _ _
    (fun _ => sortedKeys_mapInsert _ value o.metadata hm) (fun _ => hm)

theorem sortedKeys_apply (svc : Service) (cfg : Config) (o : Early.Object) (op : Early.MetaOp)
    (hm : SortedKeys o.metadata) : SortedKeys (op.apply svc cfg o).metadata := by
  cases op with
  | set_metadata key value flags =>
    show SortedKeys (Early.set_metadata o key value flags).2.metadata
    unfold Early.set_metadata
    simp only
    iterate 4
      (refine ite_prop (fun x : Int × Early.Object => SortedKeys x.2.metadata) _ _ _
        (fun _ => hm) (fun _ => ?_))
    exact sortedKeys_mapInsert key value o.metadata hm
  | remove_metadata key =>
    show SortedKeys (Early.remove_metadata o key).2.metadata
    unfold Early.remove_metadata
    split
    · exact hm
    · exact sortedKeys_mapErase key o.metadata hm
  | request_init => exact sortedKeys_nil
  | request_process_header key value =>
    exact sortedKeys_request_process_header svc o key value hm

theorem sortedKeys_ops (svc : Service) (cfg : Config) (ops : List Early.MetaOp)
    (o : Early.Object) (hm : SortedKeys o.metadata) :
    SortedKeys (ops.foldl (Early.MetaOp.apply svc cfg) o).metadata := by
  induction ops generalizing o with
  | nil => exact hm
  | cons op rest ih => exact ih _ (sortedKeys_apply svc cfg o op hm)

theorem sortedKeys_read (svc : Service) (headers : List (Str × Str)) (o : Early.Object)
    (hm : SortedKeys o.metadata) :
    SortedKeys (headers.foldl (fun ob h => Early.request_process_header svc ob h.1 h.2)
      o).metadata := by
  induction headers generalizing o with
  | nil => exact hm
  | cons h rest ih => exact ih _ (sortedKeys_request_process_header svc o h.1 h.2 hm)

theorem noReserved_read (svc : Service) (headers : List (Str × Str)) (o : Early.Object)
    (hm : NoReservedKey o.metadata) :
    NoReservedKey (headers.foldl (fun ob h => Early.request_process_header svc ob h.1 h.2)
      o).metadata := by
  induction headers generalizing o with
  | nil => exact hm
  | cons h rest ih => exact ih _ (noReserved_request_process_header svc o h.1 h.2 hm)

/-- The round trip on a map in key order without reserved names. -/
theorem early_xattrs_round_trip (svc : Service) (cfg : Config) (o ob : Early.Object)
    (method : Str) (hs : SortedKeys o.metadata) (hr : NoReservedKey o.metadata) :
    (Early.read_headers svc cfg ob
      (Early.request_set_meta_headers svc o (Request.init method)).headers).metadata
      = o.metadata := by
  have hsH : SortedKeys (Early.request_set_meta_headers svc o (Request.init method)).headers :=
    sortedKeys_request_set_meta_headers svc o _ sortedKeys_nil
  have hinit : (Early.request_init cfg ob).metadata = [] := rfl
  have hs0 : SortedKeys (Early.request_init cfg ob).metadata := sortedKeys_nil
  have hr0 : NoReservedKey (Early.request_init cfg ob).metadata := by
    intro k hk; rw [hinit] at hk; cases hk
  apply sortedKeys_ext _ _ (sortedKeys_read svc _ _ hs0) hs
  intro k
  by_cases hk : Reserved k
  · rw [mapFind_eq_none_of_not_mem k _ (fun hm => noReserved_read svc _ _ hr0 k hm hk),
      mapFind_eq_none_of_not_mem k _ (fun hm => hr k hm hk)]
  · rw [early_read_lookup svc k hk _ (nodup_of_sortedKeys _ hsH),
      early_meta_headers_user svc o k hk (nodup_of_sortedKeys _ hs) method, hinit]
    cases mapFind k o.metadata with
    | none => rfl
    | some v => rfl

/-- C11: user xattrs survive serialisation. For every metadata map built from an empty one
by `set_metadata` calls (and by `remove_metadata`, `request_init` and
`request_process_header` calls as well), the headers that `request_set_meta_headers` writes
on a fresh request, fed to `request_init` followed by `request_process_header` for each
header, give a metadata map equal to the original one, key for key and value for value. -/
theorem C11_user_xattrs_survive (svc : Service) (cfg : Config) (o0 ob : Early.Object)
    (ops : List Early.MetaOp) (h0 : o0.metadata = []) :
    (Early.read_headers svc cfg ob
      (Early.request_set_meta_headers svc (ops.foldl (Early.MetaOp.apply svc cfg) o0)
        (Request.init "PUT".toList)).headers).metadata
      = (ops.foldl (Early.MetaOp.apply svc cfg) o0).metadata := by
  apply early_xattrs_round_trip
  · exact sortedKeys_ops svc cfg ops o0 (by rw [h0]; exact sortedKeys_nil)
  · exact noReserved_foldl svc cfg ops o0 (by intro k hk; rw [h0] at hk; cases hk)

/-- C11 (witness): `color = blue` and `shape = round` set on the sample object come back
from the headers. -/
theorem C11_user_xattrs_survive_witness :
    Early.sample_object.metadata = [] ∧
    ([Early.MetaOp.set_metadata "shape".toList "round".toList 0,
      Early.MetaOp.set_metadata "color".toList "blue".toList 0].foldl
      (Early.MetaOp.apply .aws sample_config) Early.sample_object).metadata
      = [("color".toList, "blue".toList), ("shape".toList, "round".toList)] ∧
    (Early.read_headers .aws sample_config Early.sample_object
      (Early.request_set_meta_headers .aws
        ([Early.MetaOp.set_metadata "shape".toList "round".toList 0,
          Early.MetaOp.set_metadata "color".toList "blue".toList 0].foldl
          (Early.MetaOp.apply .aws sample_config) Early.sample_object)
        (Request.init "PUT".toList)).headers).metadata
      = ([Early.MetaOp.set_metadata "shape".toList "round".toList 0,
          Early.MetaOp.set_metadata "color".toList "blue".toList 0].foldl
          (Early.MetaOp.apply .aws sample_config) Early.sample_object).metadata :=
  ⟨rfl, by decide,
   C11_user_xattrs_survive .aws sample_config Early.sample_object Early.sample_object
     [Early.MetaOp.set_metadata "shape".toList "round".toList 0,
      Early.MetaOp.set_metadata "color".toList "blue".toList 0] rfl⟩

/-! ## `get_object`: the cache and the HEAD probes -/

/-- One probe, spelled out. -/
theorem head_probe_eq (w : PathOps.World) (st : PathOps.FsState) (obj : PathOps.FsObject)
    (hints : Nat) (url : Str) :
    PathOps.head_probe w st obj hints url
      = ((w.server st.sent.length (PathOps.head_request url)).code,
         { path := obj.path, hints := hints,
           payload := w.fill { obj with hints := hints }
             (PathOps.head_request url)
             (w.server st.sent.length (PathOps.head_request url)) },
         { st with sent := st.sent ++ [PathOps.head_request url] }) :=
  rfl

/-- What a cache miss does: one or two HEAD requests, and the object is stored exactly when
the last of them is answered by 200. -/
theorem fetch_object_heads (w : PathOps.World) (st : PathOps.FsState) (path : Str)
    (hints : Nat) :
    ∃ (heads : List PathOps.HttpRequest) (final : PathOps.HttpRequest),
      (PathOps.fetch_object w st path hints).2.sent = st.sent ++ heads ++ [final] ∧
      heads.length ≤ 1 ∧
      (∀ q ∈ heads ++ [final], q.method = "HEAD".toList) ∧
      ((w.server (st.sent.length + heads.length) final).code = 200 →
        ∃ o, (PathOps.fetch_object w st path hints).1 = some o ∧
          (PathOps.fetch_object w st path hints).2
            = { st with
                sent := st.sent ++ heads ++ [final]
                object_cache := mapInsert path o st.object_cache }) ∧
      ((w.server (st.sent.length + heads.length) final).code ≠ 200 →
        (PathOps.fetch_object w st path hints).1 = none ∧
        (PathOps.fetch_object w st path hints).2
          = { st with sent := st.sent ++ heads ++ [final] }) := by
  by_cases hA : hints = HINT_NONE ∨ hints &&& HINT_IS_DIR ≠ 0
  · by_cases hB : hints &&& HINT_IS_FILE ≠ 0 ∨
        (w.server st.sent.length
          (PathOps.head_request (PathOps.object_url w path ++ ['/']))).code ≠ 200
    · refine ⟨[PathOps.head_request (PathOps.object_url w path ++ ['/'])],
        PathOps.head_request (PathOps.object_url w path), ?_⟩
      simp only [PathOps.fetch_object, if_pos hA, head_probe_eq, if_pos hB]
      refine ⟨by split_ifs <;> simp, by simp, ?_, ?_, ?_⟩
      · intro q hq
        simp at hq
        rcases hq with rfl | rfl <;> rfl
      · intro h200
        simp only [List.length_append, List.length_singleton, List.length_nil, zero_add] at h200 ⊢
        rw [if_neg (by simpa using h200)]
        exact ⟨_, rfl, by simp⟩
      · intro h200
        simp only [List.length_append, List.length_singleton, List.length_nil, zero_add] at h200 ⊢
        rw [if_pos (by simpa using h200)]
        exact ⟨rfl, by simp⟩
    · refine ⟨[], PathOps.head_request (PathOps.object_url w path ++ ['/']), ?_⟩
      simp only [PathOps.fetch_object, if_pos hA, head_probe_eq, if_neg hB]
      have hc : (w.server st.sent.length
          (PathOps.head_request (PathOps.object_url w path ++ ['/']))).code = 200 := by
        by_contra hne
        exact hB (Or.inr hne)
      refine ⟨by split_ifs <;> simp, by simp, ?_, ?_, ?_⟩
      · intro q hq
        simp at hq
        subst hq
        rfl
      · intro _
        rw [if_neg (by simpa using hc)]
        exact ⟨_, rfl, by simp⟩
      · intro h200
        exact absurd hc (by simpa using h200)
  · refine ⟨[], PathOps.head_request (PathOps.object_url w path), ?_⟩
    simp only [PathOps.fetch_object, if_neg hA, head_probe_eq]
    rw [if_pos (Or.inr (by decide))]
    refine ⟨by split_ifs <;> simp, by simp, ?_, ?_, ?_⟩
    · intro q hq
      simp at hq
      subst hq
      rfl
    · intro h200
      simp only [List.length_nil, add_zero] at h200 ⊢
      rw [if_neg (by simpa using h200)]
      exact ⟨_, rfl, by simp⟩
    · intro h200
      simp only [List.length_nil, add_zero] at h200 ⊢
      rw [if_pos (by simpa using h200)]
      exact ⟨rfl, by simp⟩

/-- A cached object that is valid is returned as it is. -/
theorem get_object_valid (w : PathOps.World) (now : Int) (st : PathOps.FsState) (path : Str)
    (hints : Nat) (o : PathOps.FsObject) (hfind : mapFind path st.object_cache = some o)
    (hvalid : 0 < o.payload.expiry ∧ now < o.payload.expiry) :
    PathOps.get_object w now st path hints = (some o, st) := by
  unfold PathOps.get_object
  rw [hfind]
  simp only
  rw [if_pos (by simpa [PathOps.is_valid] using hvalid)]

/-- Without a valid cached object `get_object` is the fetch. -/
theorem get_object_miss (w : PathOps.World) (now : Int) (st : PathOps.FsState) (path : Str)
    (hints : Nat)
    (hmiss : ∀ o, mapFind path st.object_cache = some o →
      ¬ (0 < o.payload.expiry ∧ now < o.payload.expiry)) :
    PathOps.get_object w now st path hints = PathOps.fetch_object w st path hints := by
  unfold PathOps.get_object
  cases hfind : mapFind path st.object_cache with
  | none => rfl
  | some o =>
    simp only
    rw [if_neg (by simpa [PathOps.is_valid] using hmiss o hfind)]

/-- C21: `get_object` returns the cached object, and runs no request, when the cache holds
an object for the path with `expiry > 0` and `now < expiry`; in every other case it runs at
least one request, all of them HEAD requests, and then, when the last HEAD is answered by
200, it returns an object and stores it in the cache under the path, and otherwise it
returns no object and leaves the cache as it was. -/
theorem C21_get_object_cache_or_head (w : PathOps.World) (now : Int) (st : PathOps.FsState)
    (path : Str) (hints : Nat) :
    (∀ o, mapFind path st.object_cache = some o →
      0 < o.payload.expiry → now < o.payload.expiry →
      PathOps.get_object w now st path hints = (some o, st)) ∧
    ((∀ o, mapFind path st.object_cache = some o →
        ¬ (0 < o.payload.expiry ∧ now < o.payload.expiry)) →
      ∃ (heads : List PathOps.HttpRequest) (final : PathOps.HttpRequest),
        (PathOps.get_object w now st path hints).2.sent = st.sent ++ heads ++ [final] ∧
        (∀ q ∈ heads ++ [final], q.method = "HEAD".toList) ∧
        ((w.server (st.sent.length + heads.length) final).code = 200 →
          ∃ o, (PathOps.get_object w now st path hints).1 = some o ∧
            (PathOps.get_object w now st path hints).2.object_cache
              = mapInsert path o st.object_cache) ∧
        ((w.server (st.sent.length + heads.length) final).code ≠ 200 →
          (PathOps.get_object w now st path hints).1 = none ∧
          (PathOps.get_object w now st path hints).2.object_cache = st.object_cache)) := by
  refine ⟨fun o hfind h0 hnow => get_object_valid w now st path hints o hfind ⟨h0, hnow⟩, ?_⟩
  intro hmiss
  rw [get_object_miss w now st path hints hmiss]
  obtain ⟨heads, final, hsent, _, hhead, h200, hnot⟩ := fetch_object_heads w st path hints
  refine ⟨heads, final, hsent, hhead, ?_, ?_⟩
  · intro hc
    obtain ⟨o, ho, hst⟩ := h200 hc
    exact ⟨o, ho, by rw [hst]⟩
  · intro hc
    obtain ⟨ho, hst⟩ := hnot hc
    exact ⟨ho, by rw [hst]⟩

/-- C21 (witness): with `a` cached until 130, a lookup at time 100 returns the cached object
and sends nothing; a lookup at time 130 sends a HEAD request. -/
theorem C21_get_object_cache_or_head_witness :
    PathOps.get_object PathOps.sample_world 100 PathOps.sample_cached_state "a".toList HINT_NONE
      = (some PathOps.sample_object, PathOps.sample_cached_state) ∧
    ∃ (heads : List PathOps.HttpRequest) (final : PathOps.HttpRequest),
      (PathOps.get_object PathOps.sample_world 130 PathOps.sample_cached_state
        "a".toList HINT_NONE).2.sent = [] ++ heads ++ [final] :=
  ⟨(C21_get_object_cache_or_head PathOps.sample_world 100 PathOps.sample_cached_state
      "a".toList HINT_NONE).1 _ (by decide) (by decide) (by decide),
   ((C21_get_object_cache_or_head PathOps.sample_world 130 PathOps.sample_cached_state
      "a".toList HINT_NONE).2 (by
        intro o ho
        have : o = PathOps.sample_object := by
          simpa [PathOps.sample_cached_state, mapFind] using ho.symm
        subst this
        decide)).imp fun _ h => h.imp fun _ h2 => h2.1⟩

/-- The directory probe alone: the hints or-ed with nothing about a file, and 200. -/
theorem fetch_object_dir (w : PathOps.World) (st : PathOps.FsState) (path : Str) (hints : Nat)
    (hA : hints = HINT_NONE ∨ hints &&& HINT_IS_DIR ≠ 0) (hF : hints &&& HINT_IS_FILE = 0)
    (hc : (w.server st.sent.length
      (PathOps.head_request (PathOps.object_url w path ++ ['/']))).code = 200) :
    (PathOps.fetch_object w st path hints).2.sent
        = st.sent ++ [PathOps.head_request (PathOps.object_url w path ++ ['/'])] ∧
    ∃ o, (PathOps.fetch_object w st path hints).1 = some o ∧
      o.hints = PathOps.OH_IS_DIRECTORY := by
  have hB : ¬ (hints &&& HINT_IS_FILE ≠ 0 ∨
      (w.server st.sent.length
        (PathOps.head_request (PathOps.object_url w path ++ ['/']))).code ≠ 200) := by
    rintro (h | h)
    · exact h hF
    · exact h hc
  simp only [PathOps.fetch_object, if_pos hA, head_probe_eq, if_neg hB]
  rw [if_neg (by simpa using hc)]
  exact ⟨rfl, _, rfl, rfl⟩

/-- The directory probe and then the file probe. -/
theorem fetch_object_dir_file (w : PathOps.World) (st : PathOps.FsState) (path : Str)
    (hints : Nat) (hA : hints = HINT_NONE ∨ hints &&& HINT_IS_DIR ≠ 0)
    (hB : hints &&& HINT_IS_FILE ≠ 0 ∨ (w.server st.sent.length
      (PathOps.head_request (PathOps.object_url w path ++ ['/']))).code ≠ 200) :
    (PathOps.fetch_object w st path hints).2.sent
        = st.sent ++ [PathOps.head_request (PathOps.object_url w path ++ ['/']),
            PathOps.head_request (PathOps.object_url w path)] ∧
    ∀ o, (PathOps.fetch_object w st path hints).1 = some o → o.hints = PathOps.OH_NONE := by
  simp only [PathOps.fetch_object, if_pos hA, head_probe_eq, if_pos hB]
  constructor
  · split_ifs <;> simp
  · intro o ho
    split_ifs at ho
    cases ho
    rfl

/-- The file probe alone. -/
theorem fetch_object_file (w : PathOps.World) (st : PathOps.FsState) (path : Str) (hints : Nat)
    (hA : ¬ (hints = HINT_NONE ∨ hints &&& HINT_IS_DIR ≠ 0)) :
    (PathOps.fetch_object w st path hints).2.sent
        = st.sent ++ [PathOps.head_request (PathOps.object_url w path)] ∧
    ∀ o, (PathOps.fetch_object w st path hints).1 = some o → o.hints = PathOps.OH_NONE := by
  simp only [PathOps.fetch_object, if_neg hA, head_probe_eq]
  rw [if_pos (Or.inr (by decide))]
  constructor
  · split_ifs <;> simp
  · intro o ho
    split_ifs at ho
    cases ho
    rfl

/-- The hints that combine the two flags, one by one. -/
theorem hints_cases (hints : Nat) (hh : hints < 4) :
    hints = 0 ∨ hints = 1 ∨ hints = 2 ∨ hints = 3 := by omega

/-- The probes of a cache miss for any combination of the two hint flags. -/
theorem head_probes_of_flags (w : PathOps.World) (now : Int) (st : PathOps.FsState) (path : Str)
    (hints : Nat) (hh : hints < 4)
    (hmiss : ∀ o, mapFind path st.object_cache = some o →
      ¬ (0 < o.payload.expiry ∧ now < o.payload.expiry)) :
    (hints = HINT_IS_FILE →
      (PathOps.get_object w now st path hints).2.sent
        = st.sent ++ [PathOps.head_request (PathOps.object_url w path)]) ∧
    (hints &&& HINT_IS_FILE = 0 →
      ((w.server st.sent.length
          (PathOps.head_request (PathOps.object_url w path ++ ['/']))).code = 200 →
        (PathOps.get_object w now st path hints).2.sent
          = st.sent ++ [PathOps.head_request (PathOps.object_url w path ++ ['/'])]) ∧
      ((w.server st.sent.length
          (PathOps.head_request (PathOps.object_url w path ++ ['/']))).code ≠ 200 →
        (PathOps.get_object w now st path hints).2.sent
          = st.sent ++ [PathOps.head_request (PathOps.object_url w path ++ ['/']),
              PathOps.head_request (PathOps.object_url w path)])) ∧
    (PathOps.get_object w now st path hints).2.sent.length ≤ st.sent.length + 2 ∧
    (∀ o, (PathOps.get_object w now st path hints).1 = some o →
      (o.hints = PathOps.OH_IS_DIRECTORY ↔
        hints &&& HINT_IS_FILE = 0 ∧
        (w.server st.sent.length
          (PathOps.head_request (PathOps.object_url w path ++ ['/']))).code = 200)) := by
  rw [get_object_miss w now st path hints hmiss]
  have hdir := fetch_object_dir w st path hints
  have hboth := fetch_object_dir_file w st path hints
  have hfile := fetch_object_file w st path hints
  have hne : PathOps.OH_NONE ≠ PathOps.OH_IS_DIRECTORY := by decide
  refine ⟨?_, ?_, ?_, ?_⟩
  · intro h2
    subst h2
    exact (hfile (by decide)).1
  · intro hF
    have hA : hints = HINT_NONE ∨ hints &&& HINT_IS_DIR ≠ 0 := by
      rcases hints_cases hints hh with h | h | h | h <;> subst h <;> revert hF <;> decide
    exact ⟨fun hc => (hdir hA hF hc).1, fun hc => (hboth hA (Or.inr hc)).1⟩
  · by_cases hA : hints = HINT_NONE ∨ hints &&& HINT_IS_DIR ≠ 0
    · by_cases hB : hints &&& HINT_IS_FILE ≠ 0 ∨ (w.server st.sent.length
          (PathOps.head_request (PathOps.object_url w path ++ ['/']))).code ≠ 200
      · rw [(hboth hA hB).1]
        simp
      · rw [(hdir hA (by_contra fun h => hB (Or.inl h))
          (by_contra fun h => hB (Or.inr h))).1]
        simp
    · rw [(hfile hA).1]
      simp
  · intro o ho
    by_cases hA : hints = HINT_NONE ∨ hints &&& HINT_IS_DIR ≠ 0
    · by_cases hB : hints &&& HINT_IS_FILE ≠ 0 ∨ (w.server st.sent.length
          (PathOps.head_request (PathOps.object_url w path ++ ['/']))).code ≠ 200
      · have h0 := (hboth hA hB).2 o ho
        constructor
        · intro h1
          exact absurd (h0.symm.trans h1) hne
        · rintro ⟨hF, hc⟩
          rcases hB with h | h
          · exact absurd hF h
          · exact absurd hc h
      · have hF : hints &&& HINT_IS_FILE = 0 := by_contra fun h => hB (Or.inl h)
        have hc : (w.server st.sent.length
            (PathOps.head_request (PathOps.object_url w path ++ ['/']))).code = 200 :=
          by_contra fun h => hB (Or.inr h)
        obtain ⟨o1, ho1, hd⟩ := (hdir hA hF hc).2
        rw [ho] at ho1
        simp only [Option.some.injEq] at ho1
        subst ho1
        exact ⟨fun _ => ⟨hF, hc⟩, fun _ => hd⟩
    · have h0 := (hfile hA).2 o ho
      constructor
      · intro h1
        exact absurd (h0.symm.trans h1) hne
      · rintro ⟨hF, _⟩
        exfalso
        apply hA
        rcases hints_cases hints hh with h | h | h | h <;> subst h <;> revert hF <;> decide

/-- The URL with a trailing slash is not the URL without it. -/
theorem dir_url_ne (url : Str) : url ++ ['/'] ≠ url := by
  intro h
  have := congrArg List.length h
  simp at this

/-- C22: on a cache miss, for the hints `HINT_NONE`, `HINT_IS_DIR` and `HINT_IS_FILE`: with
the hint `HINT_IS_FILE` a single HEAD is run, for the URL without trailing slash; when the
caller did not say file, the first HEAD is for `<path>/`, and a second HEAD, for `<path>`, is
run exactly when the first was not answered by 200; never more than two requests are run,
all of them HEAD requests; and the object returned carries the directory hint exactly when
the HEAD for `<path>/` was run and answered by 200. -/
theorem C22_head_probes (w : PathOps.World) (now : Int) (st : PathOps.FsState) (path : Str)
    (hints : Nat) (hh : hints = HINT_NONE ∨ hints = HINT_IS_DIR ∨ hints = HINT_IS_FILE)
    (hmiss : ∀ o, mapFind path st.object_cache = some o →
      ¬ (0 < o.payload.expiry ∧ now < o.payload.expiry)) :
    (hints = HINT_IS_FILE →
      (PathOps.get_object w now st path hints).2.sent
        = st.sent ++ [{ method := "HEAD".toList, url := w.bucket ++ '/' :: url_encode path,
                        query := [], headers := [], output_file := false }]) ∧
    (hints ≠ HINT_IS_FILE →
      ((w.server st.sent.length
          { method := "HEAD".toList, url := w.bucket ++ '/' :: url_encode path ++ ['/'],
            query := [], headers := [], output_file := false }).code = 200 →
        (PathOps.get_object w now st path hints).2.sent
          = st.sent ++ [{ method := "HEAD".toList,
                          url := w.bucket ++ '/' :: url_encode path ++ ['/'],
                          query := [], headers := [], output_file := false }]) ∧
      ((w.server st.sent.length
          { method := "HEAD".toList, url := w.bucket ++ '/' :: url_encode path ++ ['/'],
            query := [], headers := [], output_file := false }).code ≠ 200 →
        (PathOps.get_object w now st path hints).2.sent
          = st.sent ++ [{ method := "HEAD".toList,
                          url := w.bucket ++ '/' :: url_encode path ++ ['/'],
                          query := [], headers := [], output_file := false },
                        { method := "HEAD".toList, url := w.bucket ++ '/' :: url_encode path,
                          query := [], headers := [], output_file := false }])) ∧
    (∃ probes : List PathOps.HttpRequest,
      (PathOps.get_object w now st path hints).2.sent = st.sent ++ probes ∧
      1 ≤ probes.length ∧ probes.length ≤ 2 ∧ ∀ q ∈ probes, q.method = "HEAD".toList) ∧
    (∀ o, (PathOps.get_object w now st path hints).1 = some o →
      (o.hints = PathOps.OH_IS_DIRECTORY ↔
        (PathOps.get_object w now st path hints).2.sent[st.sent.length]?
          = some { method := "HEAD".toList, url := w.bucket ++ '/' :: url_encode path ++ ['/'],
                   query := [], headers := [], output_file := false } ∧
        (w.server st.sent.length
          { method := "HEAD".toList, url := w.bucket ++ '/' :: url_encode path ++ ['/'],
            query := [], headers := [], output_file := false }).code = 200)) := by
  have hlt : hints < 4 := by
    rcases hh with h | h | h <;> subst h <;> decide
  obtain ⟨h1, h2, _, h4⟩ := head_probes_of_flags w now st path hints hlt hmiss
  have hF : hints ≠ HINT_IS_FILE → hints &&& HINT_IS_FILE = 0 := by
    intro hne
    rcases hh with h | h | h
    · subst h; decide
    · subst h; decide
    · exact absurd h hne
  refine ⟨h1, fun hne => h2 (hF hne), ?_, ?_⟩
  · obtain ⟨heads, final, hsent, hlen, hhead, _, _⟩ :=
      fetch_object_heads w st path hints
    rw [get_object_miss w now st path hints hmiss]
    refine ⟨heads ++ [final], by rw [hsent, List.append_assoc], by simp, ?_, hhead⟩
    simp only [List.length_append, List.length_singleton]
    omega
  · intro o ho
    rw [h4 o ho]
    by_cases hf : hints = HINT_IS_FILE
    · have hs := h1 hf
      have hnot : ¬ (hints &&& HINT_IS_FILE = 0) := by
        subst hf
        decide
      constructor
      · intro h
        exact absurd h.1 hnot
      · rintro ⟨hget, _⟩
        rw [hs, List.getElem?_append_right (le_refl _), Nat.sub_self] at hget
        simp only [List.getElem?_cons_zero, Option.some.injEq,
          PathOps.head_request, PathOps.HttpRequest.init, PathOps.HttpRequest.set_url,
          PathOps.object_url, PathOps.HttpRequest.mk.injEq, true_and, and_true] at hget
        exact absurd hget.symm (dir_url_ne _)
    · have h0 := hF hf
      have hs := h2 h0
      constructor
      · rintro ⟨_, hc⟩
        refine ⟨?_, hc⟩
        rw [(hs.1 hc), List.getElem?_append_right (le_refl _), Nat.sub_self]
        rfl
      · rintro ⟨_, hc⟩
        exact ⟨h0, hc⟩

/-- C22 (witness): the path `b` with no hint: the HEAD for `/bucket/b/` is answered by 200
and is the only request; the path `a` with no hint: the HEAD for `/bucket/a/` is answered by
404 and the HEAD for `/bucket/a` follows. -/
theorem C22_head_probes_witness :
    (PathOps.get_object PathOps.sample_world 100 PathOps.sample_state "b".toList HINT_NONE).2.sent
      = [] ++ [{ method := "HEAD".toList,
                 url := PathOps.sample_world.bucket ++ '/' :: url_encode "b".toList ++ ['/'],
                 query := [], headers := [], output_file := false }] ∧
    (PathOps.get_object PathOps.sample_world 100 PathOps.sample_state "a".toList HINT_NONE).2.sent
      = [] ++ [{ method := "HEAD".toList,
                 url := PathOps.sample_world.bucket ++ '/' :: url_encode "a".toList ++ ['/'],
                 query := [], headers := [], output_file := false },
               { method := "HEAD".toList,
                 url := PathOps.sample_world.bucket ++ '/' :: url_encode "a".toList,
                 query := [], headers := [], output_file := false }] :=
  ⟨((C22_head_probes PathOps.sample_world 100 PathOps.sample_state "b".toList HINT_NONE
      (Or.inl rfl) (by intro o ho; simp [PathOps.sample_state, mapFind] at ho)).2.1
        (by decide)).1 (by decide),
   ((C22_head_probes PathOps.sample_world 100 PathOps.sample_state "a".toList HINT_NONE
      (Or.inl rfl) (by intro o ho; simp [PathOps.sample_state, mapFind] at ho)).2.1
        (by decide)).2 (by decide)⟩

/-! ## The trailing-slash check -/

/-- For a string that is not empty (and whose size fits `size_t`) the index `size() - 1` is
that of the last character. -/
theorem last_index_of_ne_nil (str : Str) (hne : str ≠ []) (hlen : str.length < 2 ^ 64) :
    last_index str = str.length - 1 := by
  have hpos : 0 < str.length := List.length_pos.mpr hne
  unfold last_index
  have h : str.length + 2 ^ 64 - 1 = (str.length - 1) + 2 ^ 64 := by omega
  rw [h, Nat.add_mod_right, Nat.mod_eq_of_lt (by omega)]

/-- The check on a string that is not empty compares its last character with `/`. -/
theorem assert_of_ne_nil (str : Str) (hne : str ≠ []) (hlen : str.length < 2 ^ 64) :
    ASSERT_NO_TRAILING_SLASH str = some (decide (str.getLast? = some '/')) := by
  unfold ASSERT_NO_TRAILING_SLASH
  rw [last_index_of_ne_nil str hne hlen, ← List.getLast?_eq_getElem?]
  obtain ⟨c, hc⟩ : ∃ c, str.getLast? = some c := by
    cases h : str.getLast? with
    | none => exact absurd (List.getLast?_eq_none_iff.mp h) hne
    | some c => exact ⟨c, rfl⟩
  rw [hc]
  simp

/-- A path that ends in `/` does not pass the check. -/
theorem assert_trailing_slash (path : Str) (hlast : path.getLast? = some '/')
    (hlen : path.length < 2 ^ 64) : ASSERT_NO_TRAILING_SLASH path = some true := by
  have hne : path ≠ [] := by
    intro h
    rw [h] at hlast
    exact absurd hlast (by simp)
  rw [assert_of_ne_nil path hne hlen, hlast]
  simp

/-- C23: for a path whose last character is `/`, `get_stats`, `rename_object` (the path as
source, or as destination of a source that is not empty), `change_metadata`,
`read_directory`, `create_object`, `open` and `remove_object` return `-EINVAL` and leave the
state as it was: no request joins the log, and the object cache, the stats cache and the
open-file table are unchanged. -/
theorem C23_trailing_slash_rejected (w : PathOps.World) (now : Int) (st : PathOps.FsState)
    (path : Str) (hlast : path.getLast? = some '/') (hlen : path.length < 2 ^ 64) :
    (∀ s hints, PathOps.get_stats w now st path s hints = some (- EINVAL, none, st)) ∧
    (∀ to_path, PathOps.rename_object w now st path to_path = some (- EINVAL, st)) ∧
    (∀ from_path, from_path ≠ [] → from_path.length < 2 ^ 64 →
      PathOps.rename_object w now st from_path path = some (- EINVAL, st)) ∧
    (∀ mode uid gid, PathOps.change_metadata w now st path mode uid gid
      = some (- EINVAL, st)) ∧
    (∀ fuel, PathOps.read_directory w fuel st path = PathOps.Listing.done (- EINVAL) [] st) ∧
    (∀ mode, PathOps.create_object w now st path mode = some (- EINVAL, st)) ∧
    PathOps.fs_open w st path = some (- EINVAL, none, st) ∧
    (∀ hints, PathOps.remove_object w st path hints = some (- EINVAL, st)) := by
  have h := assert_trailing_slash path hlast hlen
  refine ⟨?_, ?_, ?_, ?_, ?_, ?_, ?_, ?_⟩
  · intro s hints
    simp only [PathOps.get_stats, h]
  · intro to_path
    simp only [PathOps.rename_object, h]
  · intro from_path hne hl
    simp only [PathOps.rename_object, assert_of_ne_nil from_path hne hl, h]
    cases decide (from_path.getLast? = some '/') <;> rfl
  · intro mode uid gid
    simp only [PathOps.change_metadata, h]
  · intro fuel
    simp only [PathOps.read_directory, h]
  · intro mode
    simp only [PathOps.create_object, h]
  · simp only [PathOps.fs_open, h]
  · intro hints
    simp only [PathOps.remove_object, h]

/-- C23 (witness): the path `a/` against the sample store. -/
theorem C23_trailing_slash_rejected_witness :
    PathOps.fs_open PathOps.sample_world PathOps.sample_state "a/".toList
      = some (- EINVAL, none, PathOps.sample_state) ∧
    PathOps.rename_object PathOps.sample_world 100 PathOps.sample_state "b".toList "a/".toList
      = some (- EINVAL, PathOps.sample_state) :=
  ⟨(C23_trailing_slash_rejected PathOps.sample_world 100 PathOps.sample_state "a/".toList
      (by decide) (by decide)).2.2.2.2.2.2.1,
   (C23_trailing_slash_rejected PathOps.sample_world 100 PathOps.sample_state "a/".toList
      (by decide) (by decide)).2.2.1 "b".toList (by decide) (by decide)⟩

/-! ## `rename_object` -/

/-- The requests `get_object` runs are HEAD requests. -/
theorem get_object_sent (w : PathOps.World) (now : Int) (st : PathOps.FsState) (path : Str)
    (hints : Nat) :
    ∃ heads : List PathOps.HttpRequest,
      (PathOps.get_object w now st path hints).2.sent = st.sent ++ heads ∧
      ∀ q ∈ heads, q.method = "HEAD".toList := by
  by_cases hv : ∃ o, mapFind path st.object_cache = some o ∧
      (0 < o.payload.expiry ∧ now < o.payload.expiry)
  · obtain ⟨o, hfind, hvalid⟩ := hv
    rw [get_object_valid w now st path hints o hfind hvalid]
    exact ⟨[], by simp, by simp⟩
  · rw [get_object_miss w now st path hints (fun o ho hvalid => hv ⟨o, ho, hvalid⟩)]
    obtain ⟨heads, final, hsent, _, hhead, _, _⟩ := fetch_object_heads w st path hints
    exact ⟨heads ++ [final], by rw [hsent, List.append_assoc], hhead⟩

/-- A path that is not empty and does not end in `/` passes the check. -/
theorem assert_no_trailing_slash (path : Str) (hne : path ≠ [])
    (hlast : path.getLast? ≠ some '/') (hlen : path.length < 2 ^ 64) :
    ASSERT_NO_TRAILING_SLASH path = some false := by
  rw [assert_of_ne_nil path hne hlen]
  simp [hlast]

/-- C24: for paths `from` and `to` that are not empty and do not end in `/`: when the lookup
of `from` finds no object `rename_object` returns `-ENOENT`; when it finds a directory,
`-EINVAL`; and when it finds an object that is not a directory and the lookup of `to` finds an
object, `rename_object` returns `-EEXIST` and every request it has run is a HEAD request, so
no PUT and no DELETE reaches the store. -/
theorem C24_rename_onto_existing (w : PathOps.World) (now : Int) (st : PathOps.FsState)
    (from_path to_path : Str)
    (hf : from_path ≠ [] ∧ from_path.getLast? ≠ some '/' ∧ from_path.length < 2 ^ 64)
    (ht : to_path ≠ [] ∧ to_path.getLast? ≠ some '/' ∧ to_path.length < 2 ^ 64) :
    ((PathOps.get_object w now st from_path HINT_NONE).1 = none →
      PathOps.rename_object w now st from_path to_path
        = some (- ENOENT, (PathOps.get_object w now st from_path HINT_NONE).2)) ∧
    (∀ obj, (PathOps.get_object w now st from_path HINT_NONE).1 = some obj →
      obj.payload.type = Early.object_type.OT_DIRECTORY →
      PathOps.rename_object w now st from_path to_path
        = some (- EINVAL, (PathOps.get_object w now st from_path HINT_NONE).2)) ∧
    (∀ obj, (PathOps.get_object w now st from_path HINT_NONE).1 = some obj →
      obj.payload.type ≠ Early.object_type.OT_DIRECTORY →
      (PathOps.get_object w now (PathOps.get_object w now st from_path HINT_NONE).2
        to_path HINT_NONE).1.isSome →
      ∃ st2 : PathOps.FsState, ∃ heads : List PathOps.HttpRequest,
        PathOps.rename_object w now st from_path to_path = some (- EEXIST, st2) ∧
        st2.sent = st.sent ++ heads ∧
        ∀ q ∈ heads, q.method = "HEAD".toList) := by
  have hfa := assert_no_trailing_slash from_path hf.1 hf.2.1 hf.2.2
  have hta := assert_no_trailing_slash to_path ht.1 ht.2.1 ht.2.2
  refine ⟨?_, ?_, ?_⟩
  · intro h1
    simp only [PathOps.rename_object, hfa, hta, h1]
  · intro obj h1 hdir
    simp only [PathOps.rename_object, hfa, hta, h1]
    rw [if_pos hdir]
  · intro obj h1 hdir h2
    refine ⟨(PathOps.get_object w now (PathOps.get_object w now st from_path HINT_NONE).2
      to_path HINT_NONE).2, ?_⟩
    obtain ⟨heads1, hs1, hh1⟩ := get_object_sent w now st from_path HINT_NONE
    obtain ⟨heads2, hs2, hh2⟩ := get_object_sent w now
      (PathOps.get_object w now st from_path HINT_NONE).2 to_path HINT_NONE
    refine ⟨heads1 ++ heads2, ?_, ?_, ?_⟩
    · simp only [PathOps.rename_object, hfa, hta, h1]
      rw [if_neg hdir, if_pos h2]
    · rw [hs2, hs1, List.append_assoc]
    · intro q hq
      rcases List.mem_append.mp hq with h | h
      · exact hh1 q h
      · exact hh2 q h

/-- C24 (witness): renaming `a` to `b` in the sample store, where both exist: `-EEXIST`
after three HEAD requests. -/
theorem C24_rename_onto_existing_witness :
    ∃ st2 : PathOps.FsState, ∃ heads : List PathOps.HttpRequest,
      PathOps.rename_object PathOps.sample_world 100 PathOps.sample_state
        "a".toList "b".toList = some (- EEXIST, st2) ∧
      st2.sent = [] ++ heads ∧ ∀ q ∈ heads, q.method = "HEAD".toList :=
  (C24_rename_onto_existing PathOps.sample_world 100 PathOps.sample_state
    "a".toList "b".toList ⟨by decide, by decide, by decide⟩
    ⟨by decide, by decide, by decide⟩).2.2 _ rfl (by decide) (by decide)

/-! ## `request`: the cancellation flag -/

/-- The callback `process_header` changes neither the flag nor the deadline. -/
theorem process_header_keeps (req : Base.Request) (data : Str) (terminated : Bool) :
    (Base.process_header req data terminated).2.canceled = req.canceled ∧
    (Base.process_header req data terminated).2.timeout = req.timeout := by
  unfold Base.process_header
  split_ifs
  all_goals first
    | exact ⟨rfl, rfl⟩
    | (simp only
       split <;> exact ⟨rfl, rfl⟩)

/-- The callback `process_output` changes neither the flag nor the deadline. -/
theorem process_output_keeps (req : Base.Request) (data : Str) :
    (Base.process_output req data).2.canceled = req.canceled ∧
    (Base.process_output req data).2.timeout = req.timeout := by
  unfold Base.process_output
  split_ifs <;> exact ⟨rfl, rfl⟩

/-- The callback `process_input` changes neither the flag nor the deadline. -/
theorem process_input_keeps (req : Base.Request) (size : Nat) :
    (Base.process_input req size).2.canceled = req.canceled ∧
    (Base.process_input req size).2.timeout = req.timeout := by
  unfold Base.process_input
  split_ifs <;> exact ⟨rfl, rfl⟩

/-- The call `check_timeout` sets the flag when the deadline is armed and passed, and changes
nothing else. -/
theorem check_timeout_eq (req : Base.Request) (now : Int) :
    Base.check_timeout req now
      = (decide (req.timeout ≠ 0 ∧ now > req.timeout),
         if req.timeout ≠ 0 ∧ now > req.timeout then { req with canceled := true } else req) := by
  unfold Base.check_timeout
  split_ifs with h
  · simp [h]
  · simp [h]

/-- A callback never clears the flag and never moves the deadline. -/
theorem callback_keeps (req : Base.Request) (c : Base.Callback) :
    (req.canceled = true → (c.apply req).canceled = true) ∧
    (c.apply req).timeout = req.timeout := by
  cases c with
  | header data terminated =>
    have h := process_header_keeps req data terminated
    exact ⟨fun hc => by simp only [Base.Callback.apply]; rw [h.1, hc], h.2⟩
  | output data =>
    have h := process_output_keeps req data
    exact ⟨fun hc => by simp only [Base.Callback.apply]; rw [h.1, hc], h.2⟩
  | input size =>
    have h := process_input_keeps req size
    exact ⟨fun hc => by simp only [Base.Callback.apply]; rw [h.1, hc], h.2⟩
  | check_timeout now =>
    simp only [Base.Callback.apply, check_timeout_eq]
    split_ifs
    · exact ⟨fun _ => rfl, rfl⟩
    · exact ⟨fun hc => hc, rfl⟩

/-- A cancelled request goes through `run` unchanged, with an error. -/
theorem run_of_canceled (cfg : Base.RunConfig) (has_hook : Bool)
    (transport : Nat → Base.Attempt) (req : Base.Request) (timeout_in_s : Int)
    (hc : req.canceled = true) :
    (Base.run cfg has_hook transport req timeout_in_s).thrown.isSome = true ∧
    (Base.run cfg has_hook transport req timeout_in_s).req = req ∧
    (Base.run cfg has_hook transport req timeout_in_s).trace = [] := by
  unfold Base.run
  split_ifs
  · exact ⟨rfl, rfl, rfl⟩
  · exact ⟨rfl, rfl, rfl⟩
  · exact ⟨rfl, rfl, rfl⟩

/-- No operation clears the flag. -/
theorem op_keeps_canceled (req : Base.Request) (op : Base.Op) (hc : req.canceled = true) :
    (op.apply req).canceled = true := by
  cases op with
  | init method =>
    simp only [Base.Op.apply, Base.init, hc, if_true]
  | set_url url => exact hc
  | set_input_buffer buffer size =>
    simp only [Base.Op.apply, Base.set_input_buffer]
    split_ifs <;> exact hc
  | callback c => exact (callback_keeps req c).1 hc
  | run cfg has_hook transport timeout_in_s =>
    simp only [Base.Op.apply]
    rw [(run_of_canceled cfg has_hook transport req timeout_in_s hc).2.1]
    exact hc

/-- No sequence of operations clears the flag. -/
theorem ops_keep_canceled (ops : List Base.Op) (req : Base.Request)
    (hc : req.canceled = true) : (ops.foldl Base.Op.apply req).canceled = true := by
  induction ops generalizing req with
  | nil => exact hc
  | cons op rest ih => exact ih (op.apply req) (op_keeps_canceled req op hc)

/-- C26: `check_timeout` returns true and sets the cancelled flag exactly when the deadline
is non-zero and the clock is past it, and changes nothing otherwise; and once the flag is
set, after any sequence of operations on the request (init, set_url, set_input_buffer, the
callbacks, check_timeout, run) the flag is still set, `init` and `run` end with an error and
the header, output and input callbacks return 0. -/
theorem C26_canceled_is_sticky (req : Base.Request) :
    (∀ now, Base.check_timeout req now
      = (decide (req.timeout ≠ 0 ∧ now > req.timeout),
         if req.timeout ≠ 0 ∧ now > req.timeout then { req with canceled := true } else req)) ∧
    (req.canceled = true → ∀ ops : List Base.Op,
      (ops.foldl Base.Op.apply req).canceled = true ∧
      (∀ method, (Base.init (ops.foldl Base.Op.apply req) method).1.isSome = true) ∧
      (∀ cfg has_hook transport timeout_in_s,
        (Base.run cfg has_hook transport (ops.foldl Base.Op.apply req)
          timeout_in_s).thrown.isSome = true) ∧
      (∀ data terminated,
        (Base.process_header (ops.foldl Base.Op.apply req) data terminated).1 = 0) ∧
      (∀ data, (Base.process_output (ops.foldl Base.Op.apply req) data).1 = 0) ∧
      (∀ size, (Base.process_input (ops.foldl Base.Op.apply req) size).1 = 0)) := by
  refine ⟨check_timeout_eq req, ?_⟩
  intro hc ops
  have h := ops_keep_canceled ops req hc
  refine ⟨h, ?_, ?_, ?_, ?_, ?_⟩
  · intro method
    simp only [Base.init, h, if_true, Option.isSome_some]
  · intro cfg has_hook transport timeout_in_s
    exact (run_of_canceled cfg has_hook transport _ timeout_in_s h).1
  · intro data terminated
    simp only [Base.process_header, h, if_true]
  · intro data
    simp only [Base.process_output, h, if_true]
  · intro size
    simp only [Base.process_input, h, if_true]

/-- C26 (witness): a request whose deadline 1030 has passed at 1031 is cancelled by
`check_timeout`; a later `init` and `run` leave the flag set. -/
theorem C26_canceled_is_sticky_witness :
    (([Base.Op.init Base.http_method.HTTP_GET,
       Base.Op.run Base.sample_run_config true Base.sample_transport 30].foldl Base.Op.apply
      (Base.check_timeout { Base.sample_request with timeout := 1030 } 1031).2).canceled = true) :=
  ((C26_canceled_is_sticky
    (Base.check_timeout { Base.sample_request with timeout := 1030 } 1031).2).2 (by decide)
    [Base.Op.init Base.http_method.HTTP_GET,
     Base.Op.run Base.sample_run_config true Base.sample_transport 30]).1

/-! ## `request::run`: the retry loop -/

/-- The flag after the callbacks of a transfer with the deadline `d`. -/
theorem callbacks_fold (d : Int) (cbs : List Base.Callback) (req : Base.Request)
    (ht : req.timeout = d) :
    (cbs.foldl Base.Callback.apply req).canceled
      = (req.canceled || cbs.any fun c =>
          match c with
          | .check_timeout now => decide (d ≠ 0 ∧ now > d)
          | _ => false) := by
  induction cbs generalizing req with
  | nil => simp
  | cons c rest ih =>
    rw [List.foldl_cons, ih (c.apply req) ((callback_keeps req c).2.trans ht), List.any_cons,
      ← Bool.or_assoc]
    congr 1
    cases c with
    | header data terminated =>
      simp only [Base.Callback.apply, (process_header_keeps req data terminated).1,
        Bool.or_false]
    | output data =>
      simp only [Base.Callback.apply, (process_output_keeps req data).1, Bool.or_false]
    | input size =>
      simp only [Base.Callback.apply, (process_input_keeps req size).1, Bool.or_false]
    | check_timeout now =>
      simp only [Base.Callback.apply, check_timeout_eq, ht]
      split_ifs with h
      · simp [h]
      · simp [h]

/-- A request that enters a pass not cancelled leaves the transfer cancelled exactly when a
call of `check_timeout` found the deadline passed. -/
theorem after_transfer_canceled (cfg : Base.RunConfig) (has_hook : Bool) (timeout_in_s : Int)
    (a : Base.Attempt) (req : Base.Request) (hc : req.canceled = false) :
    (Base.after_transfer cfg has_hook timeout_in_s a req).canceled
      = a.cancels cfg timeout_in_s := by
  unfold Base.after_transfer Base.Attempt.cancels Base.deadline
  simp only
  rw [callbacks_fold _ a.callbacks _ rfl, hc, Bool.false_or]

/-- The condition of the loop is that of the list of the spec. -/
theorem is_retryable_iff (r : Nat) : Base.is_retryable r = true ↔ r ∈ Base.listed_errors := by
  simp [Base.is_retryable, Base.listed_errors, or_assoc]

/-- After the loop: an error is thrown exactly when `r` is not `CURLE_OK`. -/
theorem run_finish_thrown (req : Base.Request) (r request_size : Nat)
    (trace : List Base.RunEvent) :
    ((Base.run_finish req r request_size trace).thrown.isSome = true ↔ r ≠ Base.CURLE_OK) ∧
    (Base.run_finish req r request_size trace).trace = trace := by
  unfold Base.run_finish
  by_cases h : r ≠ Base.CURLE_OK
  · rw [if_pos h]
    exact ⟨⟨fun _ => h, fun _ => rfl⟩, rfl⟩
  · rw [if_neg h]
    exact ⟨⟨fun hs => (Bool.false_ne_true hs).elim, fun hr => absurd hr h⟩, rfl⟩

/-- The attempts of the loop: how many there are, what is seen of them, which of them is
followed by another and when the run ends with an error. -/
theorem run_loop_spec (cfg : Base.RunConfig) (has_hook : Bool)
    (transport : Nat → Base.Attempt) (timeout_in_s : Int) :
    ∀ (passes iter : Nat) (req : Base.Request) (r request_size : Nat)
      (trace : List Base.RunEvent), req.canceled = false →
      ∃ k : Nat, k ≤ passes ∧ (k = 0 ↔ passes = 0) ∧
        (Base.run_loop cfg has_hook transport timeout_in_s passes iter req r request_size
          trace).trace = trace ++ Base.trace_from has_hook iter k ∧
        (∀ j, j < k → (j + 1 < k ↔ j + 1 < passes ∧
          (transport (iter + j)).cancels cfg timeout_in_s = false ∧
          (transport (iter + j)).asks_retry has_hook)) ∧
        ((Base.run_loop cfg has_hook transport timeout_in_s passes iter req r request_size
            trace).thrown.isSome = true ↔
          (k = 0 ∧ r ≠ Base.CURLE_OK) ∨
          (0 < k ∧ ((transport (iter + k - 1)).cancels cfg timeout_in_s = true ∨
            (transport (iter + k - 1)).r ≠ Base.CURLE_OK))) := by
  intro passes
  induction passes with
  | zero =>
    intro iter req r request_size trace _
    refine ⟨0, le_refl _, Iff.rfl, ?_, ?_, ?_⟩
    · simp [Base.run_loop, Base.trace_from, (run_finish_thrown req r request_size trace).2]
    · intro j hj
      omega
    · simp only [Base.run_loop]
      rw [(run_finish_thrown req r request_size trace).1]
      simp
  | succ passes ih =>
    intro iter req r request_size trace hc
    have hcanc := after_transfer_canceled cfg has_hook timeout_in_s (transport iter) req hc
    have hcont : ∀ (res : Base.RunResult) (k' : Nat), k' ≤ passes → (k' = 0 ↔ passes = 0) →
        res.trace = (trace ++ (if has_hook then [Base.RunEvent.pre_run iter] else [])
          ++ [Base.RunEvent.perform iter]) ++ Base.trace_from has_hook (iter + 1) k' →
        (∀ j, j < k' → (j + 1 < k' ↔ j + 1 < passes ∧
          (transport (iter + 1 + j)).cancels cfg timeout_in_s = false ∧
          (transport (iter + 1 + j)).asks_retry has_hook)) →
        (res.thrown.isSome = true ↔
          (k' = 0 ∧ (transport iter).r ≠ Base.CURLE_OK) ∨
          (0 < k' ∧ ((transport (iter + 1 + k' - 1)).cancels cfg timeout_in_s = true ∨
            (transport (iter + 1 + k' - 1)).r ≠ Base.CURLE_OK))) →
        (transport iter).cancels cfg timeout_in_s = false →
        (transport iter).asks_retry has_hook →
        ∃ k : Nat, k ≤ passes + 1 ∧ (k = 0 ↔ passes + 1 = 0) ∧
          res.trace = trace ++ Base.trace_from has_hook iter k ∧
          (∀ j, j < k → (j + 1 < k ↔ j + 1 < passes + 1 ∧
            (transport (iter + j)).cancels cfg timeout_in_s = false ∧
            (transport (iter + j)).asks_retry has_hook)) ∧
          (res.thrown.isSome = true ↔
            (k = 0 ∧ r ≠ Base.CURLE_OK) ∨
            (0 < k ∧ ((transport (iter + k - 1)).cancels cfg timeout_in_s = true ∨
              (transport (iter + k - 1)).r ≠ Base.CURLE_OK))) := by
      intro res k' hk hk0 htr hnext hthrown hcf hask
      refine ⟨k' + 1, by omega, by omega, ?_, ?_, ?_⟩
      · rw [htr]
        simp [Base.trace_from, List.append_assoc]
      · intro j hj
        cases j with
        | zero =>
          simp only [Nat.add_zero]
          constructor
          · intro h
            exact ⟨by omega, hcf, hask⟩
          · intro h
            omega
        | succ j =>
          have hidx : iter + 1 + j = iter + (j + 1) := by omega
          have h := hnext j (by omega)
          rw [hidx] at h
          constructor
          · intro hlt
            have h2 := h.mp (by omega)
            exact ⟨by omega, h2.2⟩
          · intro hr
            have h2 := h.mpr ⟨by omega, hr.2⟩
            omega
      · rw [hthrown]
        have hidx : iter + 1 + k' - 1 = iter + (k' + 1) - 1 := by omega
        rw [hidx]
        constructor
        · rintro (⟨h0, hr⟩ | ⟨hpos, h⟩)
          · subst h0
            exact Or.inr ⟨by omega, Or.inr (by simpa using hr)⟩
          · exact Or.inr ⟨by omega, h⟩
        · rintro (⟨h0, _⟩ | ⟨_, h⟩)
          · omega
          · by_cases h0 : k' = 0
            · subst h0
              simp only [Nat.zero_add, Nat.add_sub_cancel] at h
              rcases h with h | h
              · rw [hcf] at h
                exact absurd h (by decide)
              · exact Or.inl ⟨rfl, h⟩
            · exact Or.inr ⟨by omega, h⟩
    have hstop : ∀ (res : Base.RunResult),
        res.trace = trace ++ (if has_hook then [Base.RunEvent.pre_run iter] else [])
          ++ [Base.RunEvent.perform iter] →
        (res.thrown.isSome = true ↔ ((transport iter).cancels cfg timeout_in_s = true ∨
          (transport iter).r ≠ Base.CURLE_OK)) →
        ¬ ((transport iter).cancels cfg timeout_in_s = false ∧
          (transport iter).asks_retry has_hook) →
        ∃ k : Nat, k ≤ passes + 1 ∧ (k = 0 ↔ passes + 1 = 0) ∧
          res.trace = trace ++ Base.trace_from has_hook iter k ∧
          (∀ j, j < k → (j + 1 < k ↔ j + 1 < passes + 1 ∧
            (transport (iter + j)).cancels cfg timeout_in_s = false ∧
            (transport (iter + j)).asks_retry has_hook)) ∧
          (res.thrown.isSome = true ↔
            (k = 0 ∧ r ≠ Base.CURLE_OK) ∨
            (0 < k ∧ ((transport (iter + k - 1)).cancels cfg timeout_in_s = true ∨
              (transport (iter + k - 1)).r ≠ Base.CURLE_OK))) := by
      intro res htr hthrown hno
      refine ⟨1, by omega, by omega, ?_, ?_, ?_⟩
      · rw [htr]
        simp [Base.trace_from, List.append_assoc]
      · intro j hj
        have hj0 : j = 0 := by omega
        subst hj0
        simp only [Nat.add_zero]
        constructor
        · intro h
          omega
        · intro h
          exact absurd h.2 hno
      · rw [hthrown]
        simp
    simp only [Base.run_loop]
    by_cases hcf : (transport iter).cancels cfg timeout_in_s = true
    · rw [if_pos (hcanc.trans hcf)]
      apply hstop
      · rfl
      · exact ⟨fun _ => Or.inl hcf, fun _ => rfl⟩
      · rintro ⟨h, _⟩
        rw [hcf] at h
        exact absurd h (by decide)
    · have hcf' : (transport iter).cancels cfg timeout_in_s = false := by
        simpa using hcf
      have hreq : (Base.after_transfer cfg has_hook timeout_in_s (transport iter) req).canceled
          = false := hcanc.trans hcf'
      rw [if_neg (by rw [hreq]; decide)]
      by_cases hretry : Base.is_retryable (transport iter).r = true
      · rw [if_pos hretry]
        obtain ⟨k', h1, h2, h3, h4, h5⟩ := ih (iter + 1) _ (transport iter).r
          (Base.size_after has_hook (transport iter) req request_size)
          (trace ++ (if has_hook then [Base.RunEvent.pre_run iter] else [])
            ++ [Base.RunEvent.perform iter]) hreq
        exact hcont _ k' h1 h2 h3 h4 h5 hcf' (Or.inl ((is_retryable_iff _).mp hretry))
      · rw [if_neg hretry]
        have hnot : (transport iter).r ∉ Base.listed_errors :=
          fun h => hretry ((is_retryable_iff _).mpr h)
        by_cases hok : (transport iter).r = Base.CURLE_OK
        · rw [if_pos hok]
          by_cases hsr : has_hook = true ∧ (transport iter).should_retry = true
          · rw [if_pos hsr]
            obtain ⟨k', h1, h2, h3, h4, h5⟩ := ih (iter + 1)
              { Base.after_transfer cfg has_hook timeout_in_s (transport iter) req with
                response_code := (transport iter).response_code
                last_modified := (transport iter).last_modified }
              (transport iter).r
              (Base.size_after has_hook (transport iter) req request_size)
              (trace ++ (if has_hook then [Base.RunEvent.pre_run iter] else [])
                ++ [Base.RunEvent.perform iter]) hreq
            exact hcont _ k' h1 h2 h3 h4 h5 hcf' (Or.inr ⟨hok, hsr⟩)
          · rw [if_neg hsr]
            apply hstop
            · exact (run_finish_thrown _ _ _ _).2
            · rw [(run_finish_thrown _ _ _ _).1]
              exact ⟨fun h => Or.inr h, fun h => h.elim (fun hx => absurd hx hcf) id⟩
            · rintro ⟨_, h | h⟩
              · exact hnot h
              · exact hsr h.2
        · rw [if_neg hok]
          apply hstop
          · exact (run_finish_thrown _ _ _ _).2
          · rw [(run_finish_thrown _ _ _ _).1]
            exact ⟨fun h => Or.inr h, fun _ => hok⟩
          · rintro ⟨_, h | h⟩
            · exact hnot h
            · exact hok h.1

/-- C25: `run` makes `n` attempts with `n ≤ max_transfer_retries`, and it makes a first
attempt exactly when the URL and the method are set, the request is not cancelled and
`max_transfer_retries` is positive; what is seen of the attempts is, attempt by attempt from
0 on, the hook's `pre_run(this, i)` and then the transfer; attempt `i` is followed by another
exactly when `i + 1 < max_transfer_retries`, the request was not cancelled during attempt
`i`, and attempt `i` failed with one of the listed errors or succeeded with `should_retry`
returning true; and `run` throws exactly when the URL or the method is not set, or the
request was cancelled on entry, or there was an attempt and the last one was cancelled or
its transport result is not `CURLE_OK`. -/
theorem C25_run_retries (cfg : Base.RunConfig) (has_hook : Bool)
    (transport : Nat → Base.Attempt) (req : Base.Request) (timeout_in_s : Int) :
    ∃ n : Nat, n ≤ cfg.max_transfer_retries.toNat ∧
      (0 < n ↔ req.url ≠ [] ∧ req.method ≠ [] ∧ req.canceled = false ∧
        0 < cfg.max_transfer_retries) ∧
      (Base.run cfg has_hook transport req timeout_in_s).trace = Base.trace_from has_hook 0 n ∧
      (∀ i, i < n → (i + 1 < n ↔ (i : Int) + 1 < cfg.max_transfer_retries ∧
        (transport i).cancels cfg timeout_in_s = false ∧
        (transport i).asks_retry has_hook)) ∧
      ((Base.run cfg has_hook transport req timeout_in_s).thrown.isSome = true ↔
        req.url = [] ∨ req.method = [] ∨ req.canceled = true ∨
        (0 < n ∧ ((transport (n - 1)).cancels cfg timeout_in_s = true ∨
          (transport (n - 1)).r ≠ Base.CURLE_OK))) := by
  by_cases hurl : req.url = []
  · refine ⟨0, Nat.zero_le _, ⟨fun h => absurd h (lt_irrefl 0), fun h => absurd hurl h.1⟩,
      ?_, fun i hi => by omega, ?_⟩
    · simp only [Base.run, if_pos hurl]
      rfl
    · simp only [Base.run, if_pos hurl]
      exact ⟨fun _ => Or.inl hurl, fun _ => rfl⟩
  by_cases hmethod : req.method = []
  · refine ⟨0, Nat.zero_le _,
      ⟨fun h => absurd h (lt_irrefl 0), fun h => absurd hmethod h.2.1⟩,
      ?_, fun i hi => by omega, ?_⟩
    · simp only [Base.run, if_neg hurl, if_pos hmethod]
      rfl
    · simp only [Base.run, if_neg hurl, if_pos hmethod]
      exact ⟨fun _ => Or.inr (Or.inl hmethod), fun _ => rfl⟩
  by_cases hc : req.canceled = true
  · obtain ⟨h1, _, h3⟩ := run_of_canceled cfg has_hook transport req timeout_in_s hc
    refine ⟨0, Nat.zero_le _,
      ⟨fun h => absurd h (lt_irrefl 0), fun h => by rw [hc] at h; exact absurd h.2.2.1 (by decide)⟩,
      ?_, fun i hi => by omega, ?_⟩
    · rw [h3]
      rfl
    · exact ⟨fun _ => Or.inr (Or.inr (Or.inl hc)), fun _ => h1⟩
  · have hc2 : req.canceled = false := by simpa using hc
    obtain ⟨k, h1, h2, h3, h4, h5⟩ := run_loop_spec cfg has_hook transport timeout_in_s
      cfg.max_transfer_retries.toNat 0 req Base.CURLE_OK 0 [] hc2
    have hrun : Base.run cfg has_hook transport req timeout_in_s
        = Base.run_loop cfg has_hook transport timeout_in_s cfg.max_transfer_retries.toNat 0
            req Base.CURLE_OK 0 [] := by
      unfold Base.run
      rw [if_neg hurl, if_neg hmethod, if_neg (by rw [hc2]; decide)]
    rw [hrun]
    refine ⟨k, h1, ?_, by simpa using h3, ?_, ?_⟩
    · constructor
      · intro hk
        refine ⟨hurl, hmethod, hc2, ?_⟩
        have : cfg.max_transfer_retries.toNat ≠ 0 := fun h0 => by
          have := h2.mpr h0
          omega
        omega
      · rintro ⟨_, _, _, hpos⟩
        have : k ≠ 0 := fun h0 => by
          have := h2.mp h0
          omega
        omega
    · intro i hi
      have h := h4 i hi
      rw [Nat.zero_add] at h
      rw [h]
      constructor
      · rintro ⟨hb, hr⟩
        exact ⟨by omega, hr⟩
      · rintro ⟨hb, hr⟩
        exact ⟨by omega, hr⟩
    · rw [h5]
      simp only [Nat.zero_add]
      constructor
      · rintro (⟨_, h⟩ | h)
        · exact absurd rfl h
        · exact Or.inr (Or.inr (Or.inr h))
      · rintro (h | h | h | h)
        · exact absurd h hurl
        · exact absurd h hmethod
        · exact absurd h hc
        · exact Or.inr h

/-- C25 (witness): five attempts allowed, the first cannot connect, the second succeeds:
`pre_run(0)`, transfer, `pre_run(1)`, transfer, and no error. -/
theorem C25_run_retries_witness :
    (∃ n : Nat, n ≤ Base.sample_run_config.max_transfer_retries.toNat ∧
      (0 < n ↔ Base.sample_request.url ≠ [] ∧ Base.sample_request.method ≠ [] ∧
        Base.sample_request.canceled = false ∧
        0 < Base.sample_run_config.max_transfer_retries) ∧
      (Base.run Base.sample_run_config true Base.sample_transport Base.sample_request 30).trace
        = Base.trace_from true 0 n ∧
      (∀ i, i < n → (i + 1 < n ↔
        (i : Int) + 1 < Base.sample_run_config.max_transfer_retries ∧
        (Base.sample_transport i).cancels Base.sample_run_config 30 = false ∧
        (Base.sample_transport i).asks_retry true)) ∧
      ((Base.run Base.sample_run_config true Base.sample_transport
          Base.sample_request 30).thrown.isSome = true ↔
        Base.sample_request.url = [] ∨ Base.sample_request.method = [] ∨
        Base.sample_request.canceled = true ∨
        (0 < n ∧ ((Base.sample_transport (n - 1)).cancels Base.sample_run_config 30 = true ∨
          (Base.sample_transport (n - 1)).r ≠ Base.CURLE_OK)))) ∧
    (Base.run Base.sample_run_config true Base.sample_transport Base.sample_request 30).trace
      = [Base.RunEvent.pre_run 0, Base.RunEvent.perform 0,
         Base.RunEvent.pre_run 1, Base.RunEvent.perform 1] ∧
    (Base.run Base.sample_run_config true Base.sample_transport Base.sample_request 30).thrown
      = none :=
  ⟨C25_run_retries Base.sample_run_config true Base.sample_transport Base.sample_request 30,
    by decide, by decide⟩

/-- C25 (counterexample): five attempts are allowed and the first ends in `CURLE_RECV_ERROR`,
a listed error, but `check_timeout` has found the deadline passed during it: no second
attempt follows. And a request without URL makes `run` throw although it is not cancelled and
no attempt was made. -/
theorem C25_cancelled_attempt_is_not_retried :
    (1 : Int) < Base.sample_run_config.max_transfer_retries ∧
    (Base.sample_transport_timeout 0).r ∈ Base.listed_errors ∧
    (Base.run Base.sample_run_config true Base.sample_transport_timeout
      Base.sample_request 30).trace = [Base.RunEvent.pre_run 0, Base.RunEvent.perform 0] ∧
    (Base.run Base.sample_run_config true Base.sample_transport
      (Base.set_url Base.sample_request []) 30).thrown.isSome = true ∧
    (Base.run Base.sample_run_config true Base.sample_transport
      (Base.set_url Base.sample_request []) 30).trace = [] ∧
    (Base.set_url Base.sample_request []).canceled = false := by
  decide

/-! ## `aws_impl::sign`: the string to sign -/

/-- The loop of lines 140-142 appends the lines of the entries that pass the test. -/
theorem foldl_header_lines (p : Str × Str → Bool) (f : Str × Str → Str)
    (l : List (Str × Str)) (acc : Str) :
    l.foldl (fun acc e => if p e then acc ++ f e else acc) acc
      = acc ++ ((l.filter p).map f).flatten := by
  induction l generalizing acc with
  | nil => simp
  | cons e rest ih =>
    rw [List.foldl_cons, ih]
    by_cases h : p e = true
    · simp [h, List.filter_cons, List.append_assoc]
    · simp [h, List.filter_cons]

/-- Storing under a key that does not pass a test leaves the entries that pass it. -/
theorem filter_mapInsert_of_false (p : Str × Str → Bool) (k v : Str) (m : List (Str × Str))
    (hk : ∀ v2, p (k, v2) = false) : (mapInsert k v m).filter p = m.filter p := by
  induction m with
  | nil => simp [mapInsert, hk]
  | cons e rest ih =>
    obtain ⟨k2, v2⟩ := e
    unfold mapInsert
    by_cases h1 : k2 = k
    · subst h1
      simp [List.filter_cons, hk]
    · by_cases h2 : k < k2
      · simp [h1, h2, List.filter_cons, hk]
      · simp [h1, h2, List.filter_cons, ih]

/-- The test of line 141: a value that is not empty and a name that begins with the
prefix. -/
theorem is_canonical_iff (e : Str × Str) :
    Aws.is_canonical e = decide (e.2 ≠ [] ∧ Aws.AWS_HEADER_PREFIX <+: e.1) := by
  unfold Aws.is_canonical
  congr 1
  rw [List.prefix_iff_eq_take]
  exact propext ⟨fun h => ⟨h.1, h.2.symm⟩, fun h => ⟨h.1, h.2.symm⟩⟩

/-- The keys of the entries of a map in key order that pass a test are in key order. -/
theorem sortedKeys_filter (p : Str × Str → Bool) (m : List (Str × Str)) (hm : SortedKeys m) :
    ((m.filter p).map Prod.fst).Pairwise (· < ·) := by
  unfold SortedKeys mapKeys at hm
  exact hm.sublist ((List.filter_sublist m).map Prod.fst)

/-- C27: the text `sign` authenticates is the method, `\n`, the Content-MD5 header, `\n`,
the Content-Type header, `\n`, the date, `\n`, then one line `key:value\n` for every header
of the request whose value is not empty and whose name, as stored, begins with `x-amz-`, in
the order of the header map, then the URL; an absent Content-MD5 or Content-Type gives the
empty string; and in a header map in key order the names of these lines ascend. -/
theorem C27_string_to_sign (req : Request) (date : Str) :
    Aws.to_sign req date
      = req.method ++ ['\n'] ++ Aws.safe_find req.headers "Content-MD5".toList ++ ['\n']
        ++ Aws.safe_find req.headers "Content-Type".toList ++ ['\n'] ++ date ++ ['\n']
        ++ ((req.headers.filter fun e =>
              decide (e.2 ≠ [] ∧ Aws.AWS_HEADER_PREFIX <+: e.1)).map Aws.header_line).flatten
        ++ req.url ∧
    (mapFind "Content-MD5".toList req.headers = none →
      Aws.safe_find req.headers "Content-MD5".toList = []) ∧
    (mapFind "Content-Type".toList req.headers = none →
      Aws.safe_find req.headers "Content-Type".toList = []) ∧
    (SortedKeys req.headers →
      ((req.headers.filter fun e =>
          decide (e.2 ≠ [] ∧ Aws.AWS_HEADER_PREFIX <+: e.1)).map Prod.fst).Pairwise
        (· < ·)) := by
  refine ⟨?_, ?_, ?_, ?_⟩
  · have hfun : (fun e : Str × Str => decide (e.2 ≠ [] ∧ Aws.AWS_HEADER_PREFIX <+: e.1))
        = Aws.is_canonical := by
      funext e
      exact (is_canonical_iff e).symm
    rw [hfun]
    unfold Aws.to_sign
    simp only [Request.set_header]
    rw [foldl_header_lines Aws.is_canonical (fun e => e.1 ++ [':'] ++ e.2 ++ ['\n']),
      filter_mapInsert_of_false Aws.is_canonical "Date".toList date req.headers
        (by intro v2; rw [is_canonical_iff]; simp; intro _; decide)]
    unfold Aws.safe_find
    rw [mapFind_mapInsert_ne "Date".toList "Content-MD5".toList date req.headers (by decide),
      mapFind_mapInsert_ne "Date".toList "Content-Type".toList date req.headers (by decide)]
    rfl
  · intro h
    unfold Aws.safe_find
    rw [h]
  · intro h
    unfold Aws.safe_find
    rw [h]
  · intro hs
    exact sortedKeys_filter _ req.headers hs

/-- C27 (witness): the sample PUT, whose header map is in key order and has no
Content-MD5. -/
theorem C27_string_to_sign_witness :
    Aws.safe_find Aws.sample_request.headers "Content-MD5".toList = [] ∧
    ((Aws.sample_request.headers.filter fun e =>
        decide (e.2 ≠ [] ∧ Aws.AWS_HEADER_PREFIX <+: e.1)).map Prod.fst).Pairwise (· < ·) :=
  ⟨(C27_string_to_sign Aws.sample_request "D".toList).2.1 (by decide),
   (C27_string_to_sign Aws.sample_request "D".toList).2.2.2 (by
      unfold SortedKeys mapKeys
      decide)⟩

/-- C27 (counterexample): a header `x-amz-acl` with an empty value gets no line, and the
name `x-amz-meta-Color` is written with its upper-case letter: neither string is the one
the spec words. -/
theorem C27_sign_skips_empty_and_keeps_case :
    Aws.to_sign Aws.sample_request "D".toList ≠ Aws.to_sign_spec Aws.sample_request "D".toList ∧
    Aws.to_sign Aws.sample_request_upper "D".toList
      ≠ Aws.to_sign_spec Aws.sample_request_upper "D".toList := by
  decide

/-! ## `read_directory` -/

/-- The common prefixes `pre ++ d ++ "/"` give the names `d`. -/
theorem collect_prefix_entries (pre : Str) (dirs : List Str) :
    PathOps.collect (PathOps.prefix_entry pre.length) (dirs.map fun d => pre ++ d ++ ['/'])
      = some (dirs.map fun d => (pre ++ d, d)) := by
  induction dirs with
  | nil => rfl
  | cons d rest ih =>
    have h1 : PathOps.prefix_entry pre.length (pre ++ d ++ ['/']) = some (pre ++ d, d) := by
      unfold PathOps.prefix_entry
      rw [if_pos (by simp)]
      have hlen : (pre ++ d ++ ['/']).length - 1 = (pre ++ d).length := by simp
      have hlen2 : (pre ++ d ++ ['/']).length - pre.length - 1 = d.length := by
        simp only [List.length_append, List.length_singleton]
        omega
      rw [hlen, hlen2, List.take_left, List.append_assoc, List.drop_left, List.take_left]
    simp only [List.map_cons, PathOps.collect, h1, ih]

/-- The keys `pre ++ f` give the names `f`, but for the key `pre` itself. -/
theorem collect_key_entries (pre : Str) (files : List Str) :
    PathOps.collect (PathOps.key_entry pre) (files.map fun f => pre ++ f)
      = some (files.map fun f => if f = [] then none else some (pre ++ f, f)) := by
  induction files with
  | nil => rfl
  | cons f rest ih =>
    have h1 : PathOps.key_entry pre (pre ++ f)
        = some (if f = [] then none else some (pre ++ f, f)) := by
      unfold PathOps.key_entry
      by_cases hf : f = []
      · subst hf
        simp
      · have hne : pre ≠ pre ++ f := by
          intro h
          have := congrArg List.length h
          simp only [List.length_append] at this
          exact hf (List.length_eq_zero.mp (by omega))
        rw [if_neg hne, if_pos (by simp), List.drop_left, if_neg hf]
    simp only [List.map_cons, PathOps.collect, h1, ih]

/-- The entries found among the keys. -/
theorem found_entries (pre : Str) (files : List Str) :
    (files.map fun f => if f = [] then none else some (pre ++ f, f)).filterMap id
      = (files.filter (fun f => decide (f ≠ []))).map (fun f => (pre ++ f, f)) := by
  induction files with
  | nil => rfl
  | cons f rest ih =>
    by_cases hf : f = []
    · subst hf
      simpa using ih
    · simp only [List.map_cons, if_neg hf, List.filterMap_cons, id, List.filter_cons]
      simpa [hf] using ih

/-- One pass of the loop of `read_directory` on a page that names `n`. -/
theorem list_loop_step (w : PathOps.World) (pre : Str) (fuel : Nat) (marker : Str)
    (st : PathOps.FsState) (entries : List Str) (n : PathOps.Names)
    (hn : PathOps.page_names pre (PathOps.served w pre st.sent.length marker) n) :
    PathOps.list_loop w pre (fuel + 1) marker st entries
      = if (PathOps.served w pre st.sent.length marker).is_truncated = "true".toList then
          PathOps.list_loop w pre fuel (PathOps.served w pre st.sent.length marker).next_marker
            (PathOps.after_page w pre marker st n)
            (entries ++ (n.dirs ++ n.files.filter (fun f => decide (f ≠ []))))
        else PathOps.Listing.done 0
          (entries ++ (n.dirs ++ n.files.filter (fun f => decide (f ≠ []))))
          (PathOps.after_page w pre marker st n) := by
  obtain ⟨hp, hk⟩ := hn
  unfold PathOps.served at hp hk ⊢
  simp only [PathOps.list_loop, PathOps.run, hp, hk, collect_prefix_entries,
    collect_key_entries, found_entries]
  simp only [List.map_map, Function.comp_def, PathOps.after_page, List.map_id',
    List.append_assoc, decide_eq_true_eq]
  split_ifs <;> rfl

/-- The loop of `read_directory` over the pages the store serves. -/
theorem list_loop_lists (w : PathOps.World) (pre : Str) :
    ∀ (rest : List PathOps.Names) (first : PathOps.Names) (fuel : Nat) (marker : Str)
      (st : PathOps.FsState) (entries : List Str),
      PathOps.Lists w pre st.sent.length marker first rest → rest.length < fuel →
      ∃ st2 : PathOps.FsState,
        PathOps.list_loop w pre fuel marker st entries
          = PathOps.Listing.done 0 (entries ++ PathOps.reported (first :: rest)) st2 ∧
        st2.object_cache = st.object_cache ∧ st2.files = st.files := by
  intro rest
  induction rest with
  | nil =>
    intro first fuel marker st entries hl hfuel
    obtain ⟨fuel, rfl⟩ : ∃ n, fuel = n + 1 := ⟨fuel - 1, by simp at hfuel; omega⟩
    obtain ⟨htr, hn⟩ := hl
    rw [list_loop_step w pre fuel marker st entries first hn, if_neg htr]
    exact ⟨PathOps.after_page w pre marker st first, by simp [PathOps.reported], rfl, rfl⟩
  | cons m rest ih =>
    intro first fuel marker st entries hl hfuel
    obtain ⟨fuel, rfl⟩ : ∃ n, fuel = n + 1 := ⟨fuel - 1, by simp at hfuel; omega⟩
    obtain ⟨htr, hn, hrest⟩ := hl
    rw [list_loop_step w pre fuel marker st entries first hn, if_pos htr]
    obtain ⟨st2, h2, hc, hf⟩ := ih m fuel
      (PathOps.served w pre st.sent.length marker).next_marker
      (PathOps.after_page w pre marker st first)
      (entries ++ (first.dirs ++ first.files.filter (fun f => decide (f ≠ []))))
      (by simpa [PathOps.after_page] using hrest) (by simp at hfuel; omega)
    refine ⟨st2, ?_, hc, hf⟩
    rw [h2]
    simp [PathOps.reported, List.append_assoc]

/-- C28: when the store serves the pages `first :: rest` of the listing of the directory `p`
(each sub-directory `d` as the common prefix `p/d/`, each file `f` as the key `p/f`, every page
but the last truncated), the code of `read_directory` after the trailing-slash check returns
0 once `fuel` passes suffice, and the names handed to the filler are exactly, page by page,
the sub-directories and then the files of the page, but for the key that is `p/` itself;
no other entry is reported. The object cache and the open-file table are unchanged. For a
path that is not empty and does not end in `/` this is what `read_directory` does. -/
theorem C28_read_directory_entries (w : PathOps.World) (st : PathOps.FsState) (p : Str)
    (first : PathOps.Names) (rest : List PathOps.Names) (fuel : Nat)
    (hl : PathOps.Lists w (PathOps.dir_prefix p) st.sent.length [] first rest)
    (hfuel : rest.length < fuel) :
    (∃ st2 : PathOps.FsState,
      PathOps.read_directory_body w fuel st p
        = PathOps.Listing.done 0 (PathOps.reported (first :: rest)) st2 ∧
      st2.object_cache = st.object_cache ∧ st2.files = st.files) ∧
    (p ≠ [] → p.getLast? ≠ some '/' → p.length < 2 ^ 64 →
      PathOps.read_directory w fuel st p = PathOps.read_directory_body w fuel st p) := by
  constructor
  · obtain ⟨st2, h, hc, hf⟩ :=
      list_loop_lists w (PathOps.dir_prefix p) rest first fuel [] st [] hl hfuel
    exact ⟨st2, by simpa [PathOps.read_directory_body, PathOps.dir_prefix] using h, hc, hf⟩
  · intro hne hlast hlen
    unfold PathOps.read_directory
    rw [assert_no_trailing_slash p hne hlast hlen]

/-- C28 (witness): the bucket root with the key `a` and the common prefix `b/` on one
page: the entries are `b` and `a`. -/
theorem C28_read_directory_entries_witness :
    ∃ st2 : PathOps.FsState,
      PathOps.read_directory_body PathOps.sample_world 5 PathOps.sample_state []
        = PathOps.Listing.done 0 ["b".toList, "a".toList] st2 ∧
      st2.object_cache = PathOps.sample_state.object_cache ∧
      st2.files = PathOps.sample_state.files :=
  (C28_read_directory_entries PathOps.sample_world PathOps.sample_state []
    { dirs := ["b".toList], files := ["a".toList] } [] 5
    ⟨by decide, rfl, rfl⟩ (by decide)).1

/-- C28 (counterexample): the directory `d` with the key `d/a` and the common prefix
`d/b/`, and the bucket root with the key `a` and the common prefix `b/`: the entries are
`b` and `a`, and neither `.` nor `..` is among them. -/
theorem C28_no_dot_entries :
    PathOps.read_directory PathOps.sample_world_d 5 PathOps.sample_state "d".toList
      = PathOps.Listing.done 0 ["b".toList, "a".toList]
          (PathOps.after_page PathOps.sample_world_d "d/".toList [] PathOps.sample_state
            { dirs := ["b".toList], files := ["a".toList] }) ∧
    PathOps.read_directory_body PathOps.sample_world 5 PathOps.sample_state []
      = PathOps.Listing.done 0 ["b".toList, "a".toList]
          (PathOps.after_page PathOps.sample_world [] [] PathOps.sample_state
            { dirs := ["b".toList], files := ["a".toList] }) ∧
    ".".toList ∉ ["b".toList, "a".toList] ∧ "..".toList ∉ ["b".toList, "a".toList] := by
  decide

/-- C29: for the empty path, which `read_directory` takes for the bucket root, the index
`size() - 1` of the trailing-slash check is `2^64 - 1` and lies outside the string: the
check, and with it `read_directory`, reads outside its argument. -/
theorem C29_empty_path_index_outside :
    last_index [] = 2 ^ 64 - 1 ∧ ¬ (last_index [] < ([] : Str).length) ∧
    ASSERT_NO_TRAILING_SLASH [] = none ∧
    (∀ (w : PathOps.World) (fuel : Nat) (st : PathOps.FsState),
      PathOps.read_directory w fuel st [] = PathOps.Listing.undefined) := by
  refine ⟨by decide, by decide, by decide, ?_⟩
  intro w fuel st
  rfl

/-! ## The later binding: keys without the `user.` prefix -/

/-- C30: the key `abc`, shorter than `user.`, makes `set_metadata`, `get_metadata` and
`remove_metadata` throw `std::out_of_range` (as does the empty key) where `-EINVAL` and
`-ENOATTR` are due; and `remove_metadata` of `xxxx.color`, which does not begin with
`user.`, returns 0 and erases the user xattr `color`. A key of five characters or more that
does not begin with `user.` is answered by `-EINVAL` and `-ENOATTR` by the first two. -/
theorem C30_keys_without_user_prefix :
    Trunk.set_metadata Trunk.sample_object_color "abc".toList "v".toList 0 = none ∧
    Trunk.get_metadata (fun x _ => x.value.length) Trunk.sample_object_color "abc".toList 0
      = none ∧
    Trunk.remove_metadata Trunk.sample_object_color "abc".toList = none ∧
    Trunk.set_metadata Trunk.sample_object_color [] "v".toList 0 = none ∧
    Trunk.remove_metadata Trunk.sample_object_color "xxxx.color".toList
      = some (0, Trunk.sample_object) ∧
    Trunk.set_metadata Trunk.sample_object_color "xxxx.color".toList "v".toList 0
      = some { ret := - EINVAL, needs_commit := false, obj := Trunk.sample_object_color } ∧
    Trunk.get_metadata (fun x _ => x.value.length) Trunk.sample_object_color
      "xxxx.color".toList 0 = some (- ENOATTR) := by
  decide

end S3Fuse
